import Mathlib

/-!
# Sync schedule lifecycle: recurrence translator and schedule manager

A shallow embedding of `server/utils/utils.go` (`ToCron`, `ExtractJSON`), of
`server/internal/temporal/client.go` (`ManageSync`, `createSchedule`,
`updateSchedule`) and of the handlers of `server/internal/handlers`: the update
and delete handlers of `source.go` and `destination.go`, and the job handlers of
`job.go` with their helpers and their workflow query.

Conventions of the embedding.

* A Go `string` is a Lean `String`, read as its sequence of runes. Go strings
  that are not valid UTF-8 are outside this type.
* `strings.ToLower` lower-cases rune by rune. On ASCII runes the mapping is
  spelled out (`'A'..'Z'` move by 32); on the other runes it is the Unicode case
  table of Go's `unicode` package, which is taken as a parameter
  `tbl : Char → Char` and never inspected.
* Go's `int` is 64 bits wide (`strconv.IntSize = 64`).
* An `error` is the text it prints, a `map[string]interface{}` payload is the
  list of its key/value pairs.
-/

namespace OlakeSync

/-! ## Library functions used by `ToCron` -/

/-- Width of Go's `int` in bits. -/
def intSize : Nat := 64

/-- The function `unicode.ToLower` on one rune: ASCII is handled inline, every other rune goes
through the case table `tbl`. -/
def lowerRune (tbl : Char → Char) (c : Char) : Char :=
  if c.toNat < 128 then
    (if 'A' ≤ c ∧ c ≤ 'Z' then Char.ofNat (c.toNat + 32) else c)
  else tbl c

/-- The function `strings.ToLower`: every rune lower-cased. -/
def ToLower (tbl : Char → Char) (s : String) : String :=
  ⟨s.data.map (lowerRune tbl)⟩

/-- Pieces of a rune sequence between the occurrences of `sep`. -/
def splitRunes (sep : Char) : List Char → List (List Char)
  | [] => [[]]
  | c :: cs =>
    if c = sep then [] :: splitRunes sep cs
    else
      match splitRunes sep cs with
      | [] => [[c]]
      | p :: ps => (c :: p) :: ps

/-- The function `strings.Split(s, sep)` for a separator of one rune: the `Count(s, sep) + 1`
substrings between the separators. -/
def Split (s : String) (sep : Char) : List String :=
  (splitRunes sep s.data).map String.mk

/-- Value of a run of ASCII decimal digits read left to right from the
accumulator `acc`; `none` at the first rune that is not a digit. -/
def digitsValue : Nat → List Char → Option Nat
  | acc, [] => some acc
  | acc, c :: cs =>
    if '0' ≤ c ∧ c ≤ '9' then digitsValue (acc * 10 + (c.toNat - 48)) cs else none

/-- The function `strconv.Atoi`: an optional sign `+` or `-`, then one or more ASCII decimal
digits; `none` stands for both of its errors, the syntax error and the range
error raised when the value does not fit an `int` of `intSize` bits. -/
def Atoi (s : String) : Option Int :=
  let signed : Bool := s.data.head? = some '-' ∨ s.data.head? = some '+'
  let body : List Char := if signed then s.data.tail else s.data
  match body with
  | [] => none
  | _ :: _ =>
    match digitsValue 0 body with
    | none => none
    | some n =>
      if s.data.head? = some '-' then
        (if n ≤ 2 ^ (intSize - 1) then some (-(n : Int)) else none)
      else
        (if n < 2 ^ (intSize - 1) then some (n : Int) else none)

/-- The verb `%d` of `fmt.Sprintf` on an `int`. -/
def formatInt : Int → String
  | Int.ofNat n => Nat.repr n
  | Int.negSucc n => "-" ++ Nat.repr (n + 1)

/-! ## `utils.ToCron` -/

/-- ToCron converts a frequency string to a cron expression. -/
def ToCron (tbl : Char → Char) (frequency : String) : String :=
  match Split (ToLower tbl frequency) '-' with
  | [valueStr, unit] =>
    match Atoi valueStr with
    | none => frequency
    | some value =>
      if value ≤ 0 then frequency
      else if unit = "minutes" then "*/" ++ formatInt value ++ " * * * *"
      else if unit = "hours" then "0 */" ++ formatInt value ++ " * * *"
      else if unit = "days" then "0 0 */" ++ formatInt value ++ " * *"
      else if unit = "weeks" then "0 0 * * */" ++ formatInt value
      else if unit = "months" then "0 0 1 */" ++ formatInt value ++ " *"
      else if unit = "years" then "0 0 1 1 */" ++ formatInt value
      else frequency
  | _ => frequency

/-- The six unit words of the `switch` in `ToCron`. -/
def units : List String := ["minutes", "hours", "days", "weeks", "months", "years"]

/-! ## The workflow engine gateway used by `ManageSync`

The schedule client of the Temporal SDK is an interface to an external engine.
It is a record of operations over an engine state `σ`; each operation returns
its result (`Except.error` carries the text of the Go `error`) and the next
engine state. -/

/-- SyncAction represents the type of action to perform. -/
abbrev SyncAction := String

def ActionCreate : SyncAction := "create"
def ActionUpdate : SyncAction := "update"
def ActionDelete : SyncAction := "delete"
def ActionTrigger : SyncAction := "trigger"
def ActionPause : SyncAction := "pause"
def ActionUnpause : SyncAction := "unpause"

/-- The overlap policies of `enums.ScheduleOverlapPolicy`. -/
inductive ScheduleOverlapPolicy
  | UNSPECIFIED | SKIP | BUFFER_ONE | BUFFER_ALL | CANCEL_OTHER | TERMINATE_OTHER | ALLOW_ALL
deriving DecidableEq, Repr

/-- The fields of `client.ScheduleSpec` the code sets and reads. -/
structure ScheduleSpec where
  CronExpressions : List String
deriving DecidableEq, Repr

/-- The fields of `client.ScheduleWorkflowAction` the code sets; `Workflow` is the
name of the workflow function. -/
structure ScheduleWorkflowAction where
  ID : String
  Workflow : String
  Args : List Int
  TaskQueue : String
deriving DecidableEq, Repr

/-- The fields of `client.ScheduleOptions` the code sets. -/
structure ScheduleOptions where
  ID : String
  Spec : ScheduleSpec
  Action : ScheduleWorkflowAction
  Overlap : ScheduleOverlapPolicy
deriving DecidableEq, Repr

/-- A schedule as the engine holds and describes it (`client.Schedule`): its
action, its spec, its overlap policy and its paused state with the note. -/
structure Schedule where
  Action : ScheduleWorkflowAction
  Spec : ScheduleSpec
  Overlap : ScheduleOverlapPolicy
  Paused : Bool
  Note : String
deriving DecidableEq, Repr

/-- The part of `client.ScheduleDescription` the code reads. -/
structure ScheduleDescription where
  Schedule : Schedule
deriving DecidableEq, Repr

/-- One call through the gateway. `update` records the cron expression captured
by the `DoUpdate` closure that is handed to the engine. -/
inductive GatewayCall
  | describe (scheduleID : String)
  | create (options : ScheduleOptions)
  | update (scheduleID : String) (cronSpec : String)
  | delete (scheduleID : String)
  | trigger (scheduleID : String) (overlap : ScheduleOverlapPolicy)
  | pause (scheduleID : String) (note : String)
  | unpause (scheduleID : String) (note : String)
deriving DecidableEq, Repr

/-- The schedule a gateway call addresses. -/
def GatewayCall.scheduleID : GatewayCall → String
  | .describe id => id
  | .create options => options.ID
  | .update id _ => id
  | .delete id => id
  | .trigger id _ => id
  | .pause id _ => id
  | .unpause id _ => id

/-- Whether a gateway call writes to the engine: every call but `describe`. -/
def GatewayCall.mutating : GatewayCall → Bool
  | .describe _ => false
  | _ => true

/-- The schedule operations of the engine over an engine state `σ`. The first
argument of the handle operations is the schedule ID the handle was obtained
for (`ScheduleClient().GetHandle(ctx, scheduleID)` makes no remote call). -/
structure ScheduleClient (σ : Type) where
  Describe : String → σ → Except String ScheduleDescription × σ
  Create : ScheduleOptions → σ → Except String Unit × σ
  Update : String → (ScheduleDescription → Schedule) → σ → Except String Unit × σ
  Delete : String → σ → Except String Unit × σ
  Trigger : String → ScheduleOverlapPolicy → σ → Except String Unit × σ
  Pause : String → String → σ → Except String Unit × σ
  Unpause : String → String → σ → Except String Unit × σ

/-- The result payload `map[string]interface{}` as its key/value pairs. -/
abbrev Payload := List (String × String)

/-- What one invocation leaves behind: the returned `(payload, error)`, the
engine state after it, and the gateway calls it made, in order. -/
structure Run (σ : Type) where
  result : Except String Payload
  engine : σ
  calls : List GatewayCall

/-- Name under which the sync workflow function `RunSyncWorkflow` is registered. -/
def RunSyncWorkflow : String := "RunSyncWorkflow"

/-! ## `temporal.Client` -/

/-- createSchedule creates a new schedule. -/
def createSchedule {σ : Type} (tbl : Char → Char) (TaskQueue : String) (c : ScheduleClient σ)
    (st : σ) (scheduleID workflowID cronSpec : String) (jobID : Int) : Run σ :=
  let cronSpec := ToCron tbl cronSpec
  let options : ScheduleOptions :=
    { ID := scheduleID
      Spec := { CronExpressions := [cronSpec] }
      Action :=
        { ID := workflowID, Workflow := RunSyncWorkflow, Args := [jobID], TaskQueue := TaskQueue }
      Overlap := ScheduleOverlapPolicy.SKIP }
  match c.Create options st with
  | (Except.error err, st1) =>
    { result := Except.error ("failed to create schedule: " ++ err)
      engine := st1, calls := [GatewayCall.create options] }
  | (Except.ok _, st1) =>
    { result := Except.ok [("message", "Schedule created successfully"), ("cron", cronSpec)]
      engine := st1, calls := [GatewayCall.create options] }

/-- The `DoUpdate` closure of `updateSchedule`: the described schedule with its
spec replaced by the single cron expression `cronSpec`. -/
def DoUpdate (cronSpec : String) (input : ScheduleDescription) : Schedule :=
  { input.Schedule with Spec := { CronExpressions := [cronSpec] } }

/-- updateSchedule updates an existing schedule. -/
def updateSchedule {σ : Type} (tbl : Char → Char) (c : ScheduleClient σ) (st : σ)
    (currentSchedule : ScheduleDescription) (scheduleID cronSpec : String) : Run σ :=
  let cronSpec := ToCron tbl cronSpec
  if 0 < currentSchedule.Schedule.Spec.CronExpressions.length ∧
      currentSchedule.Schedule.Spec.CronExpressions.head? = some cronSpec then
    { result := Except.ok [("message", "Schedule already up to date")], engine := st, calls := [] }
  else
    match c.Update scheduleID (DoUpdate cronSpec) st with
    | (Except.error err, st1) =>
      { result := Except.error ("failed to update schedule: " ++ err)
        engine := st1, calls := [GatewayCall.update scheduleID cronSpec] }
    | (Except.ok _, st1) =>
      { result := Except.ok [("message", "Schedule updated successfully"), ("cron", cronSpec)]
        engine := st1, calls := [GatewayCall.update scheduleID cronSpec] }

/-- The workflow ID `fmt.Sprintf("sync-%s-%d", projectID, jobID)`. -/
def workflowID (projectID : String) (jobID : Int) : String :=
  "sync-" ++ projectID ++ "-" ++ formatInt jobID

/-- The schedule ID `fmt.Sprintf("schedule-%s", workflowID)`. -/
def scheduleID (projectID : String) (jobID : Int) : String :=
  "schedule-" ++ workflowID projectID jobID

/-- The action of `ManageSync` once the schedule has been described and the
existence guard has passed: the body of its `switch`. -/
def dispatch {σ : Type} (tbl : Char → Char) (TaskQueue : String) (c : ScheduleClient σ)
    (st : σ) (described : Except String ScheduleDescription) (projectID : String) (jobID : Int)
    (frequency : String) (action : SyncAction) : Run σ :=
  let scheduleID := scheduleID projectID jobID
  if action = ActionCreate then
    if frequency = "" then
      { result := Except.error "frequency is required for creating schedule"
        engine := st, calls := [] }
    else
      match described with
      | Except.ok _ => { result := Except.error "schedule already exists", engine := st, calls := [] }
      | Except.error _ =>
        createSchedule tbl TaskQueue c st scheduleID (workflowID projectID jobID) frequency jobID
  else if action = ActionUpdate then
    if frequency = "" then
      { result := Except.error "frequency is required for updating schedule"
        engine := st, calls := [] }
    else
      match described with
      | Except.ok currentSchedule => updateSchedule tbl c st currentSchedule scheduleID frequency
      -- not reached from ManageSync, whose guard has returned: there is no schedule to update
      | Except.error _ => { result := Except.error "schedule does not exist", engine := st, calls := [] }
  else if action = ActionDelete then
    match c.Delete scheduleID st with
    | (Except.error err, st1) =>
      { result := Except.error ("failed to delete schedule: " ++ err)
        engine := st1, calls := [GatewayCall.delete scheduleID] }
    | (Except.ok _, st1) =>
      { result := Except.ok [("message", "Schedule deleted successfully")]
        engine := st1, calls := [GatewayCall.delete scheduleID] }
  else if action = ActionTrigger then
    match c.Trigger scheduleID ScheduleOverlapPolicy.SKIP st with
    | (Except.error err, st1) =>
      { result := Except.error ("failed to trigger schedule: " ++ err)
        engine := st1, calls := [GatewayCall.trigger scheduleID ScheduleOverlapPolicy.SKIP] }
    | (Except.ok _, st1) =>
      { result := Except.ok [("message", "Schedule triggered successfully")]
        engine := st1, calls := [GatewayCall.trigger scheduleID ScheduleOverlapPolicy.SKIP] }
  else if action = ActionPause then
    match c.Pause scheduleID "Paused via API" st with
    | (Except.error err, st1) =>
      { result := Except.error ("failed to pause schedule: " ++ err)
        engine := st1, calls := [GatewayCall.pause scheduleID "Paused via API"] }
    | (Except.ok _, st1) =>
      { result := Except.ok [("message", "Schedule paused successfully")]
        engine := st1, calls := [GatewayCall.pause scheduleID "Paused via API"] }
  else if action = ActionUnpause then
    match c.Unpause scheduleID "Unpaused via API" st with
    | (Except.error err, st1) =>
      { result := Except.error ("failed to unpause schedule: " ++ err)
        engine := st1, calls := [GatewayCall.unpause scheduleID "Unpaused via API"] }
    | (Except.ok _, st1) =>
      { result := Except.ok [("message", "Schedule unpaused successfully")]
        engine := st1, calls := [GatewayCall.unpause scheduleID "Unpaused via API"] }
  else
    { result := Except.error ("unsupported action: " ++ action), engine := st, calls := [] }

/-- ManageSync handles all sync operations (create, update, delete, trigger). -/
def ManageSync {σ : Type} (tbl : Char → Char) (TaskQueue : String) (c : ScheduleClient σ)
    (st : σ) (projectID : String) (jobID : Int) (frequency : String) (action : SyncAction) :
    Run σ :=
  let scheduleID := scheduleID projectID jobID
  let described := (c.Describe scheduleID st).1
  let st1 := (c.Describe scheduleID st).2
  let scheduleExists : Bool :=
    match described with
    | Except.ok _ => true
    | Except.error _ => false
  if action ≠ ActionCreate ∧ scheduleExists = false then
    { result := Except.error "schedule does not exist"
      engine := st1, calls := [GatewayCall.describe scheduleID] }
  else
    let run := dispatch tbl TaskQueue c st1 described projectID jobID frequency action
    { run with calls := GatewayCall.describe scheduleID :: run.calls }

/-! ## The engine as a store of schedules -/

/-- The schedules an engine holds, by schedule ID. -/
abbrev Store := String → Option Schedule

/-- The store `st` with the schedule `id` set to `entry`. -/
def Store.set (st : Store) (id : String) (entry : Option Schedule) : Store :=
  fun k => if k = id then entry else st k

/-- Modelled from the spec: the external workflow engine, which is not part of
the repository, as the in-memory store of the state machine of section 4.3.
`describe` succeeds exactly when the schedule was created and not deleted;
`create` adds an active schedule and fails when one is there; `update`,
`delete`, `trigger`, `pause` and `unpause` fail when none is there; `pause` and
`unpause` set the paused flag and the note, `trigger` leaves the schedule as it
is, `delete` removes it. `accepts` is the engine's own validation of a spec:
`create` and `update` fail, changing nothing, on a spec it rejects. -/
def storeClient (accepts : ScheduleSpec → Bool) : ScheduleClient Store where
  Describe := fun id st =>
    match st id with
    | some s => (Except.ok { Schedule := s }, st)
    | none => (Except.error "schedule not found", st)
  Create := fun options st =>
    match st options.ID with
    | some _ => (Except.error "schedule is already registered", st)
    | none =>
      if accepts options.Spec then
        (Except.ok (), st.set options.ID (some
          { Action := options.Action, Spec := options.Spec, Overlap := options.Overlap
            Paused := false, Note := "" }))
      else (Except.error "invalid schedule spec", st)
  Update := fun id doUpdate st =>
    match st id with
    | none => (Except.error "schedule not found", st)
    | some s =>
      if accepts (doUpdate { Schedule := s }).Spec then
        (Except.ok (), st.set id (some (doUpdate { Schedule := s })))
      else (Except.error "invalid schedule spec", st)
  Delete := fun id st =>
    match st id with
    | none => (Except.error "schedule not found", st)
    | some _ => (Except.ok (), st.set id none)
  Trigger := fun id _ st =>
    match st id with
    | none => (Except.error "schedule not found", st)
    | some _ => (Except.ok (), st)
  Pause := fun id note st =>
    match st id with
    | none => (Except.error "schedule not found", st)
    | some s => (Except.ok (), st.set id (some { s with Paused := true, Note := note }))
  Unpause := fun id note st =>
    match st id with
    | none => (Except.error "schedule not found", st)
    | some s => (Except.ok (), st.set id (some { s with Paused := false, Note := note }))

/-- The engine that holds no schedule. -/
def Store.empty : Store := fun _ => none

/-! ## The shorthand grammar of the specification -/

/-- A rune `0`..`9`. -/
def isDigitRune (c : Char) : Bool := decide ('0' ≤ c ∧ c ≤ '9')

/-- The upper-case form of an ASCII lower-case letter. -/
def upperRune (c : Char) : Char := Char.ofNat (c.toNat - 32)

/-- Whether `u` spells the lower-case word `w` in some mix of upper and lower
case: rune by rune, `u` has the letter of `w` or its upper-case form. -/
def caseSpelling : List Char → List Char → Bool
  | [], [] => true
  | c :: cs, d :: ds => (c == d || c == upperRune d) && caseSpelling cs ds
  | _, _ => false

/-- The language `\d+-(minutes|hours|days|weeks|months|years)` over runes, the
unit read through `fold`. -/
def shorthandRunes (fold : Char → Char) (s : List Char) : Bool :=
  !(s.takeWhile isDigitRune).isEmpty &&
    match s.dropWhile isDigitRune with
    | c :: u => c == '-' && units.contains (String.mk (u.map fold))
    | [] => false

/-- The shorthand grammar of the specification,
`^\d+-(minutes|hours|days|weeks|months|years)$`, case-insensitive on the unit:
the letters `A`..`Z` of the unit count as `a`..`z`. -/
def matchesShorthand (s : String) : Bool :=
  shorthandRunes (fun c => if 'A' ≤ c ∧ c ≤ 'Z' then Char.ofNat (c.toNat + 32) else c) s.data

/-- The grammar `^\+?\d+-(minutes|hours|days|weeks|months|years)$`, read with
case: the shorthand grammar after an optional sign `+`. -/
def matchesSignedShorthand (s : String) : Bool :=
  shorthandRunes id (if s.data.head? = some '+' then s.data.tail else s.data)

/-- The store that holds one schedule, created for job 7 of project `p` every
five minutes. -/
def Store.sample : Store :=
  (ManageSync id "OLAKE_DOCKER_TASK_QUEUE" (storeClient (fun _ => true)) Store.empty "p" 7
    "5-minutes" ActionCreate).engine

/-! ## Gateway calls and the checks of `ManageSync` -/

/-- The engine operation a gateway call stands for, run on the engine state `st`;
for `update` the closure handed over is `DoUpdate` of the recorded cron
expression. -/
def GatewayCall.perform {σ : Type} (c : ScheduleClient σ) :
    GatewayCall → σ → Except String Unit × σ
  | .describe id, st => ((c.Describe id st).1.map (fun _ => ()), (c.Describe id st).2)
  | .create options, st => c.Create options st
  | .update id cronSpec, st => c.Update id (DoUpdate cronSpec) st
  | .delete id, st => c.Delete id st
  | .trigger id overlap, st => c.Trigger id overlap st
  | .pause id note, st => c.Pause id note st
  | .unpause id note, st => c.Unpause id note st

/-- The texts of the errors `ManageSync` returns from its own checks, before any
write to the engine. -/
def preconditionErrors (action : SyncAction) : List String :=
  ["frequency is required for creating schedule",
   "frequency is required for updating schedule",
   "schedule does not exist",
   "schedule already exists",
   "unsupported action: " ++ action]

/-- The six actions of the `switch` in `ManageSync`. -/
def supportedActions : List SyncAction :=
  [ActionCreate, ActionUpdate, ActionDelete, ActionTrigger, ActionPause, ActionUnpause]

/-- The operation a gateway call carries out, under the name the `SyncAction`
values give it. -/
def GatewayCall.action : GatewayCall → String
  | .describe _ => "describe"
  | .create _ => "create"
  | .update _ _ => "update"
  | .delete _ => "delete"
  | .trigger _ _ => "trigger"
  | .pause _ _ => "pause"
  | .unpause _ _ => "unpause"

/-! ## The handlers of sources and destinations

The handlers of `server/internal/handlers` work on the rows of the persistence
layer and on the workflow engine. The persistence layer (`database.SourceORM`,
`database.DestinationORM`, `database.JobORM`), the row types of `models` and the
helper `cancelJobWorkflow` are not part of the sources at hand: the row types
carry the fields the handlers read and write, the ORMs are records of operations
over a database state `D`, and `cancelJobWorkflow`, which is handed the Temporal
client only, is an operation over the engine state `E`. The field `Type` of the
rows and requests is written `Type_`. A `time.Time` is a clock reading, a
`*models.User` is the ID of the user, a request body is `none` when
`json.Unmarshal` rejects it. Telemetry calls are left out. -/

/-- The fields of `models.Source` the handlers read and write. -/
structure Source where
  ID : Int
  Name : String
  Type_ : String
  Version : String
  Config : String
  ProjectID : String
  CreatedBy : Option Int
  UpdatedBy : Option Int
  UpdatedAt : Nat
deriving DecidableEq, Repr

/-- The fields of `models.Destination` the handlers read and write. -/
structure Destination where
  ID : Int
  Name : String
  DestType : String
  Version : String
  Config : String
  ProjectID : String
  CreatedBy : Option Int
  UpdatedBy : Option Int
  UpdatedAt : Nat
deriving DecidableEq, Repr

/-- The fields of `models.Job` the handlers read and write; `SourceID` and
`DestID` are the rows the job points to. -/
structure Job where
  ID : Int
  Name : String
  SourceID : Option Source
  DestID : Option Destination
  Active : Bool
  Frequency : String
  StreamsConfig : String
  State : String
  ProjectID : String
  CreatedBy : Option Int
  UpdatedBy : Option Int
  UpdatedAt : Nat
deriving DecidableEq, Repr

/-- The body of an update request for a source (`models.UpdateSourceRequest`). -/
structure UpdateSourceRequest where
  Name : String
  Type_ : String
  Version : String
  Config : String
deriving DecidableEq, Repr

/-- The body of an update request for a destination
(`models.UpdateDestinationRequest`). -/
structure UpdateDestinationRequest where
  Name : String
  Type_ : String
  Version : String
  Config : String
deriving DecidableEq, Repr

/-- The operations of `database.SourceORM` the handlers call. `Create` returns the
row with the ID the database gave it. -/
structure SourceORM (D : Type) where
  GetByID : Int → D → Except String Source
  GetByNameAndType : String → String → String → D → Except String (List Source)
  Create : Source → D → Except String Source × D
  Update : Source → D → Except String Unit × D
  Delete : Int → D → Except String Unit × D

/-- The operations of `database.DestinationORM` the handlers call. -/
structure DestinationORM (D : Type) where
  GetByID : Int → D → Except String Destination
  GetByNameAndType : String → String → String → D → Except String (List Destination)
  Create : Destination → D → Except String Destination × D
  Update : Destination → D → Except String Unit × D
  Delete : Int → D → Except String Unit × D

/-- The operations of `database.JobORM` the handlers call. -/
structure JobORM (D : Type) where
  GetByID : Int → D → Except String Job
  GetBySourceID : Int → D → Except String (List Job)
  GetByDestinationID : Int → D → Except String (List Job)
  IsJobNameUnique : String → String → D → Except String Bool
  Create : Job → D → Except String Job × D
  Update : Job → D → Except String Unit × D
  Delete : Int → D → Except String Unit × D

/-- The response written by `utils.RespondJSON`: the HTTP status and the fields of
`models.JSONResponse`. -/
structure Response (δ : Type) where
  status : Nat
  success : Bool
  message : String
  data : Option δ

/-- The function `utils.ErrorResponse`. -/
def ErrorResponse {δ : Type} (status : Nat) (message : String) : Response δ :=
  { status := status, success := false, message := message, data := none }

/-- The function `utils.SuccessResponse`, with `http.StatusOK`. -/
def SuccessResponse {δ : Type} (data : δ) : Response δ :=
  { status := 200, success := true, message := "success", data := some data }

/-- One effect of a handler outside its own memory: a call of
`cancelJobWorkflow`, a write through an ORM (with the row or the ID handed over),
or a call of `ManageSync`. -/
inductive HandlerCall
  | cancelJobWorkflow (job : Job) (projectID : String)
  | updateSource (row : Source)
  | updateDestination (row : Destination)
  | createSource (row : Source)
  | createDestination (row : Destination)
  | deleteSource (id : Int)
  | deleteDestination (id : Int)
  | createJob (row : Job)
  | updateJob (row : Job)
  | deleteJob (id : Int)
  | manageSync (projectID : String) (jobID : Int) (frequency : String) (action : String)
deriving DecidableEq, Repr

/-- What one handler invocation leaves behind: the response, the database, the
engine, and the effects in the order they were made. -/
structure HandlerRun (D E δ : Type) where
  response : Response δ
  db : D
  engine : E
  calls : List HandlerCall

/-- The loop `for _, job := range jobs` of `UpdateSource` and
`UpdateDestination`: `cancelJobWorkflow` job by job, stopping at the first error,
which is returned with the engine and the calls made. -/
def cancelWorkflows {E : Type} (cancelJobWorkflow : Job → String → E → Except String Unit × E)
    (projectID : String) : List Job → E → Option String × E × List HandlerCall
  | [], engine => (none, engine, [])
  | job :: rest, engine =>
    match cancelJobWorkflow job projectID engine with
    | (Except.error err, e1) => (some err, e1, [HandlerCall.cancelJobWorkflow job projectID])
    | (Except.ok _, e1) =>
      ((cancelWorkflows cancelJobWorkflow projectID rest e1).1,
       (cancelWorkflows cancelJobWorkflow projectID rest e1).2.1,
       HandlerCall.cancelJobWorkflow job projectID ::
        (cancelWorkflows cancelJobWorkflow projectID rest e1).2.2)

/-- The handler `SourceHandler.UpdateSource` for the source `id` of `projectID`. -/
def UpdateSource {D E : Type} (sourceORM : SourceORM D) (jobORM : JobORM D)
    (cancelJobWorkflow : Job → String → E → Except String Unit × E) (now : Nat)
    (sessionUserID : Option Int) (id : Int) (projectID : String)
    (body : Option UpdateSourceRequest) (db : D) (engine : E) :
    HandlerRun D E UpdateSourceRequest :=
  match body with
  | none =>
    { response := ErrorResponse 400 "Invalid request format", db := db, engine := engine
      calls := [] }
  | some req =>
    match sourceORM.GetByID id db with
    | Except.error _ =>
      { response := ErrorResponse 404 "Source not found", db := db, engine := engine
        calls := [] }
    | Except.ok found =>
      let existingSource : Source :=
        { found with
          Name := req.Name, Config := req.Config, Type_ := req.Type_, Version := req.Version
          UpdatedAt := now
          UpdatedBy := match sessionUserID with
            | some userID => some userID
            | none => found.UpdatedBy }
      match jobORM.GetBySourceID existingSource.ID db with
      | Except.error err =>
        { response := ErrorResponse 500 ("Failed to fetch jobs for source " ++ err)
          db := db, engine := engine, calls := [] }
      | Except.ok jobs =>
        match cancelWorkflows cancelJobWorkflow projectID jobs engine with
        | (some err, e1, cancels) =>
          { response := ErrorResponse 500 ("Failed to cancel workflow for job " ++ err)
            db := db, engine := e1, calls := cancels }
        | (none, e1, cancels) =>
          match sourceORM.Update existingSource db with
          | (Except.error err, db1) =>
            { response := ErrorResponse 500 ("Failed to update source " ++ err)
              db := db1, engine := e1
              calls := cancels ++ [HandlerCall.updateSource existingSource] }
          | (Except.ok _, db1) =>
            { response := SuccessResponse req, db := db1, engine := e1
              calls := cancels ++ [HandlerCall.updateSource existingSource] }

/-- The handler `DestHandler.UpdateDestination` for the destination `id` of
`projectID`. -/
def UpdateDestination {D E : Type} (destORM : DestinationORM D) (jobORM : JobORM D)
    (cancelJobWorkflow : Job → String → E → Except String Unit × E) (now : Nat)
    (sessionUserID : Option Int) (id : Int) (projectID : String)
    (body : Option UpdateDestinationRequest) (db : D) (engine : E) :
    HandlerRun D E UpdateDestinationRequest :=
  match body with
  | none =>
    { response := ErrorResponse 400 "Invalid request format", db := db, engine := engine
      calls := [] }
  | some req =>
    match destORM.GetByID id db with
    | Except.error _ =>
      { response := ErrorResponse 404 "Destination not found", db := db, engine := engine
        calls := [] }
    | Except.ok found =>
      let existingDest : Destination :=
        { found with
          Name := req.Name, DestType := req.Type_, Version := req.Version, Config := req.Config
          UpdatedAt := now
          UpdatedBy := match sessionUserID with
            | some userID => some userID
            | none => found.UpdatedBy }
      match jobORM.GetByDestinationID existingDest.ID db with
      | Except.error err =>
        { response := ErrorResponse 500 ("Failed to fetch jobs for destination " ++ err)
          db := db, engine := engine, calls := [] }
      | Except.ok jobs =>
        match cancelWorkflows cancelJobWorkflow projectID jobs engine with
        | (some err, e1, cancels) =>
          { response := ErrorResponse 500 ("Failed to cancel workflow for job " ++ err)
            db := db, engine := e1, calls := cancels }
        | (none, e1, cancels) =>
          match destORM.Update existingDest db with
          | (Except.error err, db1) =>
            { response := ErrorResponse 500 ("Failed to update destination " ++ err)
              db := db1, engine := e1
              calls := cancels ++ [HandlerCall.updateDestination existingDest] }
          | (Except.ok _, db1) =>
            { response := SuccessResponse req, db := db1, engine := e1
              calls := cancels ++ [HandlerCall.updateDestination existingDest] }

/-! ## The persistence layer as tables in memory -/

/-- Modelled from the spec: the relational persistence layer, which is not part of
the sources at hand, as plain CRUD over three tables held in memory; `nextID` is
the ID the next created row gets. A job refers to its source and destination by
their IDs. -/
structure MemDB where
  sources : List Source
  destinations : List Destination
  jobs : List Job
  nextID : Int
deriving DecidableEq, Repr

/-- Modelled from the spec: the source table of the persistence layer, plain
CRUD by row ID; reads of a missing row and writes to a missing row fail. -/
def memSourceORM : SourceORM MemDB where
  GetByID := fun id db =>
    match db.sources.find? (fun r => r.ID = id) with
    | some r => Except.ok r
    | none => Except.error "no row found"
  GetByNameAndType := fun name type project db =>
    Except.ok (db.sources.filter
      (fun r => r.Name = name ∧ r.Type_ = type ∧ r.ProjectID = project))
  Create := fun row db =>
    (Except.ok { row with ID := db.nextID },
      { db with sources := db.sources ++ [{ row with ID := db.nextID }]
                nextID := db.nextID + 1 })
  Update := fun row db =>
    if db.sources.any (fun r => r.ID = row.ID) then
      (Except.ok (),
        { db with sources := db.sources.map (fun r => if r.ID = row.ID then row else r) })
    else (Except.error "no row found", db)
  Delete := fun id db =>
    if db.sources.any (fun r => r.ID = id) then
      (Except.ok (), { db with sources := db.sources.filter (fun r => r.ID ≠ id) })
    else (Except.error "no row found", db)

/-- Modelled from the spec: the destination table of the persistence layer, plain
CRUD by row ID. -/
def memDestinationORM : DestinationORM MemDB where
  GetByID := fun id db =>
    match db.destinations.find? (fun r => r.ID = id) with
    | some r => Except.ok r
    | none => Except.error "no row found"
  GetByNameAndType := fun name type project db =>
    Except.ok (db.destinations.filter
      (fun r => r.Name = name ∧ r.DestType = type ∧ r.ProjectID = project))
  Create := fun row db =>
    (Except.ok { row with ID := db.nextID },
      { db with destinations := db.destinations ++ [{ row with ID := db.nextID }]
                nextID := db.nextID + 1 })
  Update := fun row db =>
    if db.destinations.any (fun r => r.ID = row.ID) then
      (Except.ok (),
        { db with
          destinations := db.destinations.map (fun r => if r.ID = row.ID then row else r) })
    else (Except.error "no row found", db)
  Delete := fun id db =>
    if db.destinations.any (fun r => r.ID = id) then
      (Except.ok (), { db with destinations := db.destinations.filter (fun r => r.ID ≠ id) })
    else (Except.error "no row found", db)

/-- Modelled from the spec: the job table of the persistence layer, plain CRUD by
row ID, with the jobs of a source or of a destination in table order and the
check that a name is not yet used in a project. -/
def memJobORM : JobORM MemDB where
  GetByID := fun id db =>
    match db.jobs.find? (fun r => r.ID = id) with
    | some r => Except.ok r
    | none => Except.error "no row found"
  GetBySourceID := fun id db =>
    Except.ok (db.jobs.filter (fun r => r.SourceID.map (fun s => s.ID) = some id))
  GetByDestinationID := fun id db =>
    Except.ok (db.jobs.filter (fun r => r.DestID.map (fun d => d.ID) = some id))
  IsJobNameUnique := fun project name db =>
    Except.ok (!(db.jobs.any (fun r => r.ProjectID = project ∧ r.Name = name)))
  Create := fun row db =>
    (Except.ok { row with ID := db.nextID },
      { db with jobs := db.jobs ++ [{ row with ID := db.nextID }], nextID := db.nextID + 1 })
  Update := fun row db =>
    if db.jobs.any (fun r => r.ID = row.ID) then
      (Except.ok (), { db with jobs := db.jobs.map (fun r => if r.ID = row.ID then row else r) })
    else (Except.error "no row found", db)
  Delete := fun id db =>
    if db.jobs.any (fun r => r.ID = id) then
      (Except.ok (), { db with jobs := db.jobs.filter (fun r => r.ID ≠ id) })
    else (Except.error "no row found", db)

/-- Whether the text `t` occurs in `s`. -/
def containsText (s t : String) : Bool :=
  s.data.tails.any (fun rest => t.data.isPrefixOf rest)

/-- A source row of the sample database. -/
def sampleSource : Source :=
  { ID := 1, Name := "orders-db", Type_ := "postgres", Version := "v0.1.0", Config := "host=a"
    ProjectID := "p", CreatedBy := some 3, UpdatedBy := some 3, UpdatedAt := 100 }

/-- A destination row of the sample database. -/
def sampleDestination : Destination :=
  { ID := 2, Name := "lake", DestType := "iceberg", Version := "v0.1.0", Config := "host=a"
    ProjectID := "p", CreatedBy := some 3, UpdatedBy := some 3, UpdatedAt := 100 }

/-- The job of the sample database with the given ID and name, on the sample
source and destination. -/
def sampleJob (id : Int) (name : String) : Job :=
  { ID := id, Name := name, SourceID := some sampleSource, DestID := some sampleDestination
    Active := true, Frequency := "5-minutes", StreamsConfig := "streams", State := "state"
    ProjectID := "p", CreatedBy := some 3, UpdatedBy := some 3, UpdatedAt := 100 }

/-- A database with one source, one destination and two jobs on them: job 41
`nightly` and job 42 `hourly`. -/
def sampleDB : MemDB :=
  { sources := [sampleSource], destinations := [sampleDestination]
    jobs := [sampleJob 41 "nightly", sampleJob 42 "hourly"], nextID := 43 }

/-- A cancellation that fails for job 42 with a timeout of the engine and
succeeds for every other job; the engine state is the list of the job IDs it was
asked to cancel. -/
def sampleCancel (job : Job) (_projectID : String) (engine : List Int) :
    Except String Unit × List Int :=
  if job.ID = 42 then (Except.error "context deadline exceeded", engine ++ [job.ID])
  else (Except.ok (), engine ++ [job.ID])

/-- The request that renames the sample source and replaces its configuration. -/
def sampleSourceRequest : UpdateSourceRequest :=
  { Name := "orders-db-2", Type_ := "postgres", Version := "v0.2.0", Config := "host=b" }

/-- The request that renames the sample destination and replaces its
configuration. -/
def sampleDestinationRequest : UpdateDestinationRequest :=
  { Name := "lake-2", Type_ := "iceberg", Version := "v0.2.0", Config := "bucket=b" }

/-- The row `UpdateSource` builds from the row found and the request before it
looks for the linked jobs. -/
def editedSource (found : Source) (req : UpdateSourceRequest) (now : Nat)
    (sessionUserID : Option Int) : Source :=
  { found with
    Name := req.Name, Config := req.Config, Type_ := req.Type_, Version := req.Version
    UpdatedAt := now
    UpdatedBy := match sessionUserID with
      | some userID => some userID
      | none => found.UpdatedBy }

/-- The row `UpdateDestination` builds from the row found and the request before
it looks for the linked jobs. -/
def editedDestination (found : Destination) (req : UpdateDestinationRequest) (now : Nat)
    (sessionUserID : Option Int) : Destination :=
  { found with
    Name := req.Name, DestType := req.Type_, Version := req.Version, Config := req.Config
    UpdatedAt := now
    UpdatedBy := match sessionUserID with
      | some userID => some userID
      | none => found.UpdatedBy }

/-! ## The workflow-ID range of `GetAllJobs` and `GetJobTasks` -/

/-- The UTF-8 encoding of a rune, byte by byte. -/
def utf8Bytes (c : Char) : List Nat :=
  if c.toNat < 128 then [c.toNat]
  else if c.toNat < 2048 then [192 + c.toNat / 64, 128 + c.toNat % 64]
  else if c.toNat < 65536 then
    [224 + c.toNat / 4096, 128 + c.toNat / 64 % 64, 128 + c.toNat % 64]
  else
    [240 + c.toNat / 262144, 128 + c.toNat / 4096 % 64, 128 + c.toNat / 64 % 64,
      128 + c.toNat % 64]

/-- The bytes of a Go string. -/
def stringBytes (s : String) : List Nat :=
  (s.data.map utf8Bytes).flatten

/-- Byte-wise lexicographic `a ≤ b`. -/
def bytesLE : List Nat → List Nat → Bool
  | [], _ => true
  | _ :: _, [] => false
  | x :: xs, y :: ys => decide (x < y) || (x == y && bytesLE xs ys)

/-- The lower bound of the range in the query
`fmt.Sprintf("WorkflowId between 'sync-%s-%d' and 'sync-%s-%d-~'", ...)`. -/
def rangeLower (projectIDStr : String) (jobID : Int) : String :=
  "sync-" ++ projectIDStr ++ "-" ++ formatInt jobID

/-- The upper bound of the range in that query. -/
def rangeUpper (projectIDStr : String) (jobID : Int) : String :=
  "sync-" ++ projectIDStr ++ "-" ++ formatInt jobID ++ "-~"

/-- The query `GetAllJobs` and `GetJobTasks` hand to `ListWorkflow` for a job. -/
def workflowQuery (projectIDStr : String) (jobID : Int) : String :=
  "WorkflowId between '" ++ rangeLower projectIDStr jobID ++ "' and '" ++
    rangeUpper projectIDStr jobID ++ "'"

/-- Whether the workflow ID `id` lies in the range of the query for the job:
`between` is inclusive at both ends and compares byte by byte. -/
def inJobRange (projectIDStr : String) (jobID : Int) (id : String) : Bool :=
  bytesLE (stringBytes (rangeLower projectIDStr jobID)) (stringBytes id) &&
    bytesLE (stringBytes id) (stringBytes (rangeUpper projectIDStr jobID))

/-! ## `utils.ExtractJSON` -/

/-- The function `unicode.IsSpace`: the white space of Unicode. -/
def IsSpace (c : Char) : Bool :=
  c = '\t' || c = '\n' || c.toNat = 11 || c.toNat = 12 || c = '\r' || c = ' ' ||
    c.toNat = 0x85 || c.toNat = 0xA0 || c.toNat = 0x1680 ||
    (0x2000 ≤ c.toNat && c.toNat ≤ 0x200A) || c.toNat = 0x2028 || c.toNat = 0x2029 ||
    c.toNat = 0x202F || c.toNat = 0x205F || c.toNat = 0x3000

/-- The function `strings.TrimSpace`: the string without its leading and trailing
white space. -/
def TrimSpace (s : String) : String :=
  ⟨((s.data.dropWhile IsSpace).reverse.dropWhile IsSpace).reverse⟩

/-- Position of the first `c` in `s` counted from `i`, or `-1`. -/
def indexFrom (c : Char) : List Char → Nat → Int
  | [], _ => -1
  | x :: xs, i => if x = c then (i : Int) else indexFrom c xs (i + 1)

/-- The function `strings.Index(s, c)` for a substring `c` of one ASCII rune: the
position of its first occurrence, or `-1`. Positions count runes; byte offsets
order positions the same way, and a slice that starts and ends at ASCII runes holds
the same runes. -/
def Index (s : String) (c : Char) : Int :=
  indexFrom c s.data 0

/-- The function `strings.LastIndex(s, c)` for a substring `c` of one ASCII rune:
the position of its last occurrence, or `-1`. -/
def LastIndex (s : String) (c : Char) : Int :=
  if indexFrom c s.data.reverse 0 = -1 then -1
  else (s.data.length : Int) - 1 - indexFrom c s.data.reverse 0

/-- The slice `s[lo:hi]`. -/
def slice (s : String) (lo hi : Int) : String :=
  ⟨(s.data.take hi.toNat).drop lo.toNat⟩

/-- The loop of `ExtractJSON` over `lines[i]` for `i` from `len(lines) - 1` down to
`0`; the argument lists the lines in the order the loop visits them. -/
def scanLines {J : Type} (Unmarshal : String → Option J) : List String → Except String J
  | [] => Except.error "no valid JSON block found in output"
  | l :: rest =>
    let line := TrimSpace l
    if line = "" then scanLines Unmarshal rest
    else
      let start := Index line '\x7b'
      let end_ := LastIndex line '\x7d'
      if start ≠ -1 ∧ end_ ≠ -1 ∧ end_ > start then
        match Unmarshal (slice line start (end_ + 1)) with
        | none => scanLines Unmarshal rest
        | some result => Except.ok result
      else scanLines Unmarshal rest

/-- The part of a line `ExtractJSON` hands to `json.Unmarshal`, when it hands one
over. -/
def jsonPart (line : String) : Option String :=
  if Index line '\x7b' ≠ -1 ∧ LastIndex line '\x7d' ≠ -1 ∧
      LastIndex line '\x7d' > Index line '\x7b' then
    some (slice line (Index line '\x7b') (LastIndex line '\x7d' + 1))
  else none

/-- ExtractJSON extracts and returns the last valid JSON block from output.
`Unmarshal` is `json.Unmarshal` into a `map[string]interface{}`: the object a text
parses to, `none` when it reports an error. -/
def ExtractJSON {J : Type} (Unmarshal : String → Option J) (output : String) :
    Except String J :=
  let outputStr := TrimSpace output
  if outputStr = "" then Except.error "empty output"
  else scanLines Unmarshal (Split outputStr '\n').reverse

/-- The text of a line from its first `\x7b` to its last `\x7d`, when the line has
such a text: what is left of the line after dropping what stands before the first
`\x7b` and then what stands after the last `\x7d`. -/
def braceText (line : String) : Option String :=
  match ((line.data.dropWhile (fun c => c ≠ '\x7b')).reverse.dropWhile
      (fun c => c ≠ '\x7d')).reverse with
  | [] => none
  | c :: cs => some ⟨c :: cs⟩

/-- The object of a line that qualifies: the text from its first `\x7b` to its
last `\x7d`, parsed as a JSON object. -/
def lineObject {J : Type} (Unmarshal : String → Option J) (line : String) : Option J :=
  (braceText line).bind Unmarshal

/-- The claim about `ExtractJSON` in its own words: the lines of the trimmed
output are scanned from last to first and the object of the first line that
qualifies is returned; `empty output` when the trimmed output is empty,
`no valid JSON block found in output` when no line qualifies. -/
def lastJSONBlock {J : Type} (Unmarshal : String → Option J) (output : String) :
    Except String J :=
  if TrimSpace output = "" then Except.error "empty output"
  else
    match (Split (TrimSpace output) '\n').reverse.findSome? (lineObject Unmarshal) with
    | some obj => Except.ok obj
    | none => Except.error "no valid JSON block found in output"

/-- A stand-in for `json.Unmarshal` in examples: the text itself when it starts
with `\x7b`, ends with `\x7d` and holds no third brace. -/
def sampleUnmarshal (text : String) : Option String :=
  if text.data.head? = some '\x7b' ∧ text.data.getLast? = some '\x7d' ∧
      (text.data.filter (fun c => c = '\x7b' ∨ c = '\x7d')).length = 2 then some text
  else none

/-! ## The handlers of jobs, and the deletion of sources and destinations

`CreateJob`, `UpdateJob`, `DeleteJob` and `ActivateJob` of
`server/internal/handlers/job.go`, with the helpers `getOrCreateSource` and
`getOrCreateDestination`, and `DeleteSource` and `DeleteDestination`. A handler
writes its responses through `utils.RespondJSON`; a handler that goes on after
writing one writes a second, so what a handler leaves behind holds the list of
the responses written. The Temporal client of a handler is `none` when
`temporal.NewClient` failed in `Prepare`. `GetIDFromPath` is not part of the
sources at hand: the ID it reads from the path is an argument. -/

/-- The fields of `models.JobSourceConfig`. -/
structure JobSourceConfig where
  Name : String
  Type_ : String
  Version : String
  Config : String
deriving DecidableEq, Repr

/-- The fields of `models.JobDestinationConfig`. -/
structure JobDestinationConfig where
  Name : String
  Type_ : String
  Version : String
  Config : String
deriving DecidableEq, Repr

/-- The fields of `models.CreateJobRequest` that `CreateJob` reads. -/
structure CreateJobRequest where
  Name : String
  Source : JobSourceConfig
  Destination : JobDestinationConfig
  Frequency : String
  StreamsConfig : String
deriving DecidableEq, Repr

/-- The fields of `models.UpdateJobRequest` that `UpdateJob` reads. -/
structure UpdateJobRequest where
  Name : String
  Source : JobSourceConfig
  Destination : JobDestinationConfig
  Frequency : String
  StreamsConfig : String
  Activate : Bool
deriving DecidableEq, Repr

/-- The body of an activation request (`models.JobStatus`). -/
structure JobStatus where
  Activate : Bool
deriving DecidableEq, Repr

/-- The payload of a deletion (`models.DeleteSourceResponse`,
`models.DeleteDestinationResponse`): the name of the row. -/
structure DeleteResponse where
  Name : String
deriving DecidableEq, Repr

/-- What one invocation of a handler leaves behind when it may write more than
one response: the responses written, in order, the database, the engine, and the
effects in the order they were made. -/
structure HandlerTrace (D E δ : Type) where
  responses : List (Response δ)
  db : D
  engine : E
  calls : List HandlerCall

/-- The loop `for _, job := range jobs` of `DeleteSource` and
`DeleteDestination`: each job is set inactive and written back, up to the first
write that fails. The first component tells whether every write went through. -/
def deactivateJobs {D : Type} (jobORM : JobORM D) : List Job → D → Bool × D × List HandlerCall
  | [], db => (true, db, [])
  | job :: rest, db =>
    match jobORM.Update { job with Active := false } db with
    | (Except.error _, db1) => (false, db1, [HandlerCall.updateJob { job with Active := false }])
    | (Except.ok _, db1) =>
      ((deactivateJobs jobORM rest db1).1, (deactivateJobs jobORM rest db1).2.1,
        HandlerCall.updateJob { job with Active := false } ::
          (deactivateJobs jobORM rest db1).2.2)

/-- The handler `SourceHandler.DeleteSource` for the source `id`. -/
def DeleteSource {D E : Type} (sourceORM : SourceORM D) (jobORM : JobORM D) (id : Int)
    (db : D) (engine : E) : HandlerTrace D E DeleteResponse :=
  match sourceORM.GetByID id db with
  | Except.error _ =>
    { responses := [ErrorResponse 404 "Source not found"], db := db, engine := engine
      calls := [] }
  | Except.ok source =>
    match jobORM.GetBySourceID id db with
    | Except.error _ =>
      { responses := [ErrorResponse 500 "Failed to get jobs for source"], db := db
        engine := engine, calls := [] }
    | Except.ok jobs =>
      match deactivateJobs jobORM jobs db with
      | (false, db1, updates) =>
        { responses := [ErrorResponse 500 "Failed to deactivate jobs using this source"]
          db := db1, engine := engine, calls := updates }
      | (true, db1, updates) =>
        match sourceORM.Delete id db1 with
        | (Except.error _, db2) =>
          { responses := [ErrorResponse 500 "Failed to delete source"], db := db2
            engine := engine, calls := updates ++ [HandlerCall.deleteSource id] }
        | (Except.ok _, db2) =>
          { responses := [SuccessResponse { Name := source.Name }], db := db2
            engine := engine, calls := updates ++ [HandlerCall.deleteSource id] }

/-- The handler `DestHandler.DeleteDestination` for the destination `id`. When
`GetByDestinationID` fails the handler writes its error response and goes on,
there being no `return`, with the jobs handed back beside the error: none. -/
def DeleteDestination {D E : Type} (destORM : DestinationORM D) (jobORM : JobORM D) (id : Int)
    (db : D) (engine : E) : HandlerTrace D E DeleteResponse :=
  match destORM.GetByID id db with
  | Except.error _ =>
    { responses := [ErrorResponse 404 "Destination not found"], db := db, engine := engine
      calls := [] }
  | Except.ok dest =>
    let fetched : List (Response DeleteResponse) × List Job :=
      match jobORM.GetByDestinationID id db with
      | Except.error _ => ([ErrorResponse 500 "Failed to get source by id"], [])
      | Except.ok jobs => ([], jobs)
    match deactivateJobs jobORM fetched.2 db with
    | (false, db1, updates) =>
      { responses :=
          fetched.1 ++ [ErrorResponse 500 "Failed to deactivate jobs using this destination"]
        db := db1, engine := engine, calls := updates }
    | (true, db1, updates) =>
      match destORM.Delete id db1 with
      | (Except.error _, db2) =>
        { responses := fetched.1 ++ [ErrorResponse 500 "Failed to delete destination"]
          db := db2, engine := engine
          calls := updates ++ [HandlerCall.deleteDestination id] }
      | (Except.ok _, db2) =>
        { responses := fetched.1 ++ [SuccessResponse { Name := dest.Name }], db := db2
          engine := engine, calls := updates ++ [HandlerCall.deleteDestination id] }

/-- The row `getOrCreateSource` writes over the row found: its config and
version are those of the descriptor, and the user of the session, when there is
one, is the one who updated it. -/
def upsertedSource (found : Source) (config : JobSourceConfig) (sessionUserID : Option Int) :
    Source :=
  { found with
    Config := config.Config, Version := config.Version
    UpdatedBy := match sessionUserID with
      | some userID => some userID
      | none => found.UpdatedBy }

/-- The row `getOrCreateSource` hands to `Create` when no row is found. -/
def createdSource (config : JobSourceConfig) (projectIDStr : String)
    (sessionUserID : Option Int) : Source :=
  { ID := 0, Name := config.Name, Type_ := config.Type_, Config := config.Config
    Version := config.Version, ProjectID := projectIDStr
    CreatedBy := sessionUserID, UpdatedBy := sessionUserID, UpdatedAt := 0 }

/-- The helper `getOrCreateSource`: finds or creates a source based on the
provided config. It returns the row or the error, the database and the writes
made. -/
def getOrCreateSource {D : Type} (sourceORM : SourceORM D) (sessionUserID : Option Int)
    (config : JobSourceConfig) (projectIDStr : String) (db : D) :
    Except String Source × D × List HandlerCall :=
  match sourceORM.GetByNameAndType config.Name config.Type_ projectIDStr db with
  | Except.ok (found :: _) =>
    match sourceORM.Update (upsertedSource found config sessionUserID) db with
    | (Except.error err, db1) =>
      (Except.error ("failed to update source: " ++ err), db1,
        [HandlerCall.updateSource (upsertedSource found config sessionUserID)])
    | (Except.ok _, db1) =>
      (Except.ok (upsertedSource found config sessionUserID), db1,
        [HandlerCall.updateSource (upsertedSource found config sessionUserID)])
  | _ =>
    match sourceORM.Create (createdSource config projectIDStr sessionUserID) db with
    | (Except.error err, db1) =>
      (Except.error ("failed to create source: " ++ err), db1,
        [HandlerCall.createSource (createdSource config projectIDStr sessionUserID)])
    | (Except.ok created, db1) =>
      (Except.ok created, db1,
        [HandlerCall.createSource (createdSource config projectIDStr sessionUserID)])

/-- The row `getOrCreateDestination` writes over the row found. -/
def upsertedDestination (found : Destination) (config : JobDestinationConfig)
    (sessionUserID : Option Int) : Destination :=
  { found with
    Config := config.Config, Version := config.Version
    UpdatedBy := match sessionUserID with
      | some userID => some userID
      | none => found.UpdatedBy }

/-- The row `getOrCreateDestination` hands to `Create` when no row is found. -/
def createdDestination (config : JobDestinationConfig) (projectIDStr : String)
    (sessionUserID : Option Int) : Destination :=
  { ID := 0, Name := config.Name, DestType := config.Type_, Config := config.Config
    Version := config.Version, ProjectID := projectIDStr
    CreatedBy := sessionUserID, UpdatedBy := sessionUserID, UpdatedAt := 0 }

/-- The helper `getOrCreateDestination`: finds or creates a destination based on
the provided config. -/
def getOrCreateDestination {D : Type} (destORM : DestinationORM D) (sessionUserID : Option Int)
    (config : JobDestinationConfig) (projectIDStr : String) (db : D) :
    Except String Destination × D × List HandlerCall :=
  match destORM.GetByNameAndType config.Name config.Type_ projectIDStr db with
  | Except.ok (found :: _) =>
    match destORM.Update (upsertedDestination found config sessionUserID) db with
    | (Except.error err, db1) =>
      (Except.error ("failed to update destination: " ++ err), db1,
        [HandlerCall.updateDestination (upsertedDestination found config sessionUserID)])
    | (Except.ok _, db1) =>
      (Except.ok (upsertedDestination found config sessionUserID), db1,
        [HandlerCall.updateDestination (upsertedDestination found config sessionUserID)])
  | _ =>
    match destORM.Create (createdDestination config projectIDStr sessionUserID) db with
    | (Except.error err, db1) =>
      (Except.error ("failed to create destination: " ++ err), db1,
        [HandlerCall.createDestination (createdDestination config projectIDStr sessionUserID)])
    | (Except.ok created, db1) =>
      (Except.ok created, db1,
        [HandlerCall.createDestination (createdDestination config projectIDStr sessionUserID)])

/-- The job `CreateJob` builds from the request and the rows resolved, before the
database gives it an ID. -/
def newJob (req : CreateJobRequest) (source : Source) (dest : Destination)
    (projectIDStr : String) (sessionUserID : Option Int) : Job :=
  { ID := 0, Name := req.Name, SourceID := some source, DestID := some dest, Active := true
    Frequency := req.Frequency, StreamsConfig := req.StreamsConfig, State := "\x7b\x7d"
    ProjectID := projectIDStr, CreatedBy := sessionUserID, UpdatedBy := sessionUserID
    UpdatedAt := 0 }

/-- The handler `JobHandler.CreateJob` for the project `projectIDStr`. After a
failed `ManageSync` the handler writes its error response and, there being no
`return`, goes on to write the success response. -/
def CreateJob {D σ : Type} (tbl : Char → Char) (TaskQueue : String) (sourceORM : SourceORM D)
    (destORM : DestinationORM D) (jobORM : JobORM D) (tempClient : Option (ScheduleClient σ))
    (sessionUserID : Option Int) (projectIDStr : String) (body : Option CreateJobRequest)
    (db : D) (engine : σ) : HandlerTrace D σ CreateJobRequest :=
  match body with
  | none =>
    { responses := [ErrorResponse 400 "Invalid request format"], db := db, engine := engine
      calls := [] }
  | some req =>
    match jobORM.IsJobNameUnique projectIDStr req.Name db with
    | Except.error _ =>
      { responses := [ErrorResponse 500 "Failed to check job name uniqueness"], db := db
        engine := engine, calls := [] }
    | Except.ok false =>
      { responses := [ErrorResponse 400 "Job name already exists"], db := db, engine := engine
        calls := [] }
    | Except.ok true =>
      match getOrCreateSource sourceORM sessionUserID req.Source projectIDStr db with
      | (Except.error err, db1, calls1) =>
        { responses := [ErrorResponse 500 ("Failed to process source: " ++ err)], db := db1
          engine := engine, calls := calls1 }
      | (Except.ok source, db1, calls1) =>
        match getOrCreateDestination destORM sessionUserID req.Destination projectIDStr db1 with
        | (Except.error err, db2, calls2) =>
          { responses := [ErrorResponse 500 ("Failed to process destination: " ++ err)]
            db := db2, engine := engine, calls := calls1 ++ calls2 }
        | (Except.ok dest, db2, calls2) =>
          match jobORM.Create (newJob req source dest projectIDStr sessionUserID) db2 with
          | (Except.error err, db3) =>
            { responses := [ErrorResponse 500 ("Failed to create job: " ++ err)], db := db3
              engine := engine
              calls := calls1 ++ calls2 ++
                [HandlerCall.createJob (newJob req source dest projectIDStr sessionUserID)] }
          | (Except.ok job, db3) =>
            match tempClient with
            | none =>
              { responses := [SuccessResponse req], db := db3, engine := engine
                calls := calls1 ++ calls2 ++
                  [HandlerCall.createJob (newJob req source dest projectIDStr sessionUserID)] }
            | some c =>
              { responses :=
                  match (ManageSync tbl TaskQueue c engine job.ProjectID job.ID job.Frequency
                    ActionCreate).result with
                  | Except.error err =>
                    [ErrorResponse 500
                      ("Temporal workflow execution failed for create job schedule: " ++ err),
                     SuccessResponse req]
                  | Except.ok _ => [SuccessResponse req]
                db := db3
                engine := (ManageSync tbl TaskQueue c engine job.ProjectID job.ID job.Frequency
                  ActionCreate).engine
                calls := calls1 ++ calls2 ++
                  [HandlerCall.createJob (newJob req source dest projectIDStr sessionUserID),
                   HandlerCall.manageSync job.ProjectID job.ID job.Frequency ActionCreate] }

/-- The job `UpdateJob` builds from the row found, the request and the rows
resolved. -/
def editedJob (found : Job) (req : UpdateJobRequest) (source : Source) (dest : Destination)
    (projectIDStr : String) (now : Nat) (sessionUserID : Option Int) : Job :=
  { found with
    Name := req.Name, SourceID := some source, DestID := some dest, Active := req.Activate
    Frequency := req.Frequency, StreamsConfig := req.StreamsConfig, UpdatedAt := now
    ProjectID := projectIDStr
    UpdatedBy := match sessionUserID with
      | some userID => some userID
      | none => found.UpdatedBy }

/-- The handler `JobHandler.UpdateJob` for the job `id` of `projectIDStr`. -/
def UpdateJob {D σ : Type} (tbl : Char → Char) (TaskQueue : String) (sourceORM : SourceORM D)
    (destORM : DestinationORM D) (jobORM : JobORM D)
    (cancelJobWorkflow : Job → String → σ → Except String Unit × σ)
    (tempClient : Option (ScheduleClient σ)) (now : Nat) (sessionUserID : Option Int)
    (projectIDStr : String) (id : Int) (body : Option UpdateJobRequest) (db : D) (engine : σ) :
    HandlerTrace D σ UpdateJobRequest :=
  match body with
  | none =>
    { responses := [ErrorResponse 400 "Invalid request format"], db := db, engine := engine
      calls := [] }
  | some req =>
    match jobORM.GetByID id db with
    | Except.error _ =>
      { responses := [ErrorResponse 404 "Job not found"], db := db, engine := engine
        calls := [] }
    | Except.ok found =>
      match getOrCreateSource sourceORM sessionUserID req.Source projectIDStr db with
      | (Except.error err, db1, calls1) =>
        { responses := [ErrorResponse 500 ("Failed to process source: " ++ err)], db := db1
          engine := engine, calls := calls1 }
      | (Except.ok source, db1, calls1) =>
        match getOrCreateDestination destORM sessionUserID req.Destination projectIDStr db1 with
        | (Except.error err, db2, calls2) =>
          { responses := [ErrorResponse 500 ("Failed to process destination: " ++ err)]
            db := db2, engine := engine, calls := calls1 ++ calls2 }
        | (Except.ok dest, db2, calls2) =>
          let existingJob := editedJob found req source dest projectIDStr now sessionUserID
          match cancelJobWorkflow existingJob projectIDStr engine with
          | (Except.error err, e1) =>
            { responses := [ErrorResponse 500 ("Failed to cancel workflow for job " ++ err)]
              db := db2, engine := e1
              calls := calls1 ++ calls2 ++
                [HandlerCall.cancelJobWorkflow existingJob projectIDStr] }
          | (Except.ok _, e1) =>
            match jobORM.Update existingJob db2 with
            | (Except.error _, db3) =>
              { responses := [ErrorResponse 500 "Failed to update job"], db := db3, engine := e1
                calls := calls1 ++ calls2 ++
                  [HandlerCall.cancelJobWorkflow existingJob projectIDStr,
                   HandlerCall.updateJob existingJob] }
            | (Except.ok _, db3) =>
              match tempClient with
              | none =>
                { responses := [SuccessResponse req], db := db3, engine := e1
                  calls := calls1 ++ calls2 ++
                    [HandlerCall.cancelJobWorkflow existingJob projectIDStr,
                     HandlerCall.updateJob existingJob] }
              | some c =>
                { responses :=
                    match (ManageSync tbl TaskQueue c e1 existingJob.ProjectID existingJob.ID
                      existingJob.Frequency ActionUpdate).result with
                    | Except.error err =>
                      [ErrorResponse 500
                        ("Temporal workflow execution failed for update job schedule: " ++ err)]
                    | Except.ok _ => [SuccessResponse req]
                  db := db3
                  engine := (ManageSync tbl TaskQueue c e1 existingJob.ProjectID existingJob.ID
                    existingJob.Frequency ActionUpdate).engine
                  calls := calls1 ++ calls2 ++
                    [HandlerCall.cancelJobWorkflow existingJob projectIDStr,
                     HandlerCall.updateJob existingJob,
                     HandlerCall.manageSync existingJob.ProjectID existingJob.ID
                       existingJob.Frequency ActionUpdate] }

/-- The handler `JobHandler.DeleteJob` for the job whose ID is written `idStr` in
the path. -/
def DeleteJob {D σ : Type} (tbl : Char → Char) (TaskQueue : String) (jobORM : JobORM D)
    (cancelJobWorkflow : Job → String → σ → Except String Unit × σ)
    (tempClient : Option (ScheduleClient σ)) (idStr : String) (db : D) (engine : σ) :
    HandlerTrace D σ DeleteResponse :=
  match Atoi idStr with
  | none =>
    { responses := [ErrorResponse 400 "Invalid job ID"], db := db, engine := engine
      calls := [] }
  | some id =>
    match jobORM.GetByID id db with
    | Except.error _ =>
      { responses := [ErrorResponse 404 "Job not found"], db := db, engine := engine
        calls := [] }
    | Except.ok job =>
      match cancelJobWorkflow job job.ProjectID engine with
      | (Except.error err, e1) =>
        { responses := [ErrorResponse 500 ("Failed to cancel workflow for job " ++ err)]
          db := db, engine := e1, calls := [HandlerCall.cancelJobWorkflow job job.ProjectID] }
      | (Except.ok _, e1) =>
        let synced : Option String × σ × List HandlerCall :=
          match tempClient with
          | none => (none, e1, [])
          | some c =>
            ((match (ManageSync tbl TaskQueue c e1 job.ProjectID job.ID job.Frequency
                ActionDelete).result with
              | Except.error err => some err
              | Except.ok _ => none),
             (ManageSync tbl TaskQueue c e1 job.ProjectID job.ID job.Frequency
                ActionDelete).engine,
             [HandlerCall.manageSync job.ProjectID job.ID job.Frequency ActionDelete])
        match synced.1 with
        | some err =>
          { responses :=
              [ErrorResponse 500
                ("Temporal workflow execution failed for delete job schedule: " ++ err)]
            db := db, engine := synced.2.1
            calls := HandlerCall.cancelJobWorkflow job job.ProjectID :: synced.2.2 }
        | none =>
          match jobORM.Delete id db with
          | (Except.error _, db1) =>
            { responses := [ErrorResponse 500 "Failed to delete job"], db := db1
              engine := synced.2.1
              calls := HandlerCall.cancelJobWorkflow job job.ProjectID :: synced.2.2 ++
                [HandlerCall.deleteJob id] }
          | (Except.ok _, db1) =>
            { responses := [SuccessResponse { Name := job.Name }], db := db1
              engine := synced.2.1
              calls := HandlerCall.cancelJobWorkflow job job.ProjectID :: synced.2.2 ++
                [HandlerCall.deleteJob id] }

/-- The handler `JobHandler.ActivateJob` for the job `id`. -/
def ActivateJob {D σ : Type} (tbl : Char → Char) (TaskQueue : String) (jobORM : JobORM D)
    (tempClient : Option (ScheduleClient σ)) (now : Nat) (sessionUserID : Option Int)
    (id : Int) (body : Option JobStatus) (db : D) (engine : σ) :
    HandlerTrace D σ JobStatus :=
  match body with
  | none =>
    { responses := [ErrorResponse 400 "Invalid request format"], db := db, engine := engine
      calls := [] }
  | some req =>
    match jobORM.GetByID id db with
    | Except.error _ =>
      { responses := [ErrorResponse 404 "Job not found"], db := db, engine := engine
        calls := [] }
    | Except.ok job =>
      let action : SyncAction := if req.Activate then ActionUnpause else ActionPause
      let synced : Option String × σ × List HandlerCall :=
        match tempClient with
        | none => (none, engine, [])
        | some c =>
          ((match (ManageSync tbl TaskQueue c engine job.ProjectID job.ID job.Frequency
              action).result with
            | Except.error err => some err
            | Except.ok _ => none),
           (ManageSync tbl TaskQueue c engine job.ProjectID job.ID job.Frequency action).engine,
           [HandlerCall.manageSync job.ProjectID job.ID job.Frequency action])
      match synced.1 with
      | some err =>
        { responses :=
            [ErrorResponse 500
              ("Temporal workflow execution failed for activate job schedule: " ++ err)]
          db := db, engine := synced.2.1, calls := synced.2.2 }
      | none =>
        let updated : Job :=
          { job with
            Active := req.Activate, UpdatedAt := now
            UpdatedBy := match sessionUserID with
              | some userID => some userID
              | none => job.UpdatedBy }
        match jobORM.Update updated db with
        | (Except.error _, db1) =>
          { responses := [ErrorResponse 500 "Failed to update job activation status"]
            db := db1, engine := synced.2.1
            calls := synced.2.2 ++ [HandlerCall.updateJob updated] }
        | (Except.ok _, db1) =>
          { responses := [SuccessResponse req], db := db1, engine := synced.2.1
            calls := synced.2.2 ++ [HandlerCall.updateJob updated] }

/-! ## Sample states and requests of the handlers -/

/-- The job table of the persistence layer while its look-up by destination
fails. -/
def failingJobORM : JobORM MemDB :=
  { memJobORM with GetByDestinationID := fun _ _ => Except.error "connection refused" }

/-- The database without rows. -/
def emptyDB : MemDB :=
  { sources := [], destinations := [], jobs := [], nextID := 1 }

/-- A request for a job named `name` that runs at `frequency` from the source
`orders-db` to the destination `lake`. -/
def sampleCreateJobRequest (name frequency : String) : CreateJobRequest :=
  { Name := name
    Source := { Name := "orders-db", Type_ := "postgres", Version := "v0.2.0", Config := "host=b" }
    Destination := { Name := "lake", Type_ := "iceberg", Version := "v0.2.0", Config := "bucket=b" }
    Frequency := frequency, StreamsConfig := "streams" }

/-- A request that gives a job the name `name`, on the same source and
destination. -/
def sampleUpdateJobRequest (name : String) : UpdateJobRequest :=
  { Name := name
    Source := { Name := "orders-db", Type_ := "postgres", Version := "v0.2.0", Config := "host=b" }
    Destination := { Name := "lake", Type_ := "iceberg", Version := "v0.2.0", Config := "bucket=b" }
    Frequency := "5-minutes", StreamsConfig := "streams", Activate := true }

/-- Names are unique per project: no two rows of the job table agree in project
and name. -/
def NamesUnique (jobs : List Job) : Prop :=
  (jobs.map (fun r => (r.ProjectID, r.Name))).Nodup

instance (jobs : List Job) : Decidable (NamesUnique jobs) := by
  unfold NamesUnique; infer_instance

/-- The job `jobID` of the project `projectID` has a row. -/
def jobExists (db : MemDB) (projectID : String) (jobID : Int) : Prop :=
  ∃ r ∈ db.jobs, r.ProjectID = projectID ∧ r.ID = jobID

instance (db : MemDB) (projectID : String) (jobID : Int) :
    Decidable (jobExists db projectID jobID) := by
  unfold jobExists; infer_instance

/-- The schedule `schedule-sync-<projectID>-<jobID>` is held by the engine. -/
def scheduleExists (st : Store) (projectID : String) (jobID : Int) : Prop :=
  (st (scheduleID projectID jobID)).isSome = true

instance (st : Store) (projectID : String) (jobID : Int) :
    Decidable (scheduleExists st projectID jobID) := by
  unfold scheduleExists; infer_instance

/-- The source rows of a project under a name and a type. -/
def sourcesByKey (db : MemDB) (name type project : String) : List Source :=
  db.sources.filter (fun r => r.Name = name ∧ r.Type_ = type ∧ r.ProjectID = project)

/-- The destination rows of a project under a name and a type. -/
def destinationsByKey (db : MemDB) (name type project : String) : List Destination :=
  db.destinations.filter (fun r => r.Name = name ∧ r.DestType = type ∧ r.ProjectID = project)

/-! ## Cancellations and edits in the trace of a handler -/

/-- Whether the call is a cancellation of the workflow of a job. -/
def HandlerCall.isCancel : HandlerCall → Bool
  | .cancelJobWorkflow _ _ => true
  | _ => false

/-- Whether the call writes over an existing source or destination row. -/
def HandlerCall.isEdit : HandlerCall → Bool
  | .updateSource _ => true
  | .updateDestination _ => true
  | _ => false

/-- Whether in the trace some cancellation comes before some write over a source
or destination row. -/
def cancelPrecedesEdit : List HandlerCall → Bool
  | [] => false
  | call :: rest => (call.isCancel && rest.any HandlerCall.isEdit) || cancelPrecedesEdit rest

/-! ## Persistence layers over the tables in memory -/

/-- Modelled from the spec: what plain CRUD means for a job table, which is not
part of the sources at hand, when its operations may fail. A row read by ID is a
row of the table with that ID; `Create` adds the row under the next ID, or fails
and leaves the tables as they are; `Delete` removes the rows with the ID, or
fails and leaves the tables as they are. -/
def PlainJobTable (jobORM : JobORM MemDB) : Prop :=
  (∀ id db job, jobORM.GetByID id db = Except.ok job → job ∈ db.jobs ∧ job.ID = id) ∧
  (∀ row db, jobORM.Create row db = memJobORM.Create row db ∨
    ∃ err, jobORM.Create row db = (Except.error err, db)) ∧
  (∀ id db,
    jobORM.Delete id db =
      (Except.ok (), { db with jobs := db.jobs.filter (fun r => r.ID ≠ id) }) ∨
    ∃ err, jobORM.Delete id db = (Except.error err, db))

/-- Modelled from the spec: a source table, which is not part of the sources at
hand, whose writes, failed or not, leave the job table alone and never lower the
next ID. -/
def SourceTableApart (sourceORM : SourceORM MemDB) : Prop :=
  ∀ row db,
    ((sourceORM.Update row db).2.jobs = db.jobs ∧
      db.nextID ≤ (sourceORM.Update row db).2.nextID) ∧
    ((sourceORM.Create row db).2.jobs = db.jobs ∧
      db.nextID ≤ (sourceORM.Create row db).2.nextID)

/-- Modelled from the spec: a destination table, which is not part of the sources
at hand, whose writes, failed or not, leave the job table alone and never lower
the next ID. -/
def DestinationTableApart (destORM : DestinationORM MemDB) : Prop :=
  ∀ row db,
    ((destORM.Update row db).2.jobs = db.jobs ∧
      db.nextID ≤ (destORM.Update row db).2.nextID) ∧
    ((destORM.Create row db).2.jobs = db.jobs ∧
      db.nextID ≤ (destORM.Create row db).2.nextID)

/-- The job table of the persistence layer while its `Delete` fails. -/
def failingDeleteJobORM : JobORM MemDB :=
  { memJobORM with Delete := fun _ db => (Except.error "connection refused", db) }

/-- Modelled from the spec: an engine over the store of schedules, which is not
part of the repository, whose calls may also fail for reasons of its own: each of
`describe`, `create` and `delete` either does what the store does or fails and
leaves the store as it is. -/
def StoreEngine (accepts : ScheduleSpec → Bool) (c : ScheduleClient Store) : Prop :=
  (∀ id st, c.Describe id st = (storeClient accepts).Describe id st ∨
    ∃ err, c.Describe id st = (Except.error err, st)) ∧
  (∀ options st, c.Create options st = (storeClient accepts).Create options st ∨
    ∃ err, c.Create options st = (Except.error err, st)) ∧
  (∀ id st, c.Delete id st = (storeClient accepts).Delete id st ∨
    ∃ err, c.Delete id st = (Except.error err, st))

/-- The store of schedules while its `delete` fails. -/
def failingDeleteClient (accepts : ScheduleSpec → Bool) : ScheduleClient Store :=
  { storeClient accepts with Delete := fun _ st => (Except.error "deadline exceeded", st) }

/-! ## `SourceHandler.CreateSource` -/

/-- The body of a create request for a source (`models.CreateSourceRequest`). -/
structure CreateSourceRequest where
  Name : String
  Type_ : String
  Version : String
  Config : String
deriving DecidableEq, Repr

/-- The handler `SourceHandler.CreateSource` for the project `projectID`.
`userGetByID` is `userORM.GetByID`, answering with the ID of the user. The row is
handed to `Create` as it was built from the request: no row is looked up by name
and type before. -/
def CreateSource {D E : Type} (sourceORM : SourceORM D)
    (userGetByID : Int → Except String Int) (sessionUserID : Option Int) (projectID : String)
    (body : Option CreateSourceRequest) (db : D) (engine : E) :
    HandlerTrace D E CreateSourceRequest :=
  match body with
  | none =>
    { responses := [ErrorResponse 400 "Invalid request format"], db := db, engine := engine
      calls := [] }
  | some req =>
    let source : Source :=
      { ID := 0, Name := req.Name, Type_ := req.Type_, Version := req.Version
        Config := req.Config, ProjectID := projectID, CreatedBy := none, UpdatedBy := none
        UpdatedAt := 0 }
    let owned : Except String Source :=
      match sessionUserID with
      | none => Except.ok source
      | some userID =>
        match userGetByID userID with
        | Except.error err => Except.error err
        | Except.ok user => Except.ok { source with CreatedBy := some user, UpdatedBy := some user }
    match owned with
    | Except.error _ =>
      { responses := [ErrorResponse 500 "Failed to get user"], db := db, engine := engine
        calls := [] }
    | Except.ok source =>
      match sourceORM.Create source db with
      | (Except.error err, db1) =>
        { responses := [ErrorResponse 500 ("Failed to create source: " ++ err)], db := db1
          engine := engine, calls := [HandlerCall.createSource source] }
      | (Except.ok _, db1) =>
        { responses := [SuccessResponse req], db := db1, engine := engine
          calls := [HandlerCall.createSource source] }

/-- A request for the source `orders-db` of type `postgres` with the config
`host=a`. -/
def sampleCreateSourceRequest : CreateSourceRequest :=
  { Name := "orders-db", Type_ := "postgres", Version := "v0.1.0", Config := "host=a" }

/-- The database after `CreateSource` has answered the same request twice in the
project `p`, starting without rows. -/
def duplicateKeyDB : MemDB :=
  (CreateSource memSourceORM (fun userID => Except.ok userID) (some 3) "p"
    (some sampleCreateSourceRequest)
    (CreateSource memSourceORM (fun userID => Except.ok userID) (some 3) "p"
      (some sampleCreateSourceRequest) emptyDB ()).db ()).db

/-- The ID of the row a resolution returned, if it returned one. -/
def resolvedID {α : Type} (getID : α → Int) (result : Except String α) : Option Int :=
  match result with
  | Except.ok row => some (getID row)
  | Except.error _ => none

/-- The run of `CreateJob` that creates the job `nightly`, every five minutes, in
the project `p`, starting without rows and without schedules: it leaves the job
row 3 and its schedule. -/
def oneJobRun : HandlerTrace MemDB Store CreateJobRequest :=
  CreateJob id "OLAKE_DOCKER_TASK_QUEUE" memSourceORM memDestinationORM memJobORM
    (some (storeClient (fun _ => true))) (some 3) "p"
    (some (sampleCreateJobRequest "nightly" "5-minutes")) emptyDB Store.empty

/-- The text of the error a call returned, empty when it returned none. -/
def errorText {α : Type} (result : Except String α) : String :=
  match result with
  | Except.error err => err
  | Except.ok _ => ""

/-! # Theorems -/

theorem digitChar_spec (k : Nat) (hk : k < 10) :
    ('0' ≤ Nat.digitChar k ∧ Nat.digitChar k ≤ '9') ∧ (Nat.digitChar k).toNat - 48 = k := by
  interval_cases k <;> decide

theorem digitsValue_toDigitsCore (fuel : Nat) :
    ∀ (n : Nat) (ds : List Char), n < fuel →
      digitsValue 0 (Nat.toDigitsCore 10 fuel n ds) = digitsValue n ds := by
  induction fuel with
  | zero => intro n ds h; omega
  | succ fuel ih =>
    intro n ds h
    have hd := digitChar_spec (n % 10) (Nat.mod_lt _ (by decide))
    unfold Nat.toDigitsCore
    by_cases h0 : n / 10 = 0
    · have hn : n % 10 = n := by omega
      simp only [h0, if_true]
      rw [digitsValue, if_pos hd.1, hd.2, hn]
      simp
    · simp only [h0, if_false]
      rw [ih (n / 10) _ (by omega), digitsValue, if_pos hd.1, hd.2]
      congr 1
      omega

theorem toDigitsCore_runes (fuel : Nat) :
    ∀ (n : Nat) (ds : List Char) (c : Char), c ∈ Nat.toDigitsCore 10 fuel n ds →
      ('0' ≤ c ∧ c ≤ '9') ∨ c ∈ ds := by
  induction fuel with
  | zero => intro n ds c h; right; simpa [Nat.toDigitsCore] using h
  | succ fuel ih =>
    intro n ds c h
    have hd := digitChar_spec (n % 10) (Nat.mod_lt _ (by decide))
    unfold Nat.toDigitsCore at h
    by_cases h0 : n / 10 = 0
    · simp only [h0, if_true, List.mem_cons] at h
      rcases h with h | h
      · left; rw [h]; exact hd.1
      · right; exact h
    · simp only [h0, if_false] at h
      rcases ih _ _ _ h with h | h
      · left; exact h
      · rw [List.mem_cons] at h
        rcases h with h | h
        · left; rw [h]; exact hd.1
        · right; exact h

theorem toDigitsCore_ne_nil (fuel : Nat) :
    ∀ (n : Nat) (ds : List Char), ds ≠ [] ∨ 0 < fuel → Nat.toDigitsCore 10 fuel n ds ≠ [] := by
  induction fuel with
  | zero => intro n ds h; rcases h with h | h
            · simpa [Nat.toDigitsCore] using h
            · omega
  | succ fuel ih =>
    intro n ds _
    unfold Nat.toDigitsCore
    by_cases h0 : n / 10 = 0
    · simp [h0]
    · simp only [h0, if_false]
      exact ih _ _ (Or.inl (by simp))

theorem splitRunes_no_sep (sep : Char) (cs : List Char) (h : sep ∉ cs) :
    splitRunes sep cs = [cs] := by
  induction cs with
  | nil => rfl
  | cons c cs ih =>
    have hc : c ≠ sep := fun e => h (by simp [e])
    have hcs : sep ∉ cs := fun e => h (by simp [e])
    simp [splitRunes, hc, ih hcs]

theorem splitRunes_one_sep (sep : Char) (ds us : List Char) (hd : sep ∉ ds) (hu : sep ∉ us) :
    splitRunes sep (ds ++ sep :: us) = [ds, us] := by
  induction ds with
  | nil => simp [splitRunes, splitRunes_no_sep sep us hu]
  | cons c cs ih =>
    have hc : c ≠ sep := fun e => hd (by simp [e])
    have hcs : sep ∉ cs := fun e => hd (by simp [e])
    simp [splitRunes, hc, ih hcs]

theorem lowerRune_digit (tbl : Char → Char) (c : Char) (h : '0' ≤ c ∧ c ≤ '9') :
    lowerRune tbl c = c ∧ c ≠ '-' ∧ c ≠ '+' := by
  obtain ⟨h0, h9⟩ := h
  have h0' : 48 ≤ c.toNat := h0
  have h9' : c.toNat ≤ 57 := h9
  refine ⟨?_, ?_, ?_⟩
  · unfold lowerRune
    have hA : ¬ ('A' ≤ c ∧ c ≤ 'Z') := by
      rintro ⟨hA, _⟩
      have : 65 ≤ c.toNat := hA
      omega
    rw [if_pos (by omega), if_neg hA]
  · rintro rfl; revert h0'; decide
  · rintro rfl; revert h0'; decide

theorem toDigits_runes (n : Nat) (c : Char) (h : c ∈ Nat.toDigits 10 n) : '0' ≤ c ∧ c ≤ '9' := by
  rcases toDigitsCore_runes _ _ _ _ h with h | h
  · exact h
  · simp at h

theorem digitsValue_toDigits (n : Nat) : digitsValue 0 (Nat.toDigits 10 n) = some n := by
  unfold Nat.toDigits
  rw [digitsValue_toDigitsCore _ _ _ (Nat.lt_succ_self n)]
  rfl

theorem toDigits_ne_nil (n : Nat) : Nat.toDigits 10 n ≠ [] :=
  toDigitsCore_ne_nil _ _ _ (Or.inr (Nat.succ_pos n))

theorem Atoi_repr (n : Nat) (h : n < 2 ^ 63) : Atoi (Nat.repr n) = some (n : Int) := by
  have hne := toDigits_ne_nil n
  have hval := digitsValue_toDigits n
  have hrunes := toDigits_runes n
  unfold Atoi Nat.repr List.asString
  simp only []
  cases hds : Nat.toDigits 10 n with
  | nil => exact absurd hds hne
  | cons c cs =>
    rw [hds] at hval hrunes
    have hc := lowerRune_digit id c (hrunes c (by simp))
    have h1 : ¬ (c = '-') := hc.2.1
    have h2 : ¬ (c = '+') := hc.2.2
    have h' : n < 9223372036854775808 := by norm_num at h; exact h
    simp [h1, h2, hval, intSize, h']

theorem formatInt_natCast (n : Nat) : formatInt (n : Int) = Nat.repr n := rfl

theorem lowerRune_dash (tbl : Char → Char) : lowerRune tbl '-' = '-' := rfl

theorem ToLower_repr (tbl : Char → Char) (n : Nat) :
    (Nat.toDigits 10 n).map (lowerRune tbl) = Nat.toDigits 10 n := by
  have h : ∀ c ∈ Nat.toDigits 10 n, lowerRune tbl c = c :=
    fun c hc => (lowerRune_digit tbl c (toDigits_runes n c hc)).1
  exact (List.map_congr_left h).trans (List.map_id _)

theorem dash_not_mem_toDigits (n : Nat) : '-' ∉ Nat.toDigits 10 n :=
  fun h => (lowerRune_digit id _ (toDigits_runes n _ h)).2.1 rfl

/-- The parse `ToCron` makes of `N-u`: the decimal numeral and the lower-cased
unit. -/
theorem Split_shorthand (tbl : Char → Char) (N : Nat) (u : String)
    (hu : '-' ∉ (ToLower tbl u).data) :
    Split (ToLower tbl (Nat.repr N ++ "-" ++ u)) '-' = [Nat.repr N, ToLower tbl u] := by
  have hdata : (ToLower tbl (Nat.repr N ++ "-" ++ u)).data
      = Nat.toDigits 10 N ++ '-' :: (ToLower tbl u).data := by
    simp [ToLower, Nat.repr, List.asString, ToLower_repr, lowerRune_dash]
  unfold Split
  rw [hdata, splitRunes_one_sep _ _ _ (dash_not_mem_toDigits N) hu]
  rfl

/-- The result of `ToCron` on `N-u` for `N` in the range of `int`: the `switch` on the
lower-cased unit. -/
theorem ToCron_shorthand (tbl : Char → Char) (N : Nat) (u : String) (hpos : 0 < N)
    (hfit : N < 2 ^ 63) (hu : '-' ∉ (ToLower tbl u).data) :
    ToCron tbl (Nat.repr N ++ "-" ++ u) =
      if ToLower tbl u = "minutes" then "*/" ++ Nat.repr N ++ " * * * *"
      else if ToLower tbl u = "hours" then "0 */" ++ Nat.repr N ++ " * * *"
      else if ToLower tbl u = "days" then "0 0 */" ++ Nat.repr N ++ " * *"
      else if ToLower tbl u = "weeks" then "0 0 * * */" ++ Nat.repr N
      else if ToLower tbl u = "months" then "0 0 1 */" ++ Nat.repr N ++ " *"
      else if ToLower tbl u = "years" then "0 0 1 1 */" ++ Nat.repr N
      else Nat.repr N ++ "-" ++ u := by
  have hN : ¬ ((N : Int) ≤ 0) := by omega
  unfold ToCron
  rw [Split_shorthand tbl N u hu]
  simp only [Atoi_repr N hfit, hN, if_false, formatInt_natCast]

theorem ToCron_unit (tbl : Char → Char) (N : Nat) (u : String) (hpos : 0 < N)
    (hfit : N < 2 ^ 63) (hlow : ToLower tbl u = u) (hu : '-' ∉ u.data) :
    ToCron tbl (Nat.repr N ++ "-" ++ u) =
      if u = "minutes" then "*/" ++ Nat.repr N ++ " * * * *"
      else if u = "hours" then "0 */" ++ Nat.repr N ++ " * * *"
      else if u = "days" then "0 0 */" ++ Nat.repr N ++ " * *"
      else if u = "weeks" then "0 0 * * */" ++ Nat.repr N
      else if u = "months" then "0 0 1 */" ++ Nat.repr N ++ " *"
      else if u = "years" then "0 0 1 1 */" ++ Nat.repr N
      else Nat.repr N ++ "-" ++ u := by
  have h := ToCron_shorthand tbl N u hpos hfit (by rw [hlow]; exact hu)
  rw [hlow] at h
  exact h

/-- On a string of ASCII runes the case table is not consulted. -/
theorem ToLower_ascii (tbl : Char → Char) (s : String)
    (h : s.data.all (fun c => decide (c.toNat < 128)) = true) : ToLower tbl s = ToLower id s := by
  unfold ToLower
  congr 1
  apply List.map_congr_left
  intro c hc
  have hc' : c.toNat < 128 := by
    have := List.all_eq_true.mp h c hc
    simpa using this
  simp [lowerRune, hc']

theorem ToCron_ascii (tbl : Char → Char) (s : String)
    (h : s.data.all (fun c => decide (c.toNat < 128)) = true) : ToCron tbl s = ToCron id s := by
  unfold ToCron
  rw [ToLower_ascii tbl s h]

/-- C1, as amended: for every positive integer `N` that fits Go's `int`
(`N < 2 ^ 63`) and every unit, `ToCron` applied to `N-unit`, with `N` written in
decimal, returns the table entry of the unit: `*/N * * * *` for minutes,
`0 */N * * *` for hours, `0 0 */N * *` for days, `0 0 * * */N` for weeks,
`0 0 1 */N *` for months and `0 0 1 1 */N` for years. -/
theorem ToCron_table (tbl : Char → Char) (N : Nat) (hpos : 0 < N) (hfit : N < 2 ^ 63) :
    ToCron tbl (Nat.repr N ++ "-" ++ "minutes") = "*/" ++ Nat.repr N ++ " * * * *" ∧
    ToCron tbl (Nat.repr N ++ "-" ++ "hours") = "0 */" ++ Nat.repr N ++ " * * *" ∧
    ToCron tbl (Nat.repr N ++ "-" ++ "days") = "0 0 */" ++ Nat.repr N ++ " * *" ∧
    ToCron tbl (Nat.repr N ++ "-" ++ "weeks") = "0 0 * * */" ++ Nat.repr N ∧
    ToCron tbl (Nat.repr N ++ "-" ++ "months") = "0 0 1 */" ++ Nat.repr N ++ " *" ∧
    ToCron tbl (Nat.repr N ++ "-" ++ "years") = "0 0 1 1 */" ++ Nat.repr N := by
  refine ⟨?_, ?_, ?_, ?_, ?_, ?_⟩
  · exact (ToCron_unit tbl N "minutes" hpos hfit rfl (by decide)).trans (by simp)
  · exact (ToCron_unit tbl N "hours" hpos hfit rfl (by decide)).trans (by simp)
  · exact (ToCron_unit tbl N "days" hpos hfit rfl (by decide)).trans (by simp)
  · exact (ToCron_unit tbl N "weeks" hpos hfit rfl (by decide)).trans (by simp)
  · exact (ToCron_unit tbl N "months" hpos hfit rfl (by decide)).trans (by simp)
  · exact (ToCron_unit tbl N "years" hpos hfit rfl (by decide)).trans (by simp)

theorem ToCron_table_witness :
    ToCron id "5-minutes" = "*/5 * * * *" ∧ ToCron id "2-months" = "0 0 1 */2 *" :=
  ⟨(ToCron_table id 5 (by decide) (by decide)).1,
   (ToCron_table id 2 (by decide) (by decide)).2.2.2.2.1⟩

theorem ToCron_table_counterexample :
    (0 < 2 ^ 63 ∧ Nat.repr (2 ^ 63) ++ "-" ++ "minutes" = "9223372036854775808-minutes") ∧
    ∀ tbl : Char → Char,
      ToCron tbl "9223372036854775808-minutes" = "9223372036854775808-minutes" ∧
      ToCron tbl "9223372036854775808-minutes" ≠ "*/" ++ Nat.repr (2 ^ 63) ++ " * * * *" := by
  refine ⟨by decide, fun tbl => ?_⟩
  rw [ToCron_ascii tbl _ (by decide)]
  decide

theorem splitRunes_ne_nil (sep : Char) (l : List Char) : splitRunes sep l ≠ [] := by
  cases l with
  | nil => simp [splitRunes]
  | cons c cs =>
    unfold splitRunes
    split_ifs
    · simp
    · split <;> simp

theorem splitRunes_singleton (sep : Char) :
    ∀ (l b : List Char), splitRunes sep l = [b] → l = b ∧ sep ∉ b := by
  intro l
  induction l with
  | nil => intro b h; simp [splitRunes] at h; subst h; simp
  | cons c cs ih =>
    intro b h
    unfold splitRunes at h
    split_ifs at h with hc
    · simp only [List.cons.injEq] at h
      exact absurd h.2 (splitRunes_ne_nil sep cs)
    · cases hs : splitRunes sep cs with
      | nil => exact absurd hs (splitRunes_ne_nil sep cs)
      | cons p ps =>
        rw [hs] at h
        simp only [List.cons.injEq] at h
        obtain ⟨hb, hps⟩ := h
        subst hps
        obtain ⟨h1, h2⟩ := ih p hs
        subst hb
        refine ⟨by rw [h1], ?_⟩
        intro hmem
        rcases List.mem_cons.mp hmem with e | e
        · exact hc e.symm
        · exact h2 e

theorem splitRunes_pair (sep : Char) :
    ∀ (l a b : List Char), splitRunes sep l = [a, b] →
      l = a ++ sep :: b ∧ sep ∉ a ∧ sep ∉ b := by
  intro l
  induction l with
  | nil => intro a b h; simp [splitRunes] at h
  | cons c cs ih =>
    intro a b h
    unfold splitRunes at h
    split_ifs at h with hc
    · simp only [List.cons.injEq] at h
      obtain ⟨ha, hb⟩ := h
      obtain ⟨h1, h2⟩ := splitRunes_singleton sep cs b hb
      subst ha
      subst hc
      exact ⟨by simp [h1], by simp, h2⟩
    · cases hs : splitRunes sep cs with
      | nil => exact absurd hs (splitRunes_ne_nil sep cs)
      | cons p ps =>
        rw [hs] at h
        simp only [List.cons.injEq] at h
        obtain ⟨ha, hps⟩ := h
        subst hps
        obtain ⟨h1, h2, h3⟩ := ih p b hs
        subst ha
        refine ⟨by simp [h1], ?_, h3⟩
        intro hmem
        rcases List.mem_cons.mp hmem with e | e
        · exact hc e.symm
        · exact h2 e

theorem digitsValue_runes :
    ∀ (cs : List Char) (acc n : Nat), digitsValue acc cs = some n →
      ∀ c ∈ cs, isDigitRune c = true := by
  intro cs
  induction cs with
  | nil => intro _ _ _ c hc; simp at hc
  | cons d ds ih =>
    intro acc n h c hc
    unfold digitsValue at h
    split_ifs at h with hd
    rcases List.mem_cons.mp hc with e | e
    · subst e; simpa [isDigitRune] using hd
    · exact ih _ _ h c e

/-- What `ToCron` has parsed whenever it does not fall back to its input. -/
theorem ToCron_cases (tbl : Char → Char) (s : String) :
    ToCron tbl s = s ∨
      ∃ (v u : String) (n : Int),
        Split (ToLower tbl s) '-' = [v, u] ∧ Atoi v = some n ∧ 0 < n ∧ u ∈ units := by
  unfold ToCron
  split
  · rename_i v u hsplit
    split
    · exact Or.inl rfl
    · rename_i n hn
      by_cases hpos : n ≤ 0
      · exact Or.inl (by simp [hpos])
      · by_cases hu : u ∈ units
        · exact Or.inr ⟨v, u, n, hsplit, hn, by omega, hu⟩
        · left
          simp only [units, List.mem_cons, List.mem_singleton, not_or, List.mem_nil_iff,
            or_false] at hu
          obtain ⟨h1, h2, h3, h4, h5, h6⟩ := hu
          simp [hpos, h1, h2, h3, h4, h5, h6]
  · exact Or.inl rfl

theorem Atoi_some_runes (v : String) (n : Int) (h : Atoi v = some n)
    (hdash : '-' ∉ v.data) :
    ∃ ds : List Char, ds ≠ [] ∧ (∀ c ∈ ds, isDigitRune c = true) ∧
      (v.data = ds ∨ v.data = '+' :: ds) := by
  unfold Atoi at h
  simp only [] at h
  have hneg : ¬ (v.data.head? = some '-') := by
    intro e
    cases hv : v.data with
    | nil => rw [hv] at e; simp at e
    | cons c cs =>
      rw [hv] at e hdash
      simp only [List.head?_cons, Option.some.injEq] at e
      exact hdash (by simp [e])
  by_cases hplus : v.data.head? = some '+'
  · cases hv : v.data with
    | nil => rw [hv] at hplus; simp at hplus
    | cons c cs =>
      rw [hv] at hplus h
      simp only [List.head?_cons, Option.some.injEq] at hplus
      subst hplus
      simp only [List.head?_cons, Option.some.injEq, List.tail_cons] at h
      cases hcs : cs with
      | nil => rw [hcs] at h; simp at h
      | cons d ds =>
        rw [hcs] at h
        have e1 : ¬ ('+' = '-') := by decide
        cases hval : digitsValue 0 (d :: ds) with
        | none => simp [e1, hval] at h
        | some m =>
          exact ⟨d :: ds, by simp, digitsValue_runes _ _ _ hval, Or.inr rfl⟩
  · simp only [hneg, hplus, or_self, decide_False, Bool.false_eq_true, if_false] at h
    cases hv : v.data with
    | nil => rw [hv] at h; simp at h
    | cons d ds =>
      rw [hv] at h
      cases hval : digitsValue 0 (d :: ds) with
      | none => rw [hval] at h; simp at h
      | some m =>
        exact ⟨d :: ds, by simp, digitsValue_runes _ _ _ hval, Or.inl rfl⟩

theorem shorthandRunes_digits (ds u : List Char) (hne : ds ≠ [])
    (hds : ∀ c ∈ ds, isDigitRune c = true) (hu : String.mk u ∈ units) :
    shorthandRunes id (ds ++ '-' :: u) = true := by
  have hdash : isDigitRune '-' = false := by decide
  have htake : (ds ++ '-' :: u).takeWhile isDigitRune = ds := by
    induction ds with
    | nil => simp [List.takeWhile, hdash]
    | cons c cs ih =>
      have hc := hds c (by simp)
      by_cases hcs : cs = []
      · subst hcs; simp [List.takeWhile, hc, hdash]
      · simp [List.takeWhile, hc, ih hcs (fun x hx => hds x (by simp [hx]))]
  have hdrop : (ds ++ '-' :: u).dropWhile isDigitRune = '-' :: u := by
    clear htake hne
    induction ds with
    | nil => simp [List.dropWhile, hdash]
    | cons c cs ih =>
      have hc := hds c (by simp)
      simp [List.dropWhile, hc, ih (fun x hx => hds x (by simp [hx]))]
  unfold shorthandRunes
  rw [htake, hdrop]
  cases ds with
  | nil => exact absurd rfl hne
  | cons c cs => simp [List.contains_iff_exists_mem_beq, hu]

/-- C2, as amended: for every string whose lower-cased copy, the copy `ToCron`
parses, does not match `^\+?\d+-(minutes|hours|days|weeks|months|years)$`,
`ToCron` returns the input unchanged. -/
theorem ToCron_unchanged_outside_grammar (tbl : Char → Char) (s : String)
    (h : matchesSignedShorthand (ToLower tbl s) = false) : ToCron tbl s = s := by
  rcases ToCron_cases tbl s with hs | ⟨v, u, n, hsplit, hatoi, _, hu⟩
  · exact hs
  · exfalso
    unfold Split at hsplit
    obtain ⟨a, b, hab, hv, hub⟩ : ∃ a b, splitRunes '-' (ToLower tbl s).data = [a, b] ∧
        String.mk a = v ∧ String.mk b = u := by
      cases hsp : splitRunes '-' (ToLower tbl s).data with
      | nil => rw [hsp] at hsplit; simp at hsplit
      | cons a rest =>
        cases rest with
        | nil => rw [hsp] at hsplit; simp at hsplit
        | cons b rest2 =>
          cases rest2 with
          | nil =>
            rw [hsp] at hsplit
            simp only [List.map_cons, List.map_nil, List.cons.injEq, and_true] at hsplit
            exact ⟨a, b, rfl, hsplit.1, hsplit.2⟩
          | cons _ _ => rw [hsp] at hsplit; simp at hsplit
    obtain ⟨hdata, hda, _⟩ := splitRunes_pair '-' _ a b hab
    subst hv
    subst hub
    obtain ⟨ds, hne, hds, hform⟩ := Atoi_some_runes ⟨a⟩ n hatoi hda
    have hmatch : matchesSignedShorthand (ToLower tbl s) = true := by
      unfold matchesSignedShorthand
      rw [hdata]
      rcases hform with e | e
      · have e' : a = ds := e
        subst e'
        cases a with
        | nil => exact absurd rfl hne
        | cons c cs =>
          have hc : c ≠ '+' := by
            intro ec
            have := hds c (by simp)
            rw [ec] at this
            revert this
            decide
          simp only [List.cons_append, List.head?_cons, Option.some.injEq, hc, if_false]
          exact shorthandRunes_digits (c :: cs) b hne hds hu
      · have e' : a = '+' :: ds := e
        subst e'
        simp only [List.cons_append, List.head?_cons, if_true, List.tail_cons]
        exact shorthandRunes_digits ds b hne hds hu
    rw [hmatch] at h
    exact Bool.noConfusion h

theorem ToCron_unchanged_outside_grammar_witness :
    matchesSignedShorthand (ToLower id "garbage") = false ∧ ToCron id "garbage" = "garbage" :=
  ⟨by decide, ToCron_unchanged_outside_grammar id "garbage" (by decide)⟩

theorem ToCron_signed_counterexample :
    matchesShorthand "+5-minutes" = false ∧
    ∀ tbl : Char → Char, ToCron tbl "+5-minutes" = "*/5 * * * *" ∧
      ToCron tbl "+5-minutes" ≠ "+5-minutes" := by
  refine ⟨by decide, fun tbl => ?_⟩
  rw [ToCron_ascii tbl _ (by decide)]
  decide

/-- C3: for every input string, if splitting its lower-cased copy on `-` does
not give exactly two parts, or the first part does not parse as an integer
greater than zero, or the second part is not one of the six units, then `ToCron`
returns the original input string itself, with its original letter case. -/
theorem ToCron_fallback_verbatim (tbl : Char → Char) (frequency : String)
    (h : (Split (ToLower tbl frequency) '-').length ≠ 2 ∨
      (¬ ∃ value : Int,
        Atoi ((Split (ToLower tbl frequency) '-').getD 0 "") = some value ∧ 0 < value) ∨
      (Split (ToLower tbl frequency) '-').getD 1 "" ∉ units) :
    ToCron tbl frequency = frequency := by
  rcases ToCron_cases tbl frequency with hs | ⟨v, u, n, hsplit, hatoi, hpos, hu⟩
  · exact hs
  · exfalso
    rw [hsplit] at h
    rcases h with h | h | h
    · exact h rfl
    · exact h ⟨n, hatoi, hpos⟩
    · exact h hu

theorem ToCron_fallback_verbatim_witness :
    ToCron id "5-Fortnights" = "5-Fortnights" ∧ ToCron id "0-Minutes" = "0-Minutes" ∧
      ToCron id "1-2-Days" = "1-2-Days" :=
  ⟨ToCron_fallback_verbatim id "5-Fortnights" (Or.inr (Or.inr (by decide))),
   ToCron_fallback_verbatim id "0-Minutes" (Or.inr (Or.inl (by decide))),
   ToCron_fallback_verbatim id "1-2-Days" (Or.inl (by decide))⟩

theorem lowerRune_letter (tbl : Char → Char) (d : Char) (h : 'a' ≤ d ∧ d ≤ 'z') :
    lowerRune tbl d = d ∧ lowerRune tbl (upperRune d) = d ∧ d ≠ '-' := by
  have h1 : 97 ≤ d.toNat := h.1
  have h2 : d.toNat ≤ 122 := h.2
  have hd : d = Char.ofNat d.toNat := (Char.ofNat_toNat d).symm
  generalize d.toNat = k at h1 h2 hd
  subst hd
  interval_cases k <;> exact ⟨rfl, rfl, by decide⟩

theorem caseSpelling_lower (tbl : Char → Char) :
    ∀ (u w : List Char), caseSpelling u w = true → (∀ d ∈ w, 'a' ≤ d ∧ d ≤ 'z') →
      u.map (lowerRune tbl) = w := by
  intro u
  induction u with
  | nil =>
    intro w h _
    cases w with
    | nil => rfl
    | cons _ _ => simp [caseSpelling] at h
  | cons c cs ih =>
    intro w h hw
    cases w with
    | nil => simp [caseSpelling] at h
    | cons d ds =>
      simp only [caseSpelling, Bool.and_eq_true, Bool.or_eq_true, beq_iff_eq] at h
      obtain ⟨hc, hrest⟩ := h
      have hd := lowerRune_letter tbl d (hw d (by simp))
      have htail := ih ds hrest (fun x hx => hw x (by simp [hx]))
      rcases hc with e | e
      · subst e; simp [hd.1, htail]
      · subst e; simp [hd.2.1, htail]

theorem units_letters (w : String) (hw : w ∈ units) : ∀ d ∈ w.data, 'a' ≤ d ∧ d ≤ 'z' := by
  simp only [units, List.mem_cons, List.mem_singleton, List.mem_nil_iff, or_false] at hw
  rcases hw with e | e | e | e | e | e <;> subst e <;> decide

/-- C4, as amended: `ToCron` is case-insensitive on the unit for every positive
`N` that fits Go's `int` (`N < 2 ^ 63`): for every spelling `u` of one of the six
units `w` in any mix of upper and lower case letters, the lower-cased `u` is `w`
and `ToCron` of `N-u` equals `ToCron` of the same string with the unit
lower-cased. -/
theorem ToCron_unit_case_insensitive (tbl : Char → Char) (N : Nat) (u w : String)
    (hpos : 0 < N) (hfit : N < 2 ^ 63) (hw : w ∈ units)
    (hspell : caseSpelling u.data w.data = true) :
    ToLower tbl u = w ∧
    ToCron tbl (Nat.repr N ++ "-" ++ u) = ToCron tbl (Nat.repr N ++ "-" ++ ToLower tbl u) := by
  have hletters := units_letters w hw
  have hlow : ToLower tbl u = w := by
    unfold ToLower
    rw [caseSpelling_lower tbl _ _ hspell hletters]
  have hww : ToLower tbl w = w := by
    unfold ToLower
    have : w.data.map (lowerRune tbl) = w.data :=
      (List.map_congr_left (fun d hd => (lowerRune_letter tbl d (hletters d hd)).1)).trans
        (List.map_id _)
    rw [this]
  have hdash : '-' ∉ w.data := fun hmem => (lowerRune_letter tbl _ (hletters _ hmem)).2.2 rfl
  refine ⟨hlow, ?_⟩
  rw [hlow, ToCron_shorthand tbl N u hpos hfit (by rw [hlow]; exact hdash),
    ToCron_shorthand tbl N w hpos hfit (by rw [hww]; exact hdash), hlow, hww]
  simp only [units, List.mem_cons, List.mem_singleton, List.mem_nil_iff, or_false] at hw
  rcases hw with e | e | e | e | e | e <;> subst e <;> simp

theorem ToCron_unit_case_insensitive_witness :
    ToLower id "MiNuTes" = "minutes" ∧ ToCron id "5-MiNuTes" = ToCron id "5-minutes" :=
  ToCron_unit_case_insensitive id 5 "MiNuTes" "minutes" (by decide) (by decide) (by decide)
    (by decide)

theorem ToCron_case_counterexample :
    (0 < 2 ^ 63 ∧ Nat.repr (2 ^ 63) ++ "-" ++ "MINUTES" = "9223372036854775808-MINUTES" ∧
      caseSpelling "MINUTES".data "minutes".data = true) ∧
    ∀ tbl : Char → Char,
      Nat.repr (2 ^ 63) ++ "-" ++ ToLower tbl "MINUTES" = "9223372036854775808-minutes" ∧
      ToCron tbl "9223372036854775808-MINUTES" = "9223372036854775808-MINUTES" ∧
      ToCron tbl "9223372036854775808-minutes" = "9223372036854775808-minutes" ∧
      ToCron tbl "9223372036854775808-MINUTES" ≠ ToCron tbl "9223372036854775808-minutes" := by
  refine ⟨by decide, fun tbl => ?_⟩
  rw [ToLower_ascii tbl "MINUTES" (by decide), ToCron_ascii tbl "9223372036854775808-MINUTES"
    (by decide), ToCron_ascii tbl "9223372036854775808-minutes" (by decide)]
  decide

theorem scheduleID_eq (projectID : String) (jobID : Int) :
    scheduleID projectID jobID = "schedule-sync-" ++ projectID ++ "-" ++ formatInt jobID := by
  unfold scheduleID workflowID
  apply String.ext
  simp [String.data_append]

/-- Every call of the `switch` of `ManageSync` is a write to the schedule of the
job, and there is at most one. -/
theorem dispatch_calls {σ : Type} (tbl : Char → Char) (TaskQueue : String)
    (c : ScheduleClient σ) (st : σ) (described : Except String ScheduleDescription)
    (projectID : String) (jobID : Int) (frequency : String) (action : SyncAction) :
    (dispatch tbl TaskQueue c st described projectID jobID frequency action).calls.length ≤ 1 ∧
    ∀ call ∈ (dispatch tbl TaskQueue c st described projectID jobID frequency action).calls,
      call.scheduleID = scheduleID projectID jobID ∧ call.mutating = true := by
  unfold dispatch createSchedule updateSchedule
  simp only []
  split_ifs <;> (repeat' split) <;> simp [GatewayCall.scheduleID, GatewayCall.mutating]

/-- C5: for every project ID and job ID, `ManageSync` computes the workflow ID
`sync-<project>-<job>` and the schedule ID `schedule-` followed by the workflow
ID, that is `schedule-sync-<project>-<job>`; its first gateway call is the
describe of that schedule and every gateway call it makes, for every action,
frequency, engine and engine state, addresses exactly that schedule ID. -/
theorem ManageSync_schedule_identity {σ : Type} (tbl : Char → Char) (TaskQueue : String)
    (c : ScheduleClient σ) (st : σ) (projectID : String) (jobID : Int) (frequency : String)
    (action : SyncAction) :
    workflowID projectID jobID = "sync-" ++ projectID ++ "-" ++ formatInt jobID ∧
    scheduleID projectID jobID = "schedule-" ++ workflowID projectID jobID ∧
    scheduleID projectID jobID = "schedule-sync-" ++ projectID ++ "-" ++ formatInt jobID ∧
    (ManageSync tbl TaskQueue c st projectID jobID frequency action).calls.head? =
      some (GatewayCall.describe (scheduleID projectID jobID)) ∧
    ∀ call ∈ (ManageSync tbl TaskQueue c st projectID jobID frequency action).calls,
      call.scheduleID = "schedule-sync-" ++ projectID ++ "-" ++ formatInt jobID := by
  refine ⟨rfl, rfl, scheduleID_eq projectID jobID, ?_, ?_⟩
  · unfold ManageSync
    simp only []
    split_ifs <;> rfl
  · intro call hcall
    rw [← scheduleID_eq]
    unfold ManageSync at hcall
    simp only [] at hcall
    split_ifs at hcall
    · simp only [List.mem_singleton] at hcall
      subst hcall
      rfl
    · simp only [List.mem_cons] at hcall
      rcases hcall with e | e
      · subst e; rfl
      · exact ((dispatch_calls _ _ _ _ _ _ _ _ _).2 call e).1

/-- C6, as amended: for every project ID, job ID, engine and engine state,
`ManageSync` with action create and an empty frequency fails with the error
`frequency is required for creating schedule` after exactly one gateway call,
the describe of the schedule that opens every `ManageSync`; it makes no
schedule-mutating call and leaves the engine as the describe left it. -/
theorem ManageSync_create_requires_frequency {σ : Type} (tbl : Char → Char)
    (TaskQueue : String) (c : ScheduleClient σ) (st : σ) (projectID : String) (jobID : Int) :
    (ManageSync tbl TaskQueue c st projectID jobID "" ActionCreate).result =
      Except.error "frequency is required for creating schedule" ∧
    (ManageSync tbl TaskQueue c st projectID jobID "" ActionCreate).calls =
      [GatewayCall.describe (scheduleID projectID jobID)] ∧
    (ManageSync tbl TaskQueue c st projectID jobID "" ActionCreate).engine =
      (c.Describe (scheduleID projectID jobID) st).2 ∧
    ∀ call ∈ (ManageSync tbl TaskQueue c st projectID jobID "" ActionCreate).calls,
      call.mutating = false := by
  have hrun : ManageSync tbl TaskQueue c st projectID jobID "" ActionCreate =
      { result := Except.error "frequency is required for creating schedule"
        engine := (c.Describe (scheduleID projectID jobID) st).2
        calls := [GatewayCall.describe (scheduleID projectID jobID)] } := by
    simp [ManageSync, dispatch]
  rw [hrun]
  simp [GatewayCall.mutating]

theorem ManageSync_create_describe_counterexample :
    (ManageSync id "OLAKE_DOCKER_TASK_QUEUE" (storeClient (fun _ => true)) Store.empty
        "p" 7 "" ActionCreate).result =
      Except.error "frequency is required for creating schedule" ∧
    (ManageSync id "OLAKE_DOCKER_TASK_QUEUE" (storeClient (fun _ => true)) Store.empty
        "p" 7 "" ActionCreate).calls = [GatewayCall.describe "schedule-sync-p-7"] ∧
    (ManageSync id "OLAKE_DOCKER_TASK_QUEUE" (storeClient (fun _ => true)) Store.empty
        "p" 7 "" ActionCreate).calls.length ≠ 0 :=
  ⟨rfl, rfl, by decide⟩

/-! ### `ManageSync` by the outcome of `describe` -/

theorem ManageSync_missing {σ : Type} (tbl : Char → Char) (TaskQueue : String)
    (c : ScheduleClient σ) (st : σ) (projectID : String) (jobID : Int) (frequency : String)
    (action : SyncAction) (err : String) (haction : action ≠ ActionCreate)
    (hdesc : (c.Describe (scheduleID projectID jobID) st).1 = Except.error err) :
    ManageSync tbl TaskQueue c st projectID jobID frequency action =
      { result := Except.error "schedule does not exist"
        engine := (c.Describe (scheduleID projectID jobID) st).2
        calls := [GatewayCall.describe (scheduleID projectID jobID)] } := by
  unfold ManageSync
  simp only [hdesc, haction, ne_eq, not_false_eq_true, and_self, if_true]

theorem ManageSync_create_present {σ : Type} (tbl : Char → Char) (TaskQueue : String)
    (c : ScheduleClient σ) (st : σ) (projectID : String) (jobID : Int) (frequency : String)
    (d : ScheduleDescription) (hf : frequency ≠ "")
    (hdesc : (c.Describe (scheduleID projectID jobID) st).1 = Except.ok d) :
    ManageSync tbl TaskQueue c st projectID jobID frequency ActionCreate =
      { result := Except.error "schedule already exists"
        engine := (c.Describe (scheduleID projectID jobID) st).2
        calls := [GatewayCall.describe (scheduleID projectID jobID)] } := by
  unfold ManageSync dispatch
  simp [hdesc, hf]

theorem ManageSync_create_missing {σ : Type} (tbl : Char → Char) (TaskQueue : String)
    (c : ScheduleClient σ) (st : σ) (projectID : String) (jobID : Int) (frequency : String)
    (err : String) (hf : frequency ≠ "")
    (hdesc : (c.Describe (scheduleID projectID jobID) st).1 = Except.error err) :
    ManageSync tbl TaskQueue c st projectID jobID frequency ActionCreate =
      { createSchedule tbl TaskQueue c (c.Describe (scheduleID projectID jobID) st).2
          (scheduleID projectID jobID) (workflowID projectID jobID) frequency jobID with
        calls := GatewayCall.describe (scheduleID projectID jobID) ::
          (createSchedule tbl TaskQueue c (c.Describe (scheduleID projectID jobID) st).2
            (scheduleID projectID jobID) (workflowID projectID jobID) frequency jobID).calls } := by
  unfold ManageSync dispatch
  simp [hdesc, hf]

theorem ManageSync_update_present {σ : Type} (tbl : Char → Char) (TaskQueue : String)
    (c : ScheduleClient σ) (st : σ) (projectID : String) (jobID : Int) (frequency : String)
    (d : ScheduleDescription) (hf : frequency ≠ "")
    (hdesc : (c.Describe (scheduleID projectID jobID) st).1 = Except.ok d) :
    ManageSync tbl TaskQueue c st projectID jobID frequency ActionUpdate =
      { updateSchedule tbl c (c.Describe (scheduleID projectID jobID) st).2 d
          (scheduleID projectID jobID) frequency with
        calls := GatewayCall.describe (scheduleID projectID jobID) ::
          (updateSchedule tbl c (c.Describe (scheduleID projectID jobID) st).2 d
            (scheduleID projectID jobID) frequency).calls } := by
  unfold ManageSync dispatch
  simp [hdesc, hf, ActionUpdate, ActionCreate]

theorem ManageSync_delete_present {σ : Type} (tbl : Char → Char) (TaskQueue : String)
    (c : ScheduleClient σ) (st : σ) (projectID : String) (jobID : Int) (frequency : String)
    (d : ScheduleDescription)
    (hdesc : (c.Describe (scheduleID projectID jobID) st).1 = Except.ok d)
    (hdel : (c.Delete (scheduleID projectID jobID)
      (c.Describe (scheduleID projectID jobID) st).2).1 = Except.ok ()) :
    ManageSync tbl TaskQueue c st projectID jobID frequency ActionDelete =
      { result := Except.ok [("message", "Schedule deleted successfully")]
        engine := (c.Delete (scheduleID projectID jobID)
          (c.Describe (scheduleID projectID jobID) st).2).2
        calls := [GatewayCall.describe (scheduleID projectID jobID),
          GatewayCall.delete (scheduleID projectID jobID)] } := by
  unfold ManageSync dispatch
  simp only [hdesc, ActionDelete, ActionCreate, ActionUpdate]
  simp only [ne_eq, String.reduceEq, not_false_eq_true, Bool.true_eq_false, and_false,
    if_false, if_true]
  split
  · rename_i heq
    rw [heq] at hdel
    cases hdel
  · rename_i heq
    rw [heq]

/-! ### The store engine -/

theorem Store.set_same (st : Store) (id : String) (entry : Option Schedule) :
    (st.set id entry) id = entry := by
  simp [Store.set]

theorem store_Describe_none (accepts : ScheduleSpec → Bool) (st : Store) (id : String)
    (h : st id = none) :
    (storeClient accepts).Describe id st = (Except.error "schedule not found", st) := by
  simp [storeClient, h]

theorem store_Describe_some (accepts : ScheduleSpec → Bool) (st : Store) (id : String)
    (s : Schedule) (h : st id = some s) :
    (storeClient accepts).Describe id st = (Except.ok { Schedule := s }, st) := by
  simp [storeClient, h]

theorem store_Delete_some (accepts : ScheduleSpec → Bool) (st : Store) (id : String)
    (s : Schedule) (h : st id = some s) :
    (storeClient accepts).Delete id st = (Except.ok (), st.set id none) := by
  simp [storeClient, h]

/-- A successful `ManageSync` create on a store found no schedule and left one. -/
theorem store_create_ok (tbl : Char → Char) (TaskQueue : String) (accepts : ScheduleSpec → Bool)
    (st : Store) (projectID : String) (jobID : Int) (frequency : String) (payload : Payload)
    (hf : frequency ≠ "")
    (hok : (ManageSync tbl TaskQueue (storeClient accepts) st projectID jobID frequency
      ActionCreate).result = Except.ok payload) :
    st (scheduleID projectID jobID) = none ∧
    ∃ s : Schedule,
      (ManageSync tbl TaskQueue (storeClient accepts) st projectID jobID frequency
        ActionCreate).engine = st.set (scheduleID projectID jobID) (some s) := by
  cases hst : st (scheduleID projectID jobID) with
  | some s =>
    rw [ManageSync_create_present tbl TaskQueue _ st projectID jobID frequency ⟨s⟩ hf
      (by rw [store_Describe_some accepts st _ s hst])] at hok
    cases hok
  | none =>
    refine ⟨rfl, ?_⟩
    have hd := store_Describe_none accepts st _ hst
    rw [ManageSync_create_missing tbl TaskQueue _ st projectID jobID frequency
      "schedule not found" hf (by rw [hd])] at hok ⊢
    rw [hd] at hok ⊢
    simp only [createSchedule, storeClient, hst] at hok ⊢
    split_ifs at hok ⊢ with hacc
    exact ⟨_, rfl⟩

/-- A successful `ManageSync` update on a store leaves the schedule with the
translated frequency as its first cron expression. -/
theorem store_update_ok (tbl : Char → Char) (TaskQueue : String) (accepts : ScheduleSpec → Bool)
    (st : Store) (projectID : String) (jobID : Int) (frequency : String) (payload : Payload)
    (hf : frequency ≠ "")
    (hok : (ManageSync tbl TaskQueue (storeClient accepts) st projectID jobID frequency
      ActionUpdate).result = Except.ok payload) :
    ∃ s : Schedule,
      (ManageSync tbl TaskQueue (storeClient accepts) st projectID jobID frequency
        ActionUpdate).engine (scheduleID projectID jobID) = some s ∧
      s.Spec.CronExpressions.head? = some (ToCron tbl frequency) := by
  cases hst : st (scheduleID projectID jobID) with
  | none =>
    rw [ManageSync_missing tbl TaskQueue _ st projectID jobID frequency ActionUpdate
      "schedule not found" (by decide)
      (by rw [store_Describe_none accepts st _ hst])] at hok
    cases hok
  | some s =>
    have hd := store_Describe_some accepts st _ s hst
    rw [ManageSync_update_present tbl TaskQueue _ st projectID jobID frequency ⟨s⟩ hf
      (by rw [hd])] at hok ⊢
    rw [hd] at hok ⊢
    simp only [updateSchedule] at hok ⊢
    split_ifs at hok ⊢ with hsame
    · exact ⟨s, hst, hsame.2⟩
    · simp only [storeClient, hst, DoUpdate] at hok ⊢
      split_ifs at hok ⊢ with hacc
      exact ⟨_, Store.set_same _ _ _, rfl⟩

theorem ManageSync_update_short_circuit {σ : Type} (tbl : Char → Char) (TaskQueue : String)
    (c : ScheduleClient σ) (st : σ) (projectID : String) (jobID : Int) (frequency : String)
    (d : ScheduleDescription) (hf : frequency ≠ "")
    (hdesc : (c.Describe (scheduleID projectID jobID) st).1 = Except.ok d)
    (hcron : d.Schedule.Spec.CronExpressions.head? = some (ToCron tbl frequency)) :
    ManageSync tbl TaskQueue c st projectID jobID frequency ActionUpdate =
      { result := Except.ok [("message", "Schedule already up to date")]
        engine := (c.Describe (scheduleID projectID jobID) st).2
        calls := [GatewayCall.describe (scheduleID projectID jobID)] } := by
  have hlen : 0 < d.Schedule.Spec.CronExpressions.length := by
    cases hl : d.Schedule.Spec.CronExpressions with
    | nil => rw [hl] at hcron; simp at hcron
    | cons _ _ => simp
  rw [ManageSync_update_present tbl TaskQueue c st projectID jobID frequency d hf hdesc]
  simp only [updateSchedule, hlen, hcron, and_self, if_true]

/-- C7: on the engine modelled as a store, for every job and non-empty
frequency, if `ManageSync` create succeeds (which it does only when the store
held no schedule for the job), then an immediately following `ManageSync` create
for the same project and job, with any non-empty frequency, fails with
`schedule already exists`, makes the describe call only and leaves the store as
it was. -/
theorem ManageSync_create_twice (tbl : Char → Char) (TaskQueue : String)
    (accepts : ScheduleSpec → Bool) (st : Store) (projectID : String) (jobID : Int)
    (frequency again : String) (payload : Payload) (hf : frequency ≠ "") (ha : again ≠ "")
    (hok : (ManageSync tbl TaskQueue (storeClient accepts) st projectID jobID frequency
      ActionCreate).result = Except.ok payload) :
    st (scheduleID projectID jobID) = none ∧
    (ManageSync tbl TaskQueue (storeClient accepts)
      (ManageSync tbl TaskQueue (storeClient accepts) st projectID jobID frequency
        ActionCreate).engine projectID jobID again ActionCreate).result =
      Except.error "schedule already exists" ∧
    (ManageSync tbl TaskQueue (storeClient accepts)
      (ManageSync tbl TaskQueue (storeClient accepts) st projectID jobID frequency
        ActionCreate).engine projectID jobID again ActionCreate).calls =
      [GatewayCall.describe (scheduleID projectID jobID)] ∧
    (ManageSync tbl TaskQueue (storeClient accepts)
      (ManageSync tbl TaskQueue (storeClient accepts) st projectID jobID frequency
        ActionCreate).engine projectID jobID again ActionCreate).engine =
      (ManageSync tbl TaskQueue (storeClient accepts) st projectID jobID frequency
        ActionCreate).engine := by
  obtain ⟨hnone, s, hs⟩ := store_create_ok tbl TaskQueue accepts st projectID jobID frequency
    payload hf hok
  have hthere : (ManageSync tbl TaskQueue (storeClient accepts) st projectID jobID frequency
      ActionCreate).engine (scheduleID projectID jobID) = some s := by
    rw [hs]; exact Store.set_same _ _ _
  have hd := store_Describe_some accepts _ (scheduleID projectID jobID) s hthere
  rw [ManageSync_create_present tbl TaskQueue _ _ projectID jobID again ⟨s⟩ ha (by rw [hd])]
  rw [hd]
  exact ⟨hnone, rfl, rfl, rfl⟩

theorem ManageSync_create_twice_witness :
    (ManageSync id "OLAKE_DOCKER_TASK_QUEUE" (storeClient (fun _ => true)) Store.empty "p" 7
      "5-minutes" ActionCreate).result =
      Except.ok [("message", "Schedule created successfully"), ("cron", "*/5 * * * *")] ∧
    (ManageSync id "OLAKE_DOCKER_TASK_QUEUE" (storeClient (fun _ => true))
      (ManageSync id "OLAKE_DOCKER_TASK_QUEUE" (storeClient (fun _ => true)) Store.empty "p" 7
        "5-minutes" ActionCreate).engine "p" 7 "5-minutes" ActionCreate).result =
      Except.error "schedule already exists" :=
  ⟨rfl, (ManageSync_create_twice id "OLAKE_DOCKER_TASK_QUEUE" (fun _ => true) Store.empty "p" 7
    "5-minutes" "5-minutes" _ (by decide) (by decide) rfl).2.1⟩

/-- C8: on the engine modelled as a store, for every non-empty frequency, after
a successful `ManageSync` update a second update with the same frequency makes
the describe call only, leaves the store as it was and returns the payload with
the message `Schedule already up to date` and no cron field; and on every
engine, update short-circuits in this way whenever the first cron expression of
the described schedule equals `ToCron` of the frequency. -/
theorem ManageSync_update_twice (tbl : Char → Char) (TaskQueue : String)
    (accepts : ScheduleSpec → Bool) (st : Store) (projectID : String) (jobID : Int)
    (frequency : String) (payload : Payload) (hf : frequency ≠ "")
    (hok : (ManageSync tbl TaskQueue (storeClient accepts) st projectID jobID frequency
      ActionUpdate).result = Except.ok payload) :
    ((ManageSync tbl TaskQueue (storeClient accepts)
      (ManageSync tbl TaskQueue (storeClient accepts) st projectID jobID frequency
        ActionUpdate).engine projectID jobID frequency ActionUpdate).result =
      Except.ok [("message", "Schedule already up to date")] ∧
    (ManageSync tbl TaskQueue (storeClient accepts)
      (ManageSync tbl TaskQueue (storeClient accepts) st projectID jobID frequency
        ActionUpdate).engine projectID jobID frequency ActionUpdate).calls =
      [GatewayCall.describe (scheduleID projectID jobID)] ∧
    (ManageSync tbl TaskQueue (storeClient accepts)
      (ManageSync tbl TaskQueue (storeClient accepts) st projectID jobID frequency
        ActionUpdate).engine projectID jobID frequency ActionUpdate).engine =
      (ManageSync tbl TaskQueue (storeClient accepts) st projectID jobID frequency
        ActionUpdate).engine) ∧
    ∀ (σ : Type) (c : ScheduleClient σ) (s0 : σ) (d : ScheduleDescription),
      (c.Describe (scheduleID projectID jobID) s0).1 = Except.ok d →
      d.Schedule.Spec.CronExpressions.head? = some (ToCron tbl frequency) →
      (ManageSync tbl TaskQueue c s0 projectID jobID frequency ActionUpdate).result =
        Except.ok [("message", "Schedule already up to date")] ∧
      (ManageSync tbl TaskQueue c s0 projectID jobID frequency ActionUpdate).calls =
        [GatewayCall.describe (scheduleID projectID jobID)] := by
  constructor
  · obtain ⟨s, hs, hcron⟩ := store_update_ok tbl TaskQueue accepts st projectID jobID frequency
      payload hf hok
    have hd := store_Describe_some accepts _ (scheduleID projectID jobID) s hs
    rw [ManageSync_update_short_circuit tbl TaskQueue _ _ projectID jobID frequency ⟨s⟩ hf
      (by rw [hd]) hcron]
    rw [hd]
    exact ⟨rfl, rfl, rfl⟩
  · intro σ c s0 d hdesc hcron
    rw [ManageSync_update_short_circuit tbl TaskQueue c s0 projectID jobID frequency d hf hdesc
      hcron]
    exact ⟨rfl, rfl⟩

theorem ManageSync_update_twice_witness :
    (ManageSync id "OLAKE_DOCKER_TASK_QUEUE" (storeClient (fun _ => true)) Store.sample "p" 7
      "2-hours" ActionUpdate).result =
      Except.ok [("message", "Schedule updated successfully"), ("cron", "0 */2 * * *")] ∧
    (ManageSync id "OLAKE_DOCKER_TASK_QUEUE" (storeClient (fun _ => true))
      (ManageSync id "OLAKE_DOCKER_TASK_QUEUE" (storeClient (fun _ => true)) Store.sample "p" 7
        "2-hours" ActionUpdate).engine "p" 7 "2-hours" ActionUpdate).calls =
      [GatewayCall.describe "schedule-sync-p-7"] :=
  ⟨rfl, (ManageSync_update_twice id "OLAKE_DOCKER_TASK_QUEUE" (fun _ => true) Store.sample "p" 7
    "2-hours" _ (by decide) rfl).1.2.1⟩

/-- C9: on the engine modelled as a store, `ManageSync` delete for a job whose
schedule does not exist fails with `schedule does not exist`; and after a
successful create, delete succeeds with the message
`Schedule deleted successfully`, a describe of the schedule then fails, and every
further action other than create fails with `schedule does not exist`. -/
theorem ManageSync_delete_cycle (tbl : Char → Char) (TaskQueue : String)
    (accepts : ScheduleSpec → Bool) (st : Store) (projectID : String) (jobID : Int)
    (frequency : String) :
    (st (scheduleID projectID jobID) = none →
      (ManageSync tbl TaskQueue (storeClient accepts) st projectID jobID frequency
        ActionDelete).result = Except.error "schedule does not exist") ∧
    ∀ (created : String) (payload : Payload), created ≠ "" →
      (ManageSync tbl TaskQueue (storeClient accepts) st projectID jobID created
        ActionCreate).result = Except.ok payload →
      (ManageSync tbl TaskQueue (storeClient accepts)
        (ManageSync tbl TaskQueue (storeClient accepts) st projectID jobID created
          ActionCreate).engine projectID jobID frequency ActionDelete).result =
        Except.ok [("message", "Schedule deleted successfully")] ∧
      ((storeClient accepts).Describe (scheduleID projectID jobID)
        (ManageSync tbl TaskQueue (storeClient accepts)
          (ManageSync tbl TaskQueue (storeClient accepts) st projectID jobID created
            ActionCreate).engine projectID jobID frequency ActionDelete).engine).1 =
        Except.error "schedule not found" ∧
      ∀ (action : SyncAction) (next : String), action ≠ ActionCreate →
        (ManageSync tbl TaskQueue (storeClient accepts)
          (ManageSync tbl TaskQueue (storeClient accepts)
            (ManageSync tbl TaskQueue (storeClient accepts) st projectID jobID created
              ActionCreate).engine projectID jobID frequency ActionDelete).engine
          projectID jobID next action).result = Except.error "schedule does not exist" := by
  constructor
  · intro hnone
    rw [ManageSync_missing tbl TaskQueue _ st projectID jobID frequency ActionDelete
      "schedule not found" (by decide) (by rw [store_Describe_none accepts st _ hnone])]
  · intro created payload hc hok
    obtain ⟨_, s, hs⟩ := store_create_ok tbl TaskQueue accepts st projectID jobID created
      payload hc hok
    have hthere : (ManageSync tbl TaskQueue (storeClient accepts) st projectID jobID created
        ActionCreate).engine (scheduleID projectID jobID) = some s := by
      rw [hs]; exact Store.set_same _ _ _
    have hd := store_Describe_some accepts _ (scheduleID projectID jobID) s hthere
    have hdel := store_Delete_some accepts _ (scheduleID projectID jobID) s hthere
    rw [ManageSync_delete_present tbl TaskQueue _ _ projectID jobID frequency ⟨s⟩
      (by rw [hd]) (by rw [hd, hdel])]
    rw [hd, hdel]
    have hgone := store_Describe_none accepts
      ((ManageSync tbl TaskQueue (storeClient accepts) st projectID jobID created
        ActionCreate).engine.set (scheduleID projectID jobID) none)
      (scheduleID projectID jobID) (Store.set_same _ _ _)
    refine ⟨rfl, by rw [hgone], ?_⟩
    intro action next haction
    rw [ManageSync_missing tbl TaskQueue _ _ projectID jobID next action
      "schedule not found" haction (by rw [hgone])]

theorem ManageSync_delete_cycle_witness :
    (ManageSync id "OLAKE_DOCKER_TASK_QUEUE" (storeClient (fun _ => true)) Store.empty "p" 7
      "" ActionDelete).result = Except.error "schedule does not exist" ∧
    (ManageSync id "OLAKE_DOCKER_TASK_QUEUE" (storeClient (fun _ => true))
        (ManageSync id "OLAKE_DOCKER_TASK_QUEUE" (storeClient (fun _ => true)) Store.empty "p" 7
          "5-minutes" ActionCreate).engine "p" 7 "" ActionDelete).result =
      Except.ok [("message", "Schedule deleted successfully")] :=
  ⟨(ManageSync_delete_cycle id "OLAKE_DOCKER_TASK_QUEUE" (fun _ => true) Store.empty "p" 7
      "").1 rfl,
   ((ManageSync_delete_cycle id "OLAKE_DOCKER_TASK_QUEUE" (fun _ => true) Store.empty "p" 7
      "").2 "5-minutes" _ (by decide) rfl).1⟩

/-- C10: for every action other than create, every frequency, engine and
engine state, if the describe of the job's schedule fails then `ManageSync`
returns the error `schedule does not exist` and its only gateway call is that
describe: no schedule-mutating call is made. -/
theorem ManageSync_requires_schedule {σ : Type} (tbl : Char → Char) (TaskQueue : String)
    (c : ScheduleClient σ) (st : σ) (projectID : String) (jobID : Int) (frequency : String)
    (action : SyncAction) (err : String) (haction : action ≠ ActionCreate)
    (hdesc : (c.Describe (scheduleID projectID jobID) st).1 = Except.error err) :
    (ManageSync tbl TaskQueue c st projectID jobID frequency action).result =
      Except.error "schedule does not exist" ∧
    (ManageSync tbl TaskQueue c st projectID jobID frequency action).calls =
      [GatewayCall.describe (scheduleID projectID jobID)] ∧
    ∀ call ∈ (ManageSync tbl TaskQueue c st projectID jobID frequency action).calls,
      call.mutating = false := by
  rw [ManageSync_missing tbl TaskQueue c st projectID jobID frequency action err haction hdesc]
  simp [GatewayCall.mutating]

theorem ManageSync_requires_schedule_witness :
    (ManageSync id "OLAKE_DOCKER_TASK_QUEUE" (storeClient (fun _ => true)) Store.empty "p" 7
      "5-minutes" ActionPause).result = Except.error "schedule does not exist" ∧
    (ManageSync id "OLAKE_DOCKER_TASK_QUEUE" (storeClient (fun _ => true)) Store.empty "p" 7
      "5-minutes" ActionPause).calls = [GatewayCall.describe "schedule-sync-p-7"] :=
  ⟨(ManageSync_requires_schedule id "OLAKE_DOCKER_TASK_QUEUE" (storeClient (fun _ => true))
      Store.empty "p" 7 "5-minutes" ActionPause "schedule not found" (by decide) rfl).1,
   (ManageSync_requires_schedule id "OLAKE_DOCKER_TASK_QUEUE" (storeClient (fun _ => true))
      Store.empty "p" 7 "5-minutes" ActionPause "schedule not found" (by decide) rfl).2.1⟩

/-- What the `switch` of `ManageSync` does: either no call at all, the engine
untouched, or one write to the engine whose failure is returned wrapped with the
action. -/
theorem dispatch_outcome {σ : Type} (tbl : Char → Char) (TaskQueue : String)
    (c : ScheduleClient σ) (st : σ) (described : Except String ScheduleDescription)
    (projectID : String) (jobID : Int) (frequency : String) (action : SyncAction) :
    ((dispatch tbl TaskQueue c st described projectID jobID frequency action).calls = [] ∧
      (dispatch tbl TaskQueue c st described projectID jobID frequency action).engine = st) ∨
    ∃ call : GatewayCall,
      (dispatch tbl TaskQueue c st described projectID jobID frequency action).calls = [call] ∧
      call.mutating = true ∧ action ∈ supportedActions ∧
      (dispatch tbl TaskQueue c st described projectID jobID frequency action).engine =
        (call.perform c st).2 ∧
      (((call.perform c st).1 = Except.ok () ∧
        ∃ payload, (dispatch tbl TaskQueue c st described projectID jobID frequency action).result
          = Except.ok payload) ∨
        ∃ e, (call.perform c st).1 = Except.error e ∧
          (dispatch tbl TaskQueue c st described projectID jobID frequency action).result =
            Except.error ("failed to " ++ action ++ " schedule: " ++ e)) := by
  unfold dispatch
  simp only []
  by_cases h1 : action = ActionCreate
  · subst h1
    simp only [if_true]
    by_cases hf : frequency = ""
    · left; simp [hf]
    · simp only [hf, if_false]
      cases described with
      | ok d => left; simp
      | error e0 =>
        right
        simp only [createSchedule]
        refine ⟨GatewayCall.create
          { ID := scheduleID projectID jobID
            Spec := { CronExpressions := [ToCron tbl frequency] }
            Action := { ID := workflowID projectID jobID, Workflow := RunSyncWorkflow
                        Args := [jobID], TaskQueue := TaskQueue }
            Overlap := ScheduleOverlapPolicy.SKIP }, ?_⟩
        split
        · rename_i err st1 heq
          exact ⟨rfl, rfl, by decide, by simp [GatewayCall.perform, heq],
            Or.inr ⟨err, by simp [GatewayCall.perform, heq], rfl⟩⟩
        · rename_i u st1 heq
          exact ⟨rfl, rfl, by decide, by simp [GatewayCall.perform, heq],
            Or.inl ⟨by simp [GatewayCall.perform, heq], _, rfl⟩⟩
  · simp only [h1, if_false]
    by_cases h2 : action = ActionUpdate
    · subst h2
      simp only [if_true]
      by_cases hf : frequency = ""
      · left; simp [hf]
      · simp only [hf, if_false]
        cases described with
        | error e0 => left; simp
        | ok d =>
          simp only [updateSchedule]
          split_ifs with hsame
          · left; simp
          · right
            refine ⟨GatewayCall.update (scheduleID projectID jobID) (ToCron tbl frequency), ?_⟩
            split
            · rename_i err st1 heq
              exact ⟨rfl, rfl, by decide, by simp [GatewayCall.perform, heq],
                Or.inr ⟨err, by simp [GatewayCall.perform, heq], rfl⟩⟩
            · rename_i u st1 heq
              exact ⟨rfl, rfl, by decide, by simp [GatewayCall.perform, heq],
                Or.inl ⟨by simp [GatewayCall.perform, heq], _, rfl⟩⟩
    · simp only [h2, if_false]
      by_cases h3 : action = ActionDelete
      · subst h3
        simp only [if_true]
        right
        refine ⟨GatewayCall.delete (scheduleID projectID jobID), ?_⟩
        split
        · rename_i err st1 heq
          exact ⟨rfl, rfl, by decide, by simp [GatewayCall.perform, heq],
            Or.inr ⟨err, by simp [GatewayCall.perform, heq], rfl⟩⟩
        · rename_i u st1 heq
          exact ⟨rfl, rfl, by decide, by simp [GatewayCall.perform, heq],
            Or.inl ⟨by simp [GatewayCall.perform, heq], _, rfl⟩⟩
      · simp only [h3, if_false]
        by_cases h4 : action = ActionTrigger
        · subst h4
          simp only [if_true]
          right
          refine ⟨GatewayCall.trigger (scheduleID projectID jobID) ScheduleOverlapPolicy.SKIP, ?_⟩
          split
          · rename_i err st1 heq
            exact ⟨rfl, rfl, by decide, by simp [GatewayCall.perform, heq],
              Or.inr ⟨err, by simp [GatewayCall.perform, heq], rfl⟩⟩
          · rename_i u st1 heq
            exact ⟨rfl, rfl, by decide, by simp [GatewayCall.perform, heq],
              Or.inl ⟨by simp [GatewayCall.perform, heq], _, rfl⟩⟩
        · simp only [h4, if_false]
          by_cases h5 : action = ActionPause
          · subst h5
            simp only [if_true]
            right
            refine ⟨GatewayCall.pause (scheduleID projectID jobID) "Paused via API", ?_⟩
            split
            · rename_i err st1 heq
              exact ⟨rfl, rfl, by decide, by simp [GatewayCall.perform, heq],
                Or.inr ⟨err, by simp [GatewayCall.perform, heq], rfl⟩⟩
            · rename_i u st1 heq
              exact ⟨rfl, rfl, by decide, by simp [GatewayCall.perform, heq],
                Or.inl ⟨by simp [GatewayCall.perform, heq], _, rfl⟩⟩
          · simp only [h5, if_false]
            by_cases h6 : action = ActionUnpause
            · subst h6
              simp only [if_true]
              right
              refine ⟨GatewayCall.unpause (scheduleID projectID jobID) "Unpaused via API", ?_⟩
              split
              · rename_i err st1 heq
                exact ⟨rfl, rfl, by decide, by simp [GatewayCall.perform, heq],
                  Or.inr ⟨err, by simp [GatewayCall.perform, heq], rfl⟩⟩
              · rename_i u st1 heq
                exact ⟨rfl, rfl, by decide, by simp [GatewayCall.perform, heq],
                  Or.inl ⟨by simp [GatewayCall.perform, heq], _, rfl⟩⟩
            · left; simp [h6]

/-- What `ManageSync` does: the describe, then nothing more, or the describe and
one write to the schedule of the job whose failure is returned wrapped with the
action. -/
theorem ManageSync_outcome {σ : Type} (tbl : Char → Char) (TaskQueue : String)
    (c : ScheduleClient σ) (st : σ) (projectID : String) (jobID : Int) (frequency : String)
    (action : SyncAction) :
    ((ManageSync tbl TaskQueue c st projectID jobID frequency action).calls =
        [GatewayCall.describe (scheduleID projectID jobID)] ∧
      (ManageSync tbl TaskQueue c st projectID jobID frequency action).engine =
        (c.Describe (scheduleID projectID jobID) st).2) ∨
    ∃ call : GatewayCall,
      (ManageSync tbl TaskQueue c st projectID jobID frequency action).calls =
        [GatewayCall.describe (scheduleID projectID jobID), call] ∧
      call.mutating = true ∧ call.scheduleID = scheduleID projectID jobID ∧
      action ∈ supportedActions ∧
      (ManageSync tbl TaskQueue c st projectID jobID frequency action).engine =
        (call.perform c (c.Describe (scheduleID projectID jobID) st).2).2 ∧
      (((call.perform c (c.Describe (scheduleID projectID jobID) st).2).1 = Except.ok () ∧
        ∃ payload, (ManageSync tbl TaskQueue c st projectID jobID frequency action).result
          = Except.ok payload) ∨
        ∃ e, (call.perform c (c.Describe (scheduleID projectID jobID) st).2).1 = Except.error e ∧
          (ManageSync tbl TaskQueue c st projectID jobID frequency action).result =
            Except.error ("failed to " ++ action ++ " schedule: " ++ e)) := by
  unfold ManageSync
  simp only []
  split_ifs with hguard
  · left; exact ⟨rfl, rfl⟩
  · have hd := dispatch_outcome tbl TaskQueue c (c.Describe (scheduleID projectID jobID) st).2
      (c.Describe (scheduleID projectID jobID) st).1 projectID jobID frequency action
    have hc := dispatch_calls tbl TaskQueue c (c.Describe (scheduleID projectID jobID) st).2
      (c.Describe (scheduleID projectID jobID) st).1 projectID jobID frequency action
    rcases hd with ⟨h0, h1⟩ | ⟨call, h0, hm, ha, he, hr⟩
    · left; exact ⟨by simp [h0], h1⟩
    · right
      refine ⟨call, by simp [h0], hm, ?_, ha, he, hr⟩
      exact (hc.2 call (by simp [h0])).1

theorem wrapped_error_letters (action e : String) :
    ("failed to " ++ action ++ " schedule: " ++ e).data.take 2 = ['f', 'a'] := rfl

theorem preconditionErrors_letters (action e : String) (h : e ∈ preconditionErrors action) :
    e.data.take 2 ≠ ['f', 'a'] := by
  simp only [preconditionErrors, List.mem_cons, List.mem_singleton, List.mem_nil_iff,
    or_false] at h
  rcases h with h | h | h | h | h
  · subst h; decide
  · subst h; decide
  · subst h; decide
  · subst h; decide
  · subst h
    have : ("unsupported action: " ++ action).data.take 2 = ['u', 'n'] := rfl
    rw [this]; decide

/-! ### `ManageSync` on the store engine, action by action -/

theorem ManageSync_create_empty {σ : Type} (tbl : Char → Char) (TaskQueue : String)
    (c : ScheduleClient σ) (st : σ) (projectID : String) (jobID : Int) :
    ManageSync tbl TaskQueue c st projectID jobID "" ActionCreate =
      { result := Except.error "frequency is required for creating schedule"
        engine := (c.Describe (scheduleID projectID jobID) st).2
        calls := [GatewayCall.describe (scheduleID projectID jobID)] } := by
  simp [ManageSync, dispatch]

theorem ManageSync_update_empty {σ : Type} (tbl : Char → Char) (TaskQueue : String)
    (c : ScheduleClient σ) (st : σ) (projectID : String) (jobID : Int)
    (d : ScheduleDescription)
    (hdesc : (c.Describe (scheduleID projectID jobID) st).1 = Except.ok d) :
    ManageSync tbl TaskQueue c st projectID jobID "" ActionUpdate =
      { result := Except.error "frequency is required for updating schedule"
        engine := (c.Describe (scheduleID projectID jobID) st).2
        calls := [GatewayCall.describe (scheduleID projectID jobID)] } := by
  simp [ManageSync, dispatch, hdesc, ActionUpdate, ActionCreate]

/-- The schedule `createSchedule` asks the engine to hold. -/
theorem store_create_run (tbl : Char → Char) (TaskQueue : String)
    (accepts : ScheduleSpec → Bool) (st : Store) (projectID : String) (jobID : Int)
    (frequency : String) (hf : frequency ≠ "") (hnone : st (scheduleID projectID jobID) = none)
    (hacc : accepts { CronExpressions := [ToCron tbl frequency] } = true) :
    ManageSync tbl TaskQueue (storeClient accepts) st projectID jobID frequency ActionCreate =
      { result := Except.ok
          [("message", "Schedule created successfully"), ("cron", ToCron tbl frequency)]
        engine := st.set (scheduleID projectID jobID) (some
          { Action := { ID := workflowID projectID jobID, Workflow := RunSyncWorkflow
                        Args := [jobID], TaskQueue := TaskQueue }
            Spec := { CronExpressions := [ToCron tbl frequency] }
            Overlap := ScheduleOverlapPolicy.SKIP, Paused := false, Note := "" })
        calls := [GatewayCall.describe (scheduleID projectID jobID),
          GatewayCall.create
            { ID := scheduleID projectID jobID
              Spec := { CronExpressions := [ToCron tbl frequency] }
              Action := { ID := workflowID projectID jobID, Workflow := RunSyncWorkflow
                          Args := [jobID], TaskQueue := TaskQueue }
              Overlap := ScheduleOverlapPolicy.SKIP }] } := by
  have hd := store_Describe_none accepts st _ hnone
  rw [ManageSync_create_missing tbl TaskQueue _ st projectID jobID frequency
    "schedule not found" hf (by rw [hd])]
  rw [hd]
  simp [createSchedule, storeClient, hnone, hacc]

theorem store_create_rejected (tbl : Char → Char) (TaskQueue : String)
    (accepts : ScheduleSpec → Bool) (st : Store) (projectID : String) (jobID : Int)
    (frequency : String) (hf : frequency ≠ "") (hnone : st (scheduleID projectID jobID) = none)
    (hacc : accepts { CronExpressions := [ToCron tbl frequency] } = false) :
    (ManageSync tbl TaskQueue (storeClient accepts) st projectID jobID frequency
      ActionCreate).result = Except.error "failed to create schedule: invalid schedule spec" := by
  have hd := store_Describe_none accepts st _ hnone
  rw [ManageSync_create_missing tbl TaskQueue _ st projectID jobID frequency
    "schedule not found" hf (by rw [hd])]
  rw [hd]
  simp [createSchedule, storeClient, hnone, hacc]

theorem store_update_same (tbl : Char → Char) (TaskQueue : String)
    (accepts : ScheduleSpec → Bool) (st : Store) (projectID : String) (jobID : Int)
    (frequency : String) (s : Schedule) (hf : frequency ≠ "")
    (hs : st (scheduleID projectID jobID) = some s)
    (hsame : s.Spec.CronExpressions.head? = some (ToCron tbl frequency)) :
    ManageSync tbl TaskQueue (storeClient accepts) st projectID jobID frequency ActionUpdate =
      { result := Except.ok [("message", "Schedule already up to date")]
        engine := st
        calls := [GatewayCall.describe (scheduleID projectID jobID)] } := by
  have hd := store_Describe_some accepts st _ s hs
  rw [ManageSync_update_short_circuit tbl TaskQueue _ st projectID jobID frequency ⟨s⟩ hf
    (by rw [hd]) hsame]
  rw [hd]

theorem store_update_run (tbl : Char → Char) (TaskQueue : String)
    (accepts : ScheduleSpec → Bool) (st : Store) (projectID : String) (jobID : Int)
    (frequency : String) (s : Schedule) (hf : frequency ≠ "")
    (hs : st (scheduleID projectID jobID) = some s)
    (hdiff : s.Spec.CronExpressions.head? ≠ some (ToCron tbl frequency))
    (hacc : accepts { CronExpressions := [ToCron tbl frequency] } = true) :
    ManageSync tbl TaskQueue (storeClient accepts) st projectID jobID frequency ActionUpdate =
      { result := Except.ok
          [("message", "Schedule updated successfully"), ("cron", ToCron tbl frequency)]
        engine := st.set (scheduleID projectID jobID)
          (some { s with Spec := { CronExpressions := [ToCron tbl frequency] } })
        calls := [GatewayCall.describe (scheduleID projectID jobID),
          GatewayCall.update (scheduleID projectID jobID) (ToCron tbl frequency)] } := by
  have hd := store_Describe_some accepts st _ s hs
  rw [ManageSync_update_present tbl TaskQueue _ st projectID jobID frequency ⟨s⟩ hf
    (by rw [hd])]
  rw [hd]
  simp [updateSchedule, storeClient, hs, hdiff, hacc, DoUpdate]

theorem store_update_rejected (tbl : Char → Char) (TaskQueue : String)
    (accepts : ScheduleSpec → Bool) (st : Store) (projectID : String) (jobID : Int)
    (frequency : String) (s : Schedule) (hf : frequency ≠ "")
    (hs : st (scheduleID projectID jobID) = some s)
    (hdiff : s.Spec.CronExpressions.head? ≠ some (ToCron tbl frequency))
    (hacc : accepts { CronExpressions := [ToCron tbl frequency] } = false) :
    (ManageSync tbl TaskQueue (storeClient accepts) st projectID jobID frequency
      ActionUpdate).result = Except.error "failed to update schedule: invalid schedule spec" := by
  have hd := store_Describe_some accepts st _ s hs
  rw [ManageSync_update_present tbl TaskQueue _ st projectID jobID frequency ⟨s⟩ hf
    (by rw [hd])]
  rw [hd]
  simp [updateSchedule, storeClient, hs, hdiff, hacc, DoUpdate]

theorem store_trigger_run (tbl : Char → Char) (TaskQueue : String)
    (accepts : ScheduleSpec → Bool) (st : Store) (projectID : String) (jobID : Int)
    (frequency : String) (s : Schedule) (hs : st (scheduleID projectID jobID) = some s) :
    ManageSync tbl TaskQueue (storeClient accepts) st projectID jobID frequency ActionTrigger =
      { result := Except.ok [("message", "Schedule triggered successfully")]
        engine := st
        calls := [GatewayCall.describe (scheduleID projectID jobID),
          GatewayCall.trigger (scheduleID projectID jobID) ScheduleOverlapPolicy.SKIP] } := by
  have hd := store_Describe_some accepts st _ s hs
  unfold ManageSync dispatch
  simp only []
  rw [hd]
  simp [storeClient, hs, ActionTrigger, ActionCreate, ActionUpdate, ActionDelete]

theorem store_pause_run (tbl : Char → Char) (TaskQueue : String)
    (accepts : ScheduleSpec → Bool) (st : Store) (projectID : String) (jobID : Int)
    (frequency : String) (s : Schedule) (hs : st (scheduleID projectID jobID) = some s) :
    ManageSync tbl TaskQueue (storeClient accepts) st projectID jobID frequency ActionPause =
      { result := Except.ok [("message", "Schedule paused successfully")]
        engine := st.set (scheduleID projectID jobID)
          (some { s with Paused := true, Note := "Paused via API" })
        calls := [GatewayCall.describe (scheduleID projectID jobID),
          GatewayCall.pause (scheduleID projectID jobID) "Paused via API"] } := by
  have hd := store_Describe_some accepts st _ s hs
  unfold ManageSync dispatch
  simp only []
  rw [hd]
  simp [storeClient, hs, ActionPause, ActionTrigger, ActionCreate, ActionUpdate, ActionDelete]

theorem store_unpause_run (tbl : Char → Char) (TaskQueue : String)
    (accepts : ScheduleSpec → Bool) (st : Store) (projectID : String) (jobID : Int)
    (frequency : String) (s : Schedule) (hs : st (scheduleID projectID jobID) = some s) :
    ManageSync tbl TaskQueue (storeClient accepts) st projectID jobID frequency ActionUnpause =
      { result := Except.ok [("message", "Schedule unpaused successfully")]
        engine := st.set (scheduleID projectID jobID)
          (some { s with Paused := false, Note := "Unpaused via API" })
        calls := [GatewayCall.describe (scheduleID projectID jobID),
          GatewayCall.unpause (scheduleID projectID jobID) "Unpaused via API"] } := by
  have hd := store_Describe_some accepts st _ s hs
  unfold ManageSync dispatch
  simp only []
  rw [hd]
  simp [storeClient, hs, ActionUnpause, ActionPause, ActionTrigger, ActionCreate, ActionUpdate,
    ActionDelete]

theorem store_Describe_state (accepts : ScheduleSpec → Bool) (st : Store) (id : String) :
    ((storeClient accepts).Describe id st).2 = st := by
  cases h : st id with
  | none => rw [store_Describe_none accepts st id h]
  | some s => rw [store_Describe_some accepts st id s h]

/-- The calls of the `switch` of `ManageSync` in full: a create carries the options
built by `createSchedule`, a trigger the overlap policy skip, and every call
carries out the action asked for. -/
theorem dispatch_call_shape {σ : Type} (tbl : Char → Char) (TaskQueue : String)
    (c : ScheduleClient σ) (st : σ) (described : Except String ScheduleDescription)
    (projectID : String) (jobID : Int) (frequency : String) (action : SyncAction) :
    ∀ call ∈ (dispatch tbl TaskQueue c st described projectID jobID frequency action).calls,
      call.action = action ∧
      (∀ options, call = GatewayCall.create options →
        options =
          { ID := scheduleID projectID jobID
            Spec := { CronExpressions := [ToCron tbl frequency] }
            Action := { ID := workflowID projectID jobID, Workflow := RunSyncWorkflow
                        Args := [jobID], TaskQueue := TaskQueue }
            Overlap := ScheduleOverlapPolicy.SKIP }) ∧
      (∀ id overlap, call = GatewayCall.trigger id overlap →
        overlap = ScheduleOverlapPolicy.SKIP) ∧
      (∀ id cron, call = GatewayCall.update id cron → cron = ToCron tbl frequency) := by
  unfold dispatch createSchedule updateSchedule
  simp only []
  split_ifs <;> (repeat' split) <;>
    simp_all [GatewayCall.action, ActionCreate, ActionUpdate, ActionDelete, ActionTrigger,
      ActionPause, ActionUnpause]

theorem ManageSync_call_shape {σ : Type} (tbl : Char → Char) (TaskQueue : String)
    (c : ScheduleClient σ) (st : σ) (projectID : String) (jobID : Int) (frequency : String)
    (action : SyncAction) :
    ∀ call ∈ (ManageSync tbl TaskQueue c st projectID jobID frequency action).calls,
      (call = GatewayCall.describe (scheduleID projectID jobID) ∨ call.action = action) ∧
      (∀ options, call = GatewayCall.create options →
        options =
          { ID := scheduleID projectID jobID
            Spec := { CronExpressions := [ToCron tbl frequency] }
            Action := { ID := workflowID projectID jobID, Workflow := RunSyncWorkflow
                        Args := [jobID], TaskQueue := TaskQueue }
            Overlap := ScheduleOverlapPolicy.SKIP }) ∧
      (∀ id overlap, call = GatewayCall.trigger id overlap →
        overlap = ScheduleOverlapPolicy.SKIP) ∧
      (∀ id cron, call = GatewayCall.update id cron → cron = ToCron tbl frequency) := by
  intro call hcall
  unfold ManageSync at hcall
  simp only [] at hcall
  split_ifs at hcall
  · simp only [List.mem_singleton] at hcall
    subst hcall
    simp
  · simp only [List.mem_cons] at hcall
    rcases hcall with e | e
    · subst e; simp
    · have h := dispatch_call_shape _ _ _ _ _ _ _ _ _ call e
      exact ⟨Or.inr h.1, h.2⟩

/-- C11: on the engine modelled as a store, after every successful `ManageSync`
create or update with frequency `f` the schedule of the job is there and its
first cron expression is `ToCron f`; its cron expression list is `[ToCron f]`,
unless the update was short-circuited as already up to date, the schedule then
being the one found; and a cron field of the success payload equals `ToCron f`. -/
theorem ManageSync_encodes_frequency (tbl : Char → Char) (TaskQueue : String)
    (accepts : ScheduleSpec → Bool) (st : Store) (projectID : String) (jobID : Int)
    (frequency : String) (action : SyncAction) (payload : Payload)
    (haction : action = ActionCreate ∨ action = ActionUpdate)
    (hok : (ManageSync tbl TaskQueue (storeClient accepts) st projectID jobID frequency
      action).result = Except.ok payload) :
    (∃ s : Schedule,
      (ManageSync tbl TaskQueue (storeClient accepts) st projectID jobID frequency
        action).engine (scheduleID projectID jobID) = some s ∧
      s.Spec.CronExpressions.head? = some (ToCron tbl frequency) ∧
      (s.Spec.CronExpressions = [ToCron tbl frequency] ∨
        (action = ActionUpdate ∧ payload = [("message", "Schedule already up to date")] ∧
          st (scheduleID projectID jobID) = some s))) ∧
    ∀ cron, payload.lookup "cron" = some cron → cron = ToCron tbl frequency := by
  rcases haction with ha | ha
  · subst ha
    by_cases hf : frequency = ""
    · subst hf
      rw [ManageSync_create_empty] at hok
      cases hok
    · cases hst : st (scheduleID projectID jobID) with
      | some s =>
        rw [ManageSync_create_present tbl TaskQueue _ st projectID jobID frequency ⟨s⟩ hf
          (by rw [store_Describe_some accepts st _ s hst])] at hok
        cases hok
      | none =>
        cases hacc : accepts { CronExpressions := [ToCron tbl frequency] } with
        | false =>
          rw [store_create_rejected tbl TaskQueue accepts st projectID jobID frequency hf hst
            hacc] at hok
          cases hok
        | true =>
          rw [store_create_run tbl TaskQueue accepts st projectID jobID frequency hf hst hacc]
            at hok ⊢
          simp only [Except.ok.injEq] at hok
          subst hok
          refine ⟨⟨_, Store.set_same _ _ _, rfl, Or.inl rfl⟩, ?_⟩
          intro cron hcron
          simpa [List.lookup] using hcron.symm
  · subst ha
    cases hst : st (scheduleID projectID jobID) with
    | none =>
      rw [ManageSync_missing tbl TaskQueue _ st projectID jobID frequency ActionUpdate
        "schedule not found" (by decide)
        (by rw [store_Describe_none accepts st _ hst])] at hok
      cases hok
    | some s =>
      by_cases hf : frequency = ""
      · subst hf
        rw [ManageSync_update_empty tbl TaskQueue _ st projectID jobID ⟨s⟩
          (by rw [store_Describe_some accepts st _ s hst])] at hok
        cases hok
      · by_cases hsame : s.Spec.CronExpressions.head? = some (ToCron tbl frequency)
        · rw [store_update_same tbl TaskQueue accepts st projectID jobID frequency s hf hst
            hsame] at hok ⊢
          simp only [Except.ok.injEq] at hok
          subst hok
          refine ⟨⟨s, hst, hsame, Or.inr ⟨rfl, rfl, rfl⟩⟩, ?_⟩
          intro cron hcron
          simp [List.lookup] at hcron
        · cases hacc : accepts { CronExpressions := [ToCron tbl frequency] } with
          | false =>
            rw [store_update_rejected tbl TaskQueue accepts st projectID jobID frequency s hf
              hst hsame hacc] at hok
            cases hok
          | true =>
            rw [store_update_run tbl TaskQueue accepts st projectID jobID frequency s hf hst
              hsame hacc] at hok ⊢
            simp only [Except.ok.injEq] at hok
            subst hok
            refine ⟨⟨_, Store.set_same _ _ _, rfl, Or.inl rfl⟩, ?_⟩
            intro cron hcron
            simpa [List.lookup] using hcron.symm

theorem ManageSync_encodes_frequency_witness :
    (ManageSync id "OLAKE_DOCKER_TASK_QUEUE" (storeClient (fun _ => true)) Store.sample "p" 7
      "2-hours" ActionUpdate).result =
      Except.ok [("message", "Schedule updated successfully"), ("cron", "0 */2 * * *")] ∧
    ∃ s : Schedule,
      (ManageSync id "OLAKE_DOCKER_TASK_QUEUE" (storeClient (fun _ => true)) Store.sample "p" 7
        "2-hours" ActionUpdate).engine (scheduleID "p" 7) = some s ∧
      s.Spec.CronExpressions.head? = some (ToCron id "2-hours") :=
  ⟨rfl, (ManageSync_encodes_frequency id "OLAKE_DOCKER_TASK_QUEUE" (fun _ => true) Store.sample
    "p" 7 "2-hours" ActionUpdate _ (Or.inr rfl) rfl).1.imp (fun _ h => ⟨h.1, h.2.1⟩)⟩

/-- C12: for every engine, every create call made by `ManageSync` for job ID `j`
binds the action of the schedule to the sync workflow on the configured task
queue, with the workflow ID `sync-<project>-<j>` and the argument list `[j]`,
whatever the frequency; and on the engine modelled as a store the schedule left
by a successful create holds that action. -/
theorem ManageSync_create_binds_job {σ : Type} (tbl : Char → Char) (TaskQueue : String)
    (c : ScheduleClient σ) (st : σ) (projectID : String) (jobID : Int) (frequency : String)
    (action : SyncAction) :
    (∀ options, GatewayCall.create options ∈
        (ManageSync tbl TaskQueue c st projectID jobID frequency action).calls →
      options.ID = scheduleID projectID jobID ∧
      options.Action =
        { ID := "sync-" ++ projectID ++ "-" ++ formatInt jobID, Workflow := RunSyncWorkflow
          Args := [jobID], TaskQueue := TaskQueue }) ∧
    ∀ (accepts : ScheduleSpec → Bool) (s0 : Store) (payload : Payload),
      (ManageSync tbl TaskQueue (storeClient accepts) s0 projectID jobID frequency
        ActionCreate).result = Except.ok payload →
      ∃ s : Schedule,
        (ManageSync tbl TaskQueue (storeClient accepts) s0 projectID jobID frequency
          ActionCreate).engine (scheduleID projectID jobID) = some s ∧
        s.Action =
          { ID := "sync-" ++ projectID ++ "-" ++ formatInt jobID, Workflow := RunSyncWorkflow
            Args := [jobID], TaskQueue := TaskQueue } := by
  constructor
  · intro options hmem
    have h := (ManageSync_call_shape tbl TaskQueue c st projectID jobID frequency action _
      hmem).2.1 options rfl
    subst h
    exact ⟨rfl, rfl⟩
  · intro accepts s0 payload hok
    by_cases hf : frequency = ""
    · subst hf
      rw [ManageSync_create_empty] at hok
      cases hok
    · cases hst : s0 (scheduleID projectID jobID) with
      | some s =>
        rw [ManageSync_create_present tbl TaskQueue _ s0 projectID jobID frequency ⟨s⟩ hf
          (by rw [store_Describe_some accepts s0 _ s hst])] at hok
        cases hok
      | none =>
        cases hacc : accepts { CronExpressions := [ToCron tbl frequency] } with
        | false =>
          rw [store_create_rejected tbl TaskQueue accepts s0 projectID jobID frequency hf hst
            hacc] at hok
          cases hok
        | true =>
          rw [store_create_run tbl TaskQueue accepts s0 projectID jobID frequency hf hst hacc]
          exact ⟨_, Store.set_same _ _ _, rfl⟩

theorem ManageSync_create_binds_job_witness :
    (ManageSync id "OLAKE_DOCKER_TASK_QUEUE" (storeClient (fun _ => true)) Store.empty "p" 7
      "5-minutes" ActionCreate).calls =
      [GatewayCall.describe "schedule-sync-p-7",
       GatewayCall.create
        { ID := "schedule-sync-p-7", Spec := { CronExpressions := ["*/5 * * * *"] }
          Action := { ID := "sync-p-7", Workflow := "RunSyncWorkflow", Args := [7]
                      TaskQueue := "OLAKE_DOCKER_TASK_QUEUE" }
          Overlap := ScheduleOverlapPolicy.SKIP }] ∧
    ∃ s : Schedule,
      (ManageSync id "OLAKE_DOCKER_TASK_QUEUE" (storeClient (fun _ => true)) Store.empty "p" 7
        "5-minutes" ActionCreate).engine (scheduleID "p" 7) = some s ∧
      s.Action = { ID := "sync-p-7", Workflow := "RunSyncWorkflow", Args := [7]
                   TaskQueue := "OLAKE_DOCKER_TASK_QUEUE" } :=
  ⟨rfl, (ManageSync_create_binds_job id "OLAKE_DOCKER_TASK_QUEUE" (storeClient (fun _ => true))
    Store.empty "p" 7 "5-minutes" ActionCreate).2 (fun _ => true) Store.empty _ rfl⟩

/-- C13: for every engine, every trigger call made by `ManageSync` carries the
overlap policy skip and every create call asks for a schedule with the overlap
policy skip; and on the engine modelled as a store, `ManageSync` trigger on an
existing schedule succeeds by one trigger call and leaves the store, hence the
cron expressions and the paused state of the schedule, as they were. -/
theorem ManageSync_overlap_skip {σ : Type} (tbl : Char → Char) (TaskQueue : String)
    (c : ScheduleClient σ) (st : σ) (projectID : String) (jobID : Int) (frequency : String)
    (action : SyncAction) :
    (∀ id overlap, GatewayCall.trigger id overlap ∈
        (ManageSync tbl TaskQueue c st projectID jobID frequency action).calls →
      overlap = ScheduleOverlapPolicy.SKIP) ∧
    (∀ options, GatewayCall.create options ∈
        (ManageSync tbl TaskQueue c st projectID jobID frequency action).calls →
      options.Overlap = ScheduleOverlapPolicy.SKIP) ∧
    ∀ (accepts : ScheduleSpec → Bool) (s0 : Store) (s : Schedule),
      s0 (scheduleID projectID jobID) = some s →
      (ManageSync tbl TaskQueue (storeClient accepts) s0 projectID jobID frequency
        ActionTrigger).result = Except.ok [("message", "Schedule triggered successfully")] ∧
      (ManageSync tbl TaskQueue (storeClient accepts) s0 projectID jobID frequency
        ActionTrigger).calls =
        [GatewayCall.describe (scheduleID projectID jobID),
         GatewayCall.trigger (scheduleID projectID jobID) ScheduleOverlapPolicy.SKIP] ∧
      (ManageSync tbl TaskQueue (storeClient accepts) s0 projectID jobID frequency
        ActionTrigger).engine = s0 := by
  refine ⟨?_, ?_, ?_⟩
  · intro id overlap hmem
    exact (ManageSync_call_shape tbl TaskQueue c st projectID jobID frequency action _
      hmem).2.2.1 id overlap rfl
  · intro options hmem
    have h := (ManageSync_call_shape tbl TaskQueue c st projectID jobID frequency action _
      hmem).2.1 options rfl
    subst h
    rfl
  · intro accepts s0 s hs
    rw [store_trigger_run tbl TaskQueue accepts s0 projectID jobID frequency s hs]
    exact ⟨rfl, rfl, rfl⟩

theorem ManageSync_overlap_skip_witness :
    (ManageSync id "OLAKE_DOCKER_TASK_QUEUE" (storeClient (fun _ => true)) Store.sample "p" 7
      "" ActionTrigger).calls =
      [GatewayCall.describe (scheduleID "p" 7),
       GatewayCall.trigger (scheduleID "p" 7) ScheduleOverlapPolicy.SKIP] :=
  ((ManageSync_overlap_skip id "OLAKE_DOCKER_TASK_QUEUE" (storeClient (fun _ => true))
    Store.sample "p" 7 "" ActionTrigger).2.2 (fun _ => true) Store.sample _ rfl).2.1

/-- C14: every `ManageSync` call, for every action, frequency, engine and engine
state, makes at most one schedule-mutating gateway call; and whenever it returns
one of the errors of its own precondition checks (frequency required, schedule
does not exist, schedule already exists, unsupported action) it has made the
describe call only and the engine is as the describe left it, which on the
engine modelled as a store is exactly the state before the call. -/
theorem ManageSync_single_write {σ : Type} (tbl : Char → Char) (TaskQueue : String)
    (c : ScheduleClient σ) (st : σ) (projectID : String) (jobID : Int) (frequency : String)
    (action : SyncAction) :
    ((ManageSync tbl TaskQueue c st projectID jobID frequency action).calls.filter
      GatewayCall.mutating).length ≤ 1 ∧
    (∀ e, (ManageSync tbl TaskQueue c st projectID jobID frequency action).result =
        Except.error e → e ∈ preconditionErrors action →
      (ManageSync tbl TaskQueue c st projectID jobID frequency action).calls =
        [GatewayCall.describe (scheduleID projectID jobID)] ∧
      (ManageSync tbl TaskQueue c st projectID jobID frequency action).engine =
        (c.Describe (scheduleID projectID jobID) st).2) ∧
    ∀ (accepts : ScheduleSpec → Bool) (s0 : Store) (e : String),
      (ManageSync tbl TaskQueue (storeClient accepts) s0 projectID jobID frequency
        action).result = Except.error e → e ∈ preconditionErrors action →
      (ManageSync tbl TaskQueue (storeClient accepts) s0 projectID jobID frequency
        action).engine = s0 := by
  have key : ∀ {τ : Type} (c' : ScheduleClient τ) (s' : τ) (e : String),
      (ManageSync tbl TaskQueue c' s' projectID jobID frequency action).result =
        Except.error e → e ∈ preconditionErrors action →
      (ManageSync tbl TaskQueue c' s' projectID jobID frequency action).calls =
        [GatewayCall.describe (scheduleID projectID jobID)] ∧
      (ManageSync tbl TaskQueue c' s' projectID jobID frequency action).engine =
        (c'.Describe (scheduleID projectID jobID) s').2 := by
    intro τ c' s' e he hpre
    rcases ManageSync_outcome tbl TaskQueue c' s' projectID jobID frequency action with
      h | ⟨call, _, _, _, _, _, hr⟩
    · exact h
    · exfalso
      rcases hr with ⟨_, payload, hp⟩ | ⟨e', _, hp⟩
      · rw [hp] at he; cases he
      · rw [hp] at he
        simp only [Except.error.injEq] at he
        have h1 := preconditionErrors_letters action e hpre
        rw [← he] at h1
        exact h1 (wrapped_error_letters action e')
  refine ⟨?_, key c st, ?_⟩
  · rcases ManageSync_outcome tbl TaskQueue c st projectID jobID frequency action with
      ⟨h, _⟩ | ⟨call, h, _, _⟩
    · rw [h]; simp [GatewayCall.mutating]
    · rw [h]
      have hfilter : List.filter GatewayCall.mutating
          [GatewayCall.describe (scheduleID projectID jobID), call] =
          List.filter GatewayCall.mutating [call] := rfl
      rw [hfilter]
      exact (List.length_filter_le _ _).trans (Nat.le_refl 1)
  · intro accepts s0 e he hpre
    rw [(key (storeClient accepts) s0 e he hpre).2, store_Describe_state]

theorem ManageSync_single_write_witness :
    (ManageSync id "OLAKE_DOCKER_TASK_QUEUE" (storeClient (fun _ => true)) Store.sample "p" 7
      "5-minutes" ActionCreate).result = Except.error "schedule already exists" ∧
    (ManageSync id "OLAKE_DOCKER_TASK_QUEUE" (storeClient (fun _ => true)) Store.sample "p" 7
      "5-minutes" ActionCreate).engine = Store.sample :=
  ⟨rfl, (ManageSync_single_write id "OLAKE_DOCKER_TASK_QUEUE" (storeClient (fun _ => true))
    Store.sample "p" 7 "5-minutes" ActionCreate).2.2 (fun _ => true) Store.sample
    "schedule already exists" rfl (by decide)⟩

theorem Store.set_other (st : Store) (id k : String) (entry : Option Schedule) (h : k ≠ id) :
    (st.set id entry) k = st k := by
  simp [Store.set, h]

/-- C15: on the engine modelled as a store, for every existing schedule, active
or paused, and non-empty frequency `f`, a successful `ManageSync` update leaves
the schedule under the same ID with the same paused state, note, bound action
and overlap policy, and leaves every other schedule alone; the schedule itself is
untouched when its first cron expression is `ToCron f`, and otherwise its spec
becomes the single cron expression `ToCron f`. The closure handed to the engine
changes no field but the spec, whatever the schedule it is given. -/
theorem ManageSync_update_frame (tbl : Char → Char) (TaskQueue : String)
    (accepts : ScheduleSpec → Bool) (st : Store) (projectID : String) (jobID : Int)
    (frequency : String) (s : Schedule) (payload : Payload) (hf : frequency ≠ "")
    (hs : st (scheduleID projectID jobID) = some s)
    (hok : (ManageSync tbl TaskQueue (storeClient accepts) st projectID jobID frequency
      ActionUpdate).result = Except.ok payload) :
    (∃ s1 : Schedule,
      (ManageSync tbl TaskQueue (storeClient accepts) st projectID jobID frequency
        ActionUpdate).engine (scheduleID projectID jobID) = some s1 ∧
      s1.Paused = s.Paused ∧ s1.Note = s.Note ∧ s1.Action = s.Action ∧
      s1.Overlap = s.Overlap ∧
      (s.Spec.CronExpressions.head? = some (ToCron tbl frequency) → s1 = s) ∧
      (s.Spec.CronExpressions.head? ≠ some (ToCron tbl frequency) →
        s1.Spec = { CronExpressions := [ToCron tbl frequency] })) ∧
    (∀ k, k ≠ scheduleID projectID jobID →
      (ManageSync tbl TaskQueue (storeClient accepts) st projectID jobID frequency
        ActionUpdate).engine k = st k) ∧
    ∀ d : ScheduleDescription,
      (DoUpdate (ToCron tbl frequency) d).Paused = d.Schedule.Paused ∧
      (DoUpdate (ToCron tbl frequency) d).Note = d.Schedule.Note ∧
      (DoUpdate (ToCron tbl frequency) d).Action = d.Schedule.Action ∧
      (DoUpdate (ToCron tbl frequency) d).Overlap = d.Schedule.Overlap ∧
      (DoUpdate (ToCron tbl frequency) d).Spec = { CronExpressions := [ToCron tbl frequency] } := by
  refine ⟨?_, ?_, fun d => ⟨rfl, rfl, rfl, rfl, rfl⟩⟩
  · by_cases hsame : s.Spec.CronExpressions.head? = some (ToCron tbl frequency)
    · rw [store_update_same tbl TaskQueue accepts st projectID jobID frequency s hf hs hsame]
      exact ⟨s, hs, rfl, rfl, rfl, rfl, fun _ => rfl, fun h => absurd hsame h⟩
    · cases hacc : accepts { CronExpressions := [ToCron tbl frequency] } with
      | false =>
        rw [store_update_rejected tbl TaskQueue accepts st projectID jobID frequency s hf
          hs hsame hacc] at hok
        cases hok
      | true =>
        rw [store_update_run tbl TaskQueue accepts st projectID jobID frequency s hf hs
          hsame hacc]
        exact ⟨_, Store.set_same _ _ _, rfl, rfl, rfl, rfl, fun h => absurd h hsame,
          fun _ => rfl⟩
  · intro k hk
    by_cases hsame : s.Spec.CronExpressions.head? = some (ToCron tbl frequency)
    · rw [store_update_same tbl TaskQueue accepts st projectID jobID frequency s hf hs hsame]
    · cases hacc : accepts { CronExpressions := [ToCron tbl frequency] } with
      | false =>
        rw [store_update_rejected tbl TaskQueue accepts st projectID jobID frequency s hf
          hs hsame hacc] at hok
        cases hok
      | true =>
        rw [store_update_run tbl TaskQueue accepts st projectID jobID frequency s hf hs
          hsame hacc]
        exact Store.set_other _ _ _ _ hk

theorem ManageSync_update_frame_witness :
    ∃ s1 : Schedule,
      (ManageSync id "OLAKE_DOCKER_TASK_QUEUE" (storeClient (fun _ => true)) Store.sample "p" 7
        "2-hours" ActionUpdate).engine (scheduleID "p" 7) = some s1 ∧
      s1.Paused = false ∧ s1.Spec = { CronExpressions := ["0 */2 * * *"] } :=
  (ManageSync_update_frame id "OLAKE_DOCKER_TASK_QUEUE" (fun _ => true) Store.sample "p" 7
    "2-hours" _ _ (by decide) rfl rfl).1.imp
    (fun _ h => ⟨h.1, h.2.1, h.2.2.2.2.2.2 (by decide)⟩)

/-- C16: on the engine modelled as a store, for every existing schedule,
`ManageSync` pause succeeds by exactly one pause call and leaves the schedule
paused, `ManageSync` unpause succeeds by exactly one unpause call and leaves it
active, each with the cron expressions, bound action and overlap policy it had
and with every other schedule left alone; and pause followed by unpause leaves
the schedule active with the cron expressions it had. -/
theorem ManageSync_pause_unpause (tbl : Char → Char) (TaskQueue : String)
    (accepts : ScheduleSpec → Bool) (st : Store) (projectID : String) (jobID : Int)
    (frequency : String) (s : Schedule) (hs : st (scheduleID projectID jobID) = some s) :
    ((ManageSync tbl TaskQueue (storeClient accepts) st projectID jobID frequency
        ActionPause).result = Except.ok [("message", "Schedule paused successfully")] ∧
      (ManageSync tbl TaskQueue (storeClient accepts) st projectID jobID frequency
        ActionPause).calls =
        [GatewayCall.describe (scheduleID projectID jobID),
         GatewayCall.pause (scheduleID projectID jobID) "Paused via API"] ∧
      (ManageSync tbl TaskQueue (storeClient accepts) st projectID jobID frequency
        ActionPause).engine (scheduleID projectID jobID) =
        some { s with Paused := true, Note := "Paused via API" } ∧
      ∀ k, k ≠ scheduleID projectID jobID →
        (ManageSync tbl TaskQueue (storeClient accepts) st projectID jobID frequency
          ActionPause).engine k = st k) ∧
    ((ManageSync tbl TaskQueue (storeClient accepts) st projectID jobID frequency
        ActionUnpause).result = Except.ok [("message", "Schedule unpaused successfully")] ∧
      (ManageSync tbl TaskQueue (storeClient accepts) st projectID jobID frequency
        ActionUnpause).calls =
        [GatewayCall.describe (scheduleID projectID jobID),
         GatewayCall.unpause (scheduleID projectID jobID) "Unpaused via API"] ∧
      (ManageSync tbl TaskQueue (storeClient accepts) st projectID jobID frequency
        ActionUnpause).engine (scheduleID projectID jobID) =
        some { s with Paused := false, Note := "Unpaused via API" } ∧
      ∀ k, k ≠ scheduleID projectID jobID →
        (ManageSync tbl TaskQueue (storeClient accepts) st projectID jobID frequency
          ActionUnpause).engine k = st k) ∧
    ∃ s2 : Schedule,
      (ManageSync tbl TaskQueue (storeClient accepts)
        (ManageSync tbl TaskQueue (storeClient accepts) st projectID jobID frequency
          ActionPause).engine projectID jobID frequency ActionUnpause).engine
        (scheduleID projectID jobID) = some s2 ∧
      s2.Paused = false ∧ s2.Spec = s.Spec := by
  refine ⟨?_, ?_, ?_⟩
  · rw [store_pause_run tbl TaskQueue accepts st projectID jobID frequency s hs]
    exact ⟨rfl, rfl, Store.set_same _ _ _, fun k hk => Store.set_other _ _ _ _ hk⟩
  · rw [store_unpause_run tbl TaskQueue accepts st projectID jobID frequency s hs]
    exact ⟨rfl, rfl, Store.set_same _ _ _, fun k hk => Store.set_other _ _ _ _ hk⟩
  · rw [store_pause_run tbl TaskQueue accepts st projectID jobID frequency s hs]
    rw [store_unpause_run tbl TaskQueue accepts _ projectID jobID frequency _
      (Store.set_same _ _ _)]
    exact ⟨_, Store.set_same _ _ _, rfl, rfl⟩

theorem ManageSync_pause_unpause_witness :
    (ManageSync id "OLAKE_DOCKER_TASK_QUEUE" (storeClient (fun _ => true)) Store.sample "p" 7
      "" ActionPause).calls =
      [GatewayCall.describe (scheduleID "p" 7),
       GatewayCall.pause (scheduleID "p" 7) "Paused via API"] :=
  (ManageSync_pause_unpause id "OLAKE_DOCKER_TASK_QUEUE" (fun _ => true) Store.sample "p" 7
    "" _ rfl).1.2.1

/-- C17, as amended: for every action value that is not one of create, update,
delete, trigger, pause, unpause, and for every frequency, engine and engine
state, `ManageSync` makes the describe call only, hence no schedule-mutating
call, and fails: with `unsupported action: <action>` when the describe succeeds,
and with `schedule does not exist` when the describe fails. -/
theorem ManageSync_unsupported_action {σ : Type} (tbl : Char → Char) (TaskQueue : String)
    (c : ScheduleClient σ) (st : σ) (projectID : String) (jobID : Int) (frequency : String)
    (action : SyncAction) (haction : action ∉ supportedActions) :
    (ManageSync tbl TaskQueue c st projectID jobID frequency action).calls =
      [GatewayCall.describe (scheduleID projectID jobID)] ∧
    (∀ call ∈ (ManageSync tbl TaskQueue c st projectID jobID frequency action).calls,
      call.mutating = false) ∧
    (∀ d, (c.Describe (scheduleID projectID jobID) st).1 = Except.ok d →
      (ManageSync tbl TaskQueue c st projectID jobID frequency action).result =
        Except.error ("unsupported action: " ++ action)) ∧
    (∀ e, (c.Describe (scheduleID projectID jobID) st).1 = Except.error e →
      (ManageSync tbl TaskQueue c st projectID jobID frequency action).result =
        Except.error "schedule does not exist") := by
  simp only [supportedActions, List.mem_cons, List.mem_singleton, List.mem_nil_iff, or_false,
    not_or] at haction
  obtain ⟨h1, h2, h3, h4, h5, h6⟩ := haction
  have hcalls : (ManageSync tbl TaskQueue c st projectID jobID frequency action).calls =
      [GatewayCall.describe (scheduleID projectID jobID)] := by
    unfold ManageSync dispatch
    simp only []
    split_ifs <;> simp_all
  refine ⟨hcalls, ?_, ?_, ?_⟩
  · rw [hcalls]
    simp [GatewayCall.mutating]
  · intro d hd
    unfold ManageSync dispatch
    simp [hd, h1, h2, h3, h4, h5, h6]
  · intro e he
    rw [ManageSync_missing tbl TaskQueue c st projectID jobID frequency action e h1 he]

theorem ManageSync_unsupported_action_witness :
    (ManageSync id "OLAKE_DOCKER_TASK_QUEUE" (storeClient (fun _ => true)) Store.sample "p" 7
      "5-minutes" "resume").result = Except.error "unsupported action: resume" ∧
    (ManageSync id "OLAKE_DOCKER_TASK_QUEUE" (storeClient (fun _ => true)) Store.sample "p" 7
      "5-minutes" "resume").calls = [GatewayCall.describe (scheduleID "p" 7)] :=
  ⟨(ManageSync_unsupported_action id "OLAKE_DOCKER_TASK_QUEUE" (storeClient (fun _ => true))
      Store.sample "p" 7 "5-minutes" "resume" (by decide)).2.2.1 _ rfl,
   (ManageSync_unsupported_action id "OLAKE_DOCKER_TASK_QUEUE" (storeClient (fun _ => true))
      Store.sample "p" 7 "5-minutes" "resume" (by decide)).1⟩

theorem ManageSync_unsupported_counterexample :
    "resume" ∉ supportedActions ∧
    (ManageSync id "OLAKE_DOCKER_TASK_QUEUE" (storeClient (fun _ => true)) Store.empty "p" 7
      "5-minutes" "resume").result = Except.error "schedule does not exist" ∧
    (ManageSync id "OLAKE_DOCKER_TASK_QUEUE" (storeClient (fun _ => true)) Store.empty "p" 7
      "5-minutes" "resume").result ≠ Except.error ("unsupported action: " ++ "resume") := by
  refine ⟨by decide, rfl, ?_⟩
  intro h
  have h2 : (Except.error "schedule does not exist" : Except String Payload) =
      Except.error ("unsupported action: " ++ "resume") := h
  simp only [Except.error.injEq] at h2
  revert h2
  decide

/-- C18, as amended: for every mutating action, engine and engine state, if the
gateway call that `ManageSync` makes after the describe fails with cause `e`,
then that call is the one of the action asked for, it is the only write attempted
(no retry), and `ManageSync` returns no payload but the error
`failed to <action> schedule: ` followed by the text of `e`: the error wraps `e`
with the action and with nothing else. The project and the job are named by the
schedule ID the failed call was addressed to, not by the error. The engine is
left as the failed call left it. -/
theorem ManageSync_wraps_engine_error {σ : Type} (tbl : Char → Char) (TaskQueue : String)
    (c : ScheduleClient σ) (st : σ) (projectID : String) (jobID : Int) (frequency : String)
    (action : SyncAction) (call : GatewayCall) (e : String)
    (hcall : (ManageSync tbl TaskQueue c st projectID jobID frequency action).calls =
      [GatewayCall.describe (scheduleID projectID jobID), call])
    (hfail : (call.perform c (c.Describe (scheduleID projectID jobID) st).2).1 =
      Except.error e) :
    action ∈ supportedActions ∧ call.action = action ∧ call.mutating = true ∧
    call.scheduleID = scheduleID projectID jobID ∧
    (ManageSync tbl TaskQueue c st projectID jobID frequency action).result =
      Except.error ("failed to " ++ action ++ " schedule: " ++ e) ∧
    (ManageSync tbl TaskQueue c st projectID jobID frequency action).engine =
      (call.perform c (c.Describe (scheduleID projectID jobID) st).2).2 := by
  have hshape := ManageSync_call_shape tbl TaskQueue c st projectID jobID frequency action call
    (by rw [hcall]; simp)
  rcases ManageSync_outcome tbl TaskQueue c st projectID jobID frequency action with
    ⟨h, _⟩ | ⟨call1, h, hm, hid, ha, he, hr⟩
  · rw [h] at hcall
    simp at hcall
  · rw [h] at hcall
    simp only [List.cons.injEq, and_true, true_and] at hcall
    subst hcall
    have hverb : call1.action = action := by
      rcases hshape.1 with hdesc | hverb
      · rw [hdesc] at hm
        simp [GatewayCall.mutating] at hm
      · exact hverb
    refine ⟨ha, hverb, hm, hid, ?_, he⟩
    rcases hr with ⟨hok, _⟩ | ⟨e1, he1, hres⟩
    · rw [hok] at hfail
      cases hfail
    · rw [he1] at hfail
      simp only [Except.error.injEq] at hfail
      subst hfail
      exact hres

theorem ManageSync_wraps_engine_error_witness :
    (ManageSync id "OLAKE_DOCKER_TASK_QUEUE" (storeClient (fun _ => false)) Store.empty "p" 7
      "5-minutes" ActionCreate).result =
      Except.error "failed to create schedule: invalid schedule spec" :=
  (ManageSync_wraps_engine_error id "OLAKE_DOCKER_TASK_QUEUE" (storeClient (fun _ => false))
    Store.empty "p" 7 "5-minutes" ActionCreate _ "invalid schedule spec" rfl rfl).2.2.2.2.1

/-- C18, the run that breaks it: an engine that rejects every spec, and a create
for job 7 of project `team-a` and for job 99 of project `team-b`. Both return the
same error text, in which neither the project, nor the job ID, nor the schedule
ID occurs. -/
theorem ManageSync_error_identifiers_counterexample :
    (ManageSync id "OLAKE_DOCKER_TASK_QUEUE" (storeClient (fun _ => false)) Store.empty "team-a" 7
      "5-minutes" ActionCreate).calls.length = 2 ∧
    errorText (ManageSync id "OLAKE_DOCKER_TASK_QUEUE" (storeClient (fun _ => false)) Store.empty
      "team-a" 7 "5-minutes" ActionCreate).result =
      "failed to create schedule: invalid schedule spec" ∧
    errorText (ManageSync id "OLAKE_DOCKER_TASK_QUEUE" (storeClient (fun _ => false)) Store.empty
      "team-b" 99 "5-minutes" ActionCreate).result =
      "failed to create schedule: invalid schedule spec" ∧
    containsText (errorText (ManageSync id "OLAKE_DOCKER_TASK_QUEUE"
      (storeClient (fun _ => false)) Store.empty "team-a" 7 "5-minutes" ActionCreate).result)
      "team-a" = false ∧
    containsText (errorText (ManageSync id "OLAKE_DOCKER_TASK_QUEUE"
      (storeClient (fun _ => false)) Store.empty "team-a" 7 "5-minutes" ActionCreate).result)
      "7" = false ∧
    containsText (errorText (ManageSync id "OLAKE_DOCKER_TASK_QUEUE"
      (storeClient (fun _ => false)) Store.empty "team-a" 7 "5-minutes" ActionCreate).result)
      (scheduleID "team-a" 7) = false := by
  decide

/-! ### The cancellation loop of `UpdateSource` and `UpdateDestination` -/

theorem cancelWorkflows_cons_error {E : Type}
    (cancel : Job → String → E → Except String Unit × E) (projectID : String) (job : Job)
    (rest : List Job) (engine e1 : E) (err : String)
    (h : cancel job projectID engine = (Except.error err, e1)) :
    cancelWorkflows cancel projectID (job :: rest) engine =
      (some err, e1, [HandlerCall.cancelJobWorkflow job projectID]) := by
  simp [cancelWorkflows, h]

theorem cancelWorkflows_cons_ok {E : Type}
    (cancel : Job → String → E → Except String Unit × E) (projectID : String) (job : Job)
    (rest : List Job) (engine e1 : E) (u : Unit)
    (h : cancel job projectID engine = (Except.ok u, e1)) :
    cancelWorkflows cancel projectID (job :: rest) engine =
      ((cancelWorkflows cancel projectID rest e1).1,
       (cancelWorkflows cancel projectID rest e1).2.1,
       HandlerCall.cancelJobWorkflow job projectID ::
        (cancelWorkflows cancel projectID rest e1).2.2) := by
  simp [cancelWorkflows, h]

theorem cancelWorkflows_ok {E : Type}
    (cancel : Job → String → E → Except String Unit × E) (projectID : String) :
    ∀ (jobs : List Job) (engine : E),
      (cancelWorkflows cancel projectID jobs engine).1 = none →
      (cancelWorkflows cancel projectID jobs engine).2.2 =
        jobs.map (fun job => HandlerCall.cancelJobWorkflow job projectID) := by
  intro jobs
  induction jobs with
  | nil => intro engine _; rfl
  | cons job rest ih =>
    intro engine h
    unfold cancelWorkflows at h ⊢
    split at h
    · simp at h
    · rename_i u e1 heq
      simp only [heq, List.map_cons, List.cons.injEq, true_and]
      exact ih e1 h

/-- The loop stops at the first job whose cancellation fails: the jobs before it
have been cancelled, in list order, and none after it. -/
theorem cancelWorkflows_fail {E : Type}
    (cancel : Job → String → E → Except String Unit × E) (projectID : String) :
    ∀ (pre : List Job) (B : Job) (post : List Job) (engine e1 e2 : E) (err : String),
      cancelWorkflows cancel projectID pre engine =
        (none, e1, pre.map (fun job => HandlerCall.cancelJobWorkflow job projectID)) →
      cancel B projectID e1 = (Except.error err, e2) →
      cancelWorkflows cancel projectID (pre ++ B :: post) engine =
        (some err, e2,
          (pre ++ [B]).map (fun job => HandlerCall.cancelJobWorkflow job projectID)) := by
  intro pre
  induction pre with
  | nil =>
    intro B post engine e1 e2 err hpre hB
    simp only [cancelWorkflows, Prod.mk.injEq, true_and] at hpre
    obtain ⟨he, _⟩ := hpre
    subst he
    simp [cancelWorkflows, hB]
  | cons job rest ih =>
    intro B post engine e1 e2 err hpre hB
    rcases hc : cancel job projectID engine with ⟨r, e0⟩
    cases r with
    | error err0 =>
      rw [cancelWorkflows_cons_error cancel projectID job rest engine e0 err0 hc] at hpre
      simp at hpre
    | ok u =>
      rw [cancelWorkflows_cons_ok cancel projectID job rest engine e0 u hc] at hpre
      simp only [Prod.mk.injEq, List.map_cons, List.cons.injEq, true_and] at hpre
      obtain ⟨h1, h2, h3⟩ := hpre
      have hrest : cancelWorkflows cancel projectID rest e0 =
          (none, e1, rest.map (fun job => HandlerCall.cancelJobWorkflow job projectID)) := by
        apply Prod.ext
        · exact h1
        · apply Prod.ext
          · exact h2
          · exact h3
      rw [List.cons_append,
        cancelWorkflows_cons_ok cancel projectID job (rest ++ B :: post) engine e0 u hc,
        ih B post e0 e1 e2 err hrest hB]
      simp

/-- Every failure of the loop is a first failure: some job `B` of the list fails
after the jobs before it have succeeded. -/
theorem cancelWorkflows_some {E : Type}
    (cancel : Job → String → E → Except String Unit × E) (projectID : String) :
    ∀ (jobs : List Job) (engine : E) (err : String),
      (cancelWorkflows cancel projectID jobs engine).1 = some err →
      ∃ (pre : List Job) (B : Job) (post : List Job) (e1 e2 : E),
        jobs = pre ++ B :: post ∧
        cancelWorkflows cancel projectID pre engine =
          (none, e1, pre.map (fun job => HandlerCall.cancelJobWorkflow job projectID)) ∧
        cancel B projectID e1 = (Except.error err, e2) := by
  intro jobs
  induction jobs with
  | nil => intro engine err h; simp [cancelWorkflows] at h
  | cons job rest ih =>
    intro engine err h
    unfold cancelWorkflows at h
    split at h
    · rename_i err0 e1 heq
      simp only [Option.some.injEq] at h
      subst h
      exact ⟨[], job, rest, engine, e1, rfl, rfl, heq⟩
    · rename_i u e0 heq
      obtain ⟨pre, B, post, e1, e2, hj, hpre, hB⟩ := ih e0 err h
      refine ⟨job :: pre, B, post, e1, e2, by simp [hj], ?_, hB⟩
      unfold cancelWorkflows
      simp only [heq, hpre, List.map_cons]

/-! ### `UpdateSource` and `UpdateDestination` by the outcome of the loop -/

theorem UpdateSource_cancel_failed {D E : Type} (sourceORM : SourceORM D) (jobORM : JobORM D)
    (cancel : Job → String → E → Except String Unit × E) (now : Nat)
    (sessionUserID : Option Int) (id : Int) (projectID : String) (req : UpdateSourceRequest)
    (db : D) (engine e1 : E) (found : Source) (jobs : List Job) (err : String)
    (cancels : List HandlerCall)
    (hget : sourceORM.GetByID id db = Except.ok found)
    (hjobs : jobORM.GetBySourceID found.ID db = Except.ok jobs)
    (hloop : cancelWorkflows cancel projectID jobs engine = (some err, e1, cancels)) :
    UpdateSource sourceORM jobORM cancel now sessionUserID id projectID (some req) db engine =
      { response := ErrorResponse 500 ("Failed to cancel workflow for job " ++ err)
        db := db, engine := e1, calls := cancels } := by
  simp only [UpdateSource, hget, hjobs, hloop]

theorem UpdateSource_cancel_ok {D E : Type} (sourceORM : SourceORM D) (jobORM : JobORM D)
    (cancel : Job → String → E → Except String Unit × E) (now : Nat)
    (sessionUserID : Option Int) (id : Int) (projectID : String) (req : UpdateSourceRequest)
    (db : D) (engine e1 : E) (found : Source) (jobs : List Job) (cancels : List HandlerCall)
    (hget : sourceORM.GetByID id db = Except.ok found)
    (hjobs : jobORM.GetBySourceID found.ID db = Except.ok jobs)
    (hloop : cancelWorkflows cancel projectID jobs engine = (none, e1, cancels)) :
    (UpdateSource sourceORM jobORM cancel now sessionUserID id projectID (some req) db
        engine).calls =
      cancels ++ [HandlerCall.updateSource (editedSource found req now sessionUserID)] ∧
    (UpdateSource sourceORM jobORM cancel now sessionUserID id projectID (some req) db
        engine).db = (sourceORM.Update (editedSource found req now sessionUserID) db).2 ∧
    (UpdateSource sourceORM jobORM cancel now sessionUserID id projectID (some req) db
        engine).engine = e1 := by
  simp only [UpdateSource, hget, hjobs, hloop, editedSource]
  split <;> rename_i heq <;> simp [heq]

theorem UpdateDestination_cancel_failed {D E : Type} (destORM : DestinationORM D)
    (jobORM : JobORM D) (cancel : Job → String → E → Except String Unit × E) (now : Nat)
    (sessionUserID : Option Int) (id : Int) (projectID : String)
    (req : UpdateDestinationRequest) (db : D) (engine e1 : E) (found : Destination)
    (jobs : List Job) (err : String) (cancels : List HandlerCall)
    (hget : destORM.GetByID id db = Except.ok found)
    (hjobs : jobORM.GetByDestinationID found.ID db = Except.ok jobs)
    (hloop : cancelWorkflows cancel projectID jobs engine = (some err, e1, cancels)) :
    UpdateDestination destORM jobORM cancel now sessionUserID id projectID (some req) db
        engine =
      { response := ErrorResponse 500 ("Failed to cancel workflow for job " ++ err)
        db := db, engine := e1, calls := cancels } := by
  simp only [UpdateDestination, hget, hjobs, hloop]

theorem UpdateDestination_cancel_ok {D E : Type} (destORM : DestinationORM D)
    (jobORM : JobORM D) (cancel : Job → String → E → Except String Unit × E) (now : Nat)
    (sessionUserID : Option Int) (id : Int) (projectID : String)
    (req : UpdateDestinationRequest) (db : D) (engine e1 : E) (found : Destination)
    (jobs : List Job) (cancels : List HandlerCall)
    (hget : destORM.GetByID id db = Except.ok found)
    (hjobs : jobORM.GetByDestinationID found.ID db = Except.ok jobs)
    (hloop : cancelWorkflows cancel projectID jobs engine = (none, e1, cancels)) :
    (UpdateDestination destORM jobORM cancel now sessionUserID id projectID (some req) db
        engine).calls =
      cancels ++
        [HandlerCall.updateDestination (editedDestination found req now sessionUserID)] ∧
    (UpdateDestination destORM jobORM cancel now sessionUserID id projectID (some req) db
        engine).db = (destORM.Update (editedDestination found req now sessionUserID) db).2 ∧
    (UpdateDestination destORM jobORM cancel now sessionUserID id projectID (some req) db
        engine).engine = e1 := by
  simp only [UpdateDestination, hget, hjobs, hloop, editedDestination]
  split <;> rename_i heq <;> simp [heq]

/-- C19: `UpdateSource` and `UpdateDestination` are all-or-nothing over the jobs
linked to the row. When every cancellation succeeds, the linked jobs have been
cancelled one by one in list order and the edited row is then written once.
When a cancellation fails, the jobs up to the first failing one have been
cancelled in list order and none after it, no write of the row is made and the
database is exactly as it was. A write of the row is made only if every
cancellation succeeded. -/
theorem Update_all_or_nothing {D E : Type} (sourceORM : SourceORM D)
    (destORM : DestinationORM D) (jobORM : JobORM D)
    (cancel : Job → String → E → Except String Unit × E) (now : Nat)
    (sessionUserID : Option Int) (id : Int) (projectID : String) (db : D) (engine : E)
    (jobs : List Job) :
    (∀ (req : UpdateSourceRequest) (found : Source),
      sourceORM.GetByID id db = Except.ok found →
      jobORM.GetBySourceID found.ID db = Except.ok jobs →
      ((cancelWorkflows cancel projectID jobs engine).1 = none →
        (UpdateSource sourceORM jobORM cancel now sessionUserID id projectID (some req) db
          engine).calls =
          jobs.map (fun job => HandlerCall.cancelJobWorkflow job projectID) ++
            [HandlerCall.updateSource (editedSource found req now sessionUserID)] ∧
        (UpdateSource sourceORM jobORM cancel now sessionUserID id projectID (some req) db
          engine).db = (sourceORM.Update (editedSource found req now sessionUserID) db).2) ∧
      (∀ err, (cancelWorkflows cancel projectID jobs engine).1 = some err →
        (UpdateSource sourceORM jobORM cancel now sessionUserID id projectID (some req) db
          engine).db = db ∧
        (∀ row, HandlerCall.updateSource row ∉
          (UpdateSource sourceORM jobORM cancel now sessionUserID id projectID (some req) db
            engine).calls) ∧
        ∃ (pre : List Job) (B : Job) (post : List Job) (e1 e2 : E),
          jobs = pre ++ B :: post ∧
          cancelWorkflows cancel projectID pre engine =
            (none, e1, pre.map (fun job => HandlerCall.cancelJobWorkflow job projectID)) ∧
          cancel B projectID e1 = (Except.error err, e2) ∧
          (UpdateSource sourceORM jobORM cancel now sessionUserID id projectID (some req) db
            engine).calls =
            (pre ++ [B]).map (fun job => HandlerCall.cancelJobWorkflow job projectID) ∧
          (UpdateSource sourceORM jobORM cancel now sessionUserID id projectID (some req) db
            engine).engine = e2) ∧
      (∀ row, HandlerCall.updateSource row ∈
          (UpdateSource sourceORM jobORM cancel now sessionUserID id projectID (some req) db
            engine).calls →
        (cancelWorkflows cancel projectID jobs engine).1 = none)) ∧
    (∀ (req : UpdateDestinationRequest) (found : Destination),
      destORM.GetByID id db = Except.ok found →
      jobORM.GetByDestinationID found.ID db = Except.ok jobs →
      ((cancelWorkflows cancel projectID jobs engine).1 = none →
        (UpdateDestination destORM jobORM cancel now sessionUserID id projectID (some req) db
          engine).calls =
          jobs.map (fun job => HandlerCall.cancelJobWorkflow job projectID) ++
            [HandlerCall.updateDestination (editedDestination found req now sessionUserID)] ∧
        (UpdateDestination destORM jobORM cancel now sessionUserID id projectID (some req) db
          engine).db =
          (destORM.Update (editedDestination found req now sessionUserID) db).2) ∧
      (∀ err, (cancelWorkflows cancel projectID jobs engine).1 = some err →
        (UpdateDestination destORM jobORM cancel now sessionUserID id projectID (some req) db
          engine).db = db ∧
        (∀ row, HandlerCall.updateDestination row ∉
          (UpdateDestination destORM jobORM cancel now sessionUserID id projectID (some req)
            db engine).calls) ∧
        ∃ (pre : List Job) (B : Job) (post : List Job) (e1 e2 : E),
          jobs = pre ++ B :: post ∧
          cancelWorkflows cancel projectID pre engine =
            (none, e1, pre.map (fun job => HandlerCall.cancelJobWorkflow job projectID)) ∧
          cancel B projectID e1 = (Except.error err, e2) ∧
          (UpdateDestination destORM jobORM cancel now sessionUserID id projectID (some req)
            db engine).calls =
            (pre ++ [B]).map (fun job => HandlerCall.cancelJobWorkflow job projectID) ∧
          (UpdateDestination destORM jobORM cancel now sessionUserID id projectID (some req)
            db engine).engine = e2) ∧
      (∀ row, HandlerCall.updateDestination row ∈
          (UpdateDestination destORM jobORM cancel now sessionUserID id projectID (some req)
            db engine).calls →
        (cancelWorkflows cancel projectID jobs engine).1 = none)) := by
  have hfail : ∀ err, (cancelWorkflows cancel projectID jobs engine).1 = some err →
      ∃ (pre : List Job) (B : Job) (post : List Job) (e1 e2 : E),
        jobs = pre ++ B :: post ∧
        cancelWorkflows cancel projectID pre engine =
          (none, e1, pre.map (fun job => HandlerCall.cancelJobWorkflow job projectID)) ∧
        cancel B projectID e1 = (Except.error err, e2) ∧
        cancelWorkflows cancel projectID jobs engine =
          (some err, e2,
            (pre ++ [B]).map (fun job => HandlerCall.cancelJobWorkflow job projectID)) := by
    intro err herr
    obtain ⟨pre, B, post, e1, e2, hj, hpre, hB⟩ :=
      cancelWorkflows_some cancel projectID jobs engine err herr
    refine ⟨pre, B, post, e1, e2, hj, hpre, hB, ?_⟩
    rw [hj]
    exact cancelWorkflows_fail cancel projectID pre B post engine e1 e2 err hpre hB
  have hok : (cancelWorkflows cancel projectID jobs engine).1 = none →
      cancelWorkflows cancel projectID jobs engine =
        (none, (cancelWorkflows cancel projectID jobs engine).2.1,
          jobs.map (fun job => HandlerCall.cancelJobWorkflow job projectID)) := by
    intro h
    apply Prod.ext
    · exact h
    · apply Prod.ext
      · rfl
      · exact cancelWorkflows_ok cancel projectID jobs engine h
  constructor
  · intro req found hget hjobs
    refine ⟨?_, ?_, ?_⟩
    · intro hnone
      have h := UpdateSource_cancel_ok sourceORM jobORM cancel now sessionUserID id projectID
        req db engine _ found jobs _ hget hjobs (hok hnone)
      exact ⟨h.1, h.2.1⟩
    · intro err herr
      obtain ⟨pre, B, post, e1, e2, hj, hpre, hB, hloop⟩ := hfail err herr
      rw [UpdateSource_cancel_failed sourceORM jobORM cancel now sessionUserID id projectID
        req db engine e2 found jobs err _ hget hjobs hloop]
      refine ⟨rfl, ?_, pre, B, post, e1, e2, hj, hpre, hB, rfl, rfl⟩
      intro row hmem
      simp at hmem
    · intro row hmem
      cases hres : (cancelWorkflows cancel projectID jobs engine).1 with
      | none => rfl
      | some err =>
        exfalso
        obtain ⟨pre, B, post, e1, e2, _, _, _, hloop⟩ := hfail err hres
        rw [UpdateSource_cancel_failed sourceORM jobORM cancel now sessionUserID id projectID
          req db engine e2 found jobs err _ hget hjobs hloop] at hmem
        simp at hmem
  · intro req found hget hjobs
    refine ⟨?_, ?_, ?_⟩
    · intro hnone
      have h := UpdateDestination_cancel_ok destORM jobORM cancel now sessionUserID id
        projectID req db engine _ found jobs _ hget hjobs (hok hnone)
      exact ⟨h.1, h.2.1⟩
    · intro err herr
      obtain ⟨pre, B, post, e1, e2, hj, hpre, hB, hloop⟩ := hfail err herr
      rw [UpdateDestination_cancel_failed destORM jobORM cancel now sessionUserID id projectID
        req db engine e2 found jobs err _ hget hjobs hloop]
      refine ⟨rfl, ?_, pre, B, post, e1, e2, hj, hpre, hB, rfl, rfl⟩
      intro row hmem
      simp at hmem
    · intro row hmem
      cases hres : (cancelWorkflows cancel projectID jobs engine).1 with
      | none => rfl
      | some err =>
        exfalso
        obtain ⟨pre, B, post, e1, e2, _, _, _, hloop⟩ := hfail err hres
        rw [UpdateDestination_cancel_failed destORM jobORM cancel now sessionUserID id
          projectID req db engine e2 found jobs err _ hget hjobs hloop] at hmem
        simp at hmem

theorem Update_all_or_nothing_witness :
    (UpdateSource memSourceORM memJobORM sampleCancel 200 (some 3) 1 "p"
      (some sampleSourceRequest) sampleDB []).db = sampleDB ∧
    (UpdateDestination memDestinationORM memJobORM sampleCancel 200 (some 3) 2 "p"
      (some sampleDestinationRequest) sampleDB []).db = sampleDB :=
  ⟨(((Update_all_or_nothing memSourceORM memDestinationORM memJobORM sampleCancel 200 (some 3)
      1 "p" sampleDB [] [sampleJob 41 "nightly", sampleJob 42 "hourly"]).1 sampleSourceRequest
      sampleSource rfl rfl).2.1 "context deadline exceeded" rfl).1,
   (((Update_all_or_nothing memSourceORM memDestinationORM memJobORM sampleCancel 200 (some 3)
      2 "p" sampleDB [] [sampleJob 41 "nightly", sampleJob 42 "hourly"]).2
      sampleDestinationRequest sampleDestination rfl rfl).2.1 "context deadline exceeded"
      rfl).1⟩

/-- C20, as amended: when a cancellation fails during `UpdateSource` or
`UpdateDestination`, the handler answers with status 500 and the message
`Failed to cancel workflow for job ` followed by the text of the error that the
cancellation of the first failing job returned: for linked jobs with `B` the
first whose cancellation fails, after the jobs before it succeeded, the text of
the error of `B`. The handler adds no identifier of the job to that text. -/
theorem Update_reports_cancel_error {D E : Type} (sourceORM : SourceORM D)
    (destORM : DestinationORM D) (jobORM : JobORM D)
    (cancel : Job → String → E → Except String Unit × E) (now : Nat)
    (sessionUserID : Option Int) (id : Int) (projectID : String) (db : D) (engine e1 e2 : E)
    (pre : List Job) (B : Job) (post : List Job) (err : String)
    (hpre : cancelWorkflows cancel projectID pre engine =
      (none, e1, pre.map (fun job => HandlerCall.cancelJobWorkflow job projectID)))
    (hB : cancel B projectID e1 = (Except.error err, e2)) :
    (∀ (req : UpdateSourceRequest) (found : Source),
      sourceORM.GetByID id db = Except.ok found →
      jobORM.GetBySourceID found.ID db = Except.ok (pre ++ B :: post) →
      (UpdateSource sourceORM jobORM cancel now sessionUserID id projectID (some req) db
        engine).response = ErrorResponse 500 ("Failed to cancel workflow for job " ++ err)) ∧
    (∀ (req : UpdateDestinationRequest) (found : Destination),
      destORM.GetByID id db = Except.ok found →
      jobORM.GetByDestinationID found.ID db = Except.ok (pre ++ B :: post) →
      (UpdateDestination destORM jobORM cancel now sessionUserID id projectID (some req) db
        engine).response = ErrorResponse 500 ("Failed to cancel workflow for job " ++ err)) := by
  have hloop := cancelWorkflows_fail cancel projectID pre B post engine e1 e2 err hpre hB
  constructor
  · intro req found hget hjobs
    rw [UpdateSource_cancel_failed sourceORM jobORM cancel now sessionUserID id projectID req db
      engine e2 found _ err _ hget hjobs hloop]
  · intro req found hget hjobs
    rw [UpdateDestination_cancel_failed destORM jobORM cancel now sessionUserID id projectID
      req db engine e2 found _ err _ hget hjobs hloop]

theorem Update_reports_cancel_error_witness :
    (UpdateSource memSourceORM memJobORM sampleCancel 200 (some 3) 1 "p"
      (some sampleSourceRequest) sampleDB []).response.message =
      "Failed to cancel workflow for job context deadline exceeded" :=
  congrArg Response.message
    ((Update_reports_cancel_error memSourceORM memDestinationORM memJobORM sampleCancel 200
      (some 3) 1 "p" sampleDB [] [41] [41, 42] [sampleJob 41 "nightly"] (sampleJob 42 "hourly")
      [] "context deadline exceeded" rfl rfl).1 sampleSourceRequest sampleSource rfl rfl)

theorem Update_job_identifier_counterexample :
    (UpdateSource memSourceORM memJobORM sampleCancel 200 (some 3) 1 "p"
      (some sampleSourceRequest) sampleDB []).calls =
      [HandlerCall.cancelJobWorkflow (sampleJob 41 "nightly") "p",
       HandlerCall.cancelJobWorkflow (sampleJob 42 "hourly") "p"] ∧
    (UpdateSource memSourceORM memJobORM sampleCancel 200 (some 3) 1 "p"
      (some sampleSourceRequest) sampleDB []).response.message =
      "Failed to cancel workflow for job context deadline exceeded" ∧
    containsText (UpdateSource memSourceORM memJobORM sampleCancel 200 (some 3) 1 "p"
      (some sampleSourceRequest) sampleDB []).response.message "42" = false ∧
    containsText (UpdateSource memSourceORM memJobORM sampleCancel 200 (some 3) 1 "p"
      (some sampleSourceRequest) sampleDB []).response.message "hourly" = false ∧
    (UpdateDestination memDestinationORM memJobORM sampleCancel 200 (some 3) 2 "p"
      (some sampleDestinationRequest) sampleDB []).response.message =
      "Failed to cancel workflow for job context deadline exceeded" := by
  decide

/-- A string in whose lower-cased copy no `-` occurs is returned as it is. -/
theorem ToCron_no_dash (tbl : Char → Char) (t : String)
    (h : '-' ∉ (ToLower tbl t).data) : ToCron tbl t = t := by
  unfold ToCron Split
  rw [splitRunes_no_sep '-' _ h]
  rfl

/-- The runes of a cron expression `ToCron` writes: digits, `*`, `/` and blanks. -/
theorem lowerRune_cron (tbl : Char → Char) (c : Char)
    (h : ('0' ≤ c ∧ c ≤ '9') ∨ c = '*' ∨ c = '/' ∨ c = ' ') : lowerRune tbl c ≠ '-' := by
  rcases h with h | h | h | h
  · rw [(lowerRune_digit tbl c h).1]
    exact (lowerRune_digit tbl c h).2.1
  · subst h; simp [lowerRune]
  · subst h; simp [lowerRune]
  · subst h; simp [lowerRune]

theorem ToCron_pattern_fixed (tbl : Char → Char) (a b : String) (m : Nat)
    (ha : ∀ c ∈ a.data, ('0' ≤ c ∧ c ≤ '9') ∨ c = '*' ∨ c = '/' ∨ c = ' ')
    (hb : ∀ c ∈ b.data, ('0' ≤ c ∧ c ≤ '9') ∨ c = '*' ∨ c = '/' ∨ c = ' ') :
    ToCron tbl (a ++ Nat.repr m ++ b) = a ++ Nat.repr m ++ b := by
  apply ToCron_no_dash
  unfold ToLower
  simp only [String.data_append, List.map_append, List.mem_append, List.mem_map, not_or,
    not_exists, not_and]
  refine ⟨⟨fun c hc => lowerRune_cron tbl c (ha c hc), fun c hc => ?_⟩,
    fun c hc => lowerRune_cron tbl c (hb c hc)⟩
  exact lowerRune_cron tbl c (Or.inl (toDigits_runes m c hc))

/-- C28: `ToCron` is idempotent on every input: `ToCron (ToCron s) = ToCron s`
for every string `s` and every case table. A produced cron expression holds no
`-` and is passed through; an input returned unchanged is a fixed point. -/
theorem ToCron_idempotent (tbl : Char → Char) (s : String) :
    ToCron tbl (ToCron tbl s) = ToCron tbl s := by
  rcases ToCron_cases tbl s with h | ⟨v, u, n, hsplit, hatoi, hpos, hu⟩
  · rw [h, h]
  · obtain ⟨m, rfl⟩ : ∃ m : Nat, n = (m : Int) := ⟨n.toNat, by omega⟩
    have hval : ToCron tbl s =
        if u = "minutes" then "*/" ++ Nat.repr m ++ " * * * *"
        else if u = "hours" then "0 */" ++ Nat.repr m ++ " * * *"
        else if u = "days" then "0 0 */" ++ Nat.repr m ++ " * *"
        else if u = "weeks" then "0 0 * * */" ++ Nat.repr m ++ ""
        else if u = "months" then "0 0 1 */" ++ Nat.repr m ++ " *"
        else if u = "years" then "0 0 1 1 */" ++ Nat.repr m ++ ""
        else s := by
      unfold ToCron
      rw [hsplit]
      simp only [hatoi, formatInt_natCast]
      have : ¬ ((m : Int) ≤ 0) := by omega
      simp [this]
    rw [hval]
    split_ifs
    all_goals first
      | exact ToCron_pattern_fixed tbl _ _ m (by decide) (by decide)
      | skip
    rename_i h1 h2 h3 h4 h5 h6
    simp only [units, List.mem_cons, List.mem_singleton, List.mem_nil_iff, or_false] at hu
    rcases hu with e | e | e | e | e | e <;> contradiction

theorem Nat_toDigits_injective (m n : Nat) (h : Nat.toDigits 10 m = Nat.toDigits 10 n) : m = n := by
  have h1 := digitsValue_toDigits m
  rw [h, digitsValue_toDigits n] at h1
  exact (Option.some.inj h1).symm

/-- Two texts `a-d` and `b-e` whose last parts hold no `-` agree part by part. -/
theorem append_sep_cancel (sep : Char) :
    ∀ (a b d e : List Char), sep ∉ d → sep ∉ e → a ++ sep :: d = b ++ sep :: e →
      a = b ∧ d = e := by
  intro a
  induction a with
  | nil =>
    intro b d e hd he h
    cases b with
    | nil => exact ⟨rfl, by simpa using h⟩
    | cons c cs =>
      simp only [List.nil_append, List.cons_append, List.cons.injEq] at h
      exact absurd (by rw [h.2]; simp) hd
  | cons x xs ih =>
    intro b d e hd he h
    cases b with
    | nil =>
      simp only [List.nil_append, List.cons_append, List.cons.injEq] at h
      exact absurd (by rw [← h.2]; simp) he
    | cons c cs =>
      simp only [List.cons_append, List.cons.injEq] at h
      obtain ⟨rfl, e2⟩ := ih cs d e hd he h.2
      exact ⟨by rw [h.1], e2⟩

theorem formatInt_injective (j k : Int) (h : formatInt j = formatInt k) : j = k := by
  have hd : ∀ n : Nat, (Nat.toDigits 10 n).head? ≠ some '-' := by
    intro n e
    have hmem : '-' ∈ Nat.toDigits 10 n := List.mem_of_mem_head? e
    exact dash_not_mem_toDigits n hmem
  cases j with
  | ofNat m =>
    cases k with
    | ofNat n =>
      have : Nat.toDigits 10 m = Nat.toDigits 10 n := congrArg String.data h
      rw [Nat_toDigits_injective m n this]
    | negSucc n =>
      have : Nat.toDigits 10 m = '-' :: Nat.toDigits 10 (n + 1) := congrArg String.data h
      exact absurd (by rw [this]; rfl) (hd m)
  | negSucc m =>
    cases k with
    | ofNat n =>
      have : '-' :: Nat.toDigits 10 (m + 1) = Nat.toDigits 10 n := congrArg String.data h
      exact absurd (by rw [← this]; rfl) (hd n)
    | negSucc n =>
      have : '-' :: Nat.toDigits 10 (m + 1) = '-' :: Nat.toDigits 10 (n + 1) :=
        congrArg String.data h
      have e := Nat_toDigits_injective _ _ (List.cons.inj this).2
      have : m = n := by omega
      rw [this]

/-- Within one project the schedule ID tells the job. -/
theorem scheduleID_job_injective (p : String) (j k : Int)
    (h : scheduleID p j = scheduleID p k) : j = k := by
  rw [scheduleID_eq, scheduleID_eq] at h
  have h1 := congrArg String.data h
  simp only [String.data_append, List.append_assoc, List.append_cancel_left_eq] at h1
  exact formatInt_injective j k (String.ext h1)

theorem scheduleID_injective_nat (p q : String) (m n : Nat)
    (h : scheduleID p (m : Int) = scheduleID q (n : Int)) : p = q ∧ m = n := by
  rw [scheduleID_eq, scheduleID_eq] at h
  have h1 := congrArg String.data h
  simp only [String.data_append, List.append_assoc, List.append_cancel_left_eq] at h1
  have h2 : p.data ++ '-' :: Nat.toDigits 10 m = q.data ++ '-' :: Nat.toDigits 10 n := h1
  obtain ⟨e1, e2⟩ := append_sep_cancel '-' _ _ _ _ (dash_not_mem_toDigits m)
    (dash_not_mem_toDigits n) h2
  exact ⟨String.ext e1, Nat_toDigits_injective m n e2⟩

/-- C29: the schedule identity is injective for non-negative job IDs: when the
schedule IDs `schedule-sync-<p>-<j>` and `schedule-sync-<q>-<k>` that
`ManageSync` computes for `(p, j)` and `(q, k)` with `0 ≤ j` and `0 ≤ k` are
equal, then `p = q` and `j = k`, also when the project IDs hold `-` or digits. -/
theorem scheduleID_injective (p q : String) (j k : Int) (hj : 0 ≤ j) (hk : 0 ≤ k)
    (h : scheduleID p j = scheduleID q k) : p = q ∧ j = k := by
  obtain ⟨m, rfl⟩ : ∃ m : Nat, j = (m : Int) := ⟨j.toNat, by omega⟩
  obtain ⟨n, rfl⟩ : ∃ n : Nat, k = (n : Int) := ⟨k.toNat, by omega⟩
  obtain ⟨e1, e2⟩ := scheduleID_injective_nat p q m n h
  exact ⟨e1, by rw [e2]⟩

theorem scheduleID_injective_witness :
    (0 : Int) ≤ 12 ∧ scheduleID "team-7" 12 = "schedule-sync-team-7-12" ∧
      ("team-7" = "team-7" ∧ (12 : Int) = 12) :=
  ⟨by decide, by decide,
    scheduleID_injective "team-7" "team-7" 12 12 (by decide) (by decide) rfl⟩

/-- With a negative job ID the identity is shared: job `-1` of project `a` and
job `1` of project `a-` address the same schedule. -/
theorem scheduleID_negative_collision : scheduleID "a" (-1) = scheduleID "a-" 1 := by decide

/-! ### The range of the workflow query -/

theorem stringBytes_append (a b : String) :
    stringBytes (a ++ b) = stringBytes a ++ stringBytes b := by
  simp [stringBytes, String.data_append]

theorem bytesLE_append_left (x a b : List Nat) : bytesLE (x ++ a) (x ++ b) = bytesLE a b := by
  induction x with
  | nil => rfl
  | cons y ys ih => simp [bytesLE, ih]

theorem bytesLE_append_right (a b : List Nat) : bytesLE a (a ++ b) = true := by
  induction a with
  | nil => rfl
  | cons y ys ih => simp [bytesLE, ih]

/-- The bytes of a decimal numeral are its digits, all above the byte of `-`. -/
theorem stringBytes_repr (m : Nat) :
    stringBytes (Nat.repr m) = (Nat.toDigits 10 m).map Char.toNat ∧
      ∀ x ∈ stringBytes (Nat.repr m), 45 < x := by
  have hd : ∀ c ∈ Nat.toDigits 10 m, utf8Bytes c = [c.toNat] ∧ 45 < c.toNat := by
    intro c hc
    have h := toDigits_runes m c hc
    have h1 : 48 ≤ c.toNat := h.1
    have h2 : c.toNat ≤ 57 := h.2
    refine ⟨?_, by omega⟩
    unfold utf8Bytes
    rw [if_pos (by omega)]
  have e : stringBytes (Nat.repr m) = (Nat.toDigits 10 m).map Char.toNat := by
    unfold stringBytes
    show ((Nat.toDigits 10 m).map utf8Bytes).flatten = _
    generalize Nat.toDigits 10 m = l at hd
    induction l with
    | nil => rfl
    | cons c cs ih =>
      simp only [List.map_cons, List.flatten_cons]
      rw [(hd c (by simp)).1, ih (fun d hd2 => hd d (by simp [hd2]))]
      rfl
  refine ⟨e, ?_⟩
  rw [e]
  intro x hx
  obtain ⟨c, hc, rfl⟩ := List.mem_map.mp hx
  exact (hd c hc).2

theorem stringBytes_repr_injective (m n : Nat)
    (h : stringBytes (Nat.repr m) = stringBytes (Nat.repr n)) : m = n := by
  rw [(stringBytes_repr m).1, (stringBytes_repr n).1] at h
  have hinj : Function.Injective Char.toNat := fun a b hab => Char.ext (by
    have : a.val.toNat = b.val.toNat := hab
    exact UInt32.ext (by simpa [UInt32.toNat] using this))
  exact Nat_toDigits_injective m n (List.map_injective_iff.mpr hinj h)

/-- Two different numerals `d` and `e`: whatever follows `e`, nothing at all or a
`-` and more, the text `e...` is not between `d` and `d-~`. -/
theorem bytesLE_other_numeral :
    ∀ (d e : List Nat), (∀ x ∈ d, 45 < x) → (∀ x ∈ e, 45 < x) → d ≠ e →
      ∀ s : List Nat, (s = [] ∨ ∃ t, s = 45 :: t) →
        (bytesLE d (e ++ s) && bytesLE (e ++ s) (d ++ [45, 126])) = false := by
  intro d
  induction d with
  | nil =>
    intro e _ he hne s _
    cases e with
    | nil => exact absurd rfl hne
    | cons y ys =>
      have hy : 45 < y := he y (by simp)
      have h1 : ¬ y < 45 := by omega
      have h2 : ¬ y = 45 := by omega
      simp [bytesLE, h1, h2]
  | cons x xs ih =>
    intro e hd he hne s hs
    have hx : 45 < x := hd x (by simp)
    cases e with
    | nil =>
      rcases hs with rfl | ⟨t, rfl⟩
      · simp [bytesLE]
      · have h1 : ¬ x < 45 := by omega
        have h2 : ¬ x = 45 := by omega
        simp [bytesLE, h1, h2]
    | cons y ys =>
      have hrec := ih ys (fun z hz => hd z (by simp [hz])) (fun z hz => he z (by simp [hz]))
      rcases Nat.lt_trichotomy x y with hlt | heq | hgt
      · have h1 : ¬ y < x := by omega
        have h2 : ¬ y = x := by omega
        simp [bytesLE, h1, h2]
      · subst heq
        have hne2 : xs ≠ ys := fun e2 => hne (by rw [e2])
        have := hrec hne2 s hs
        simpa [bytesLE] using this
      · have h1 : ¬ x < y := by omega
        have h2 : ¬ x = y := by omega
        simp [bytesLE, h1, h2]

theorem bytesLE_refl (a : List Nat) : bytesLE a a = true := by
  have h := bytesLE_append_right a []
  rwa [List.append_nil] at h

/-- A text of runes below `~` is at most `~`. -/
theorem bytesLE_below_tilde (t : String) (ht : ∀ c ∈ t.data, c < '~') :
    bytesLE (stringBytes t) [126] = true := by
  unfold stringBytes
  cases h : t.data with
  | nil => rfl
  | cons c cs =>
    have hc : c.toNat < 126 := ht c (by rw [h]; simp)
    have e : utf8Bytes c = [c.toNat] := by
      unfold utf8Bytes
      rw [if_pos (by omega)]
    simp [e, bytesLE, hc]

theorem workflowID_bytes (P : String) (J : Int) :
    stringBytes (workflowID P J) =
      stringBytes ("sync-" ++ P ++ "-") ++ stringBytes (formatInt J) := by
  unfold workflowID
  rw [stringBytes_append]

/-- C30: the range of the workflow query of `GetAllJobs` and `GetJobTasks`
isolates the jobs of one project. The query for job `J` of project `P` is
`WorkflowId between 'sync-P-J' and 'sync-P-J-~'`; for distinct non-negative job
IDs `J` and `K` and every suffix `t` of runes below `~`, the IDs `sync-P-J` and
`sync-P-J-t` lie in the byte-wise lexicographic range from `sync-P-J` to
`sync-P-J-~`, and the IDs `sync-P-K` and `sync-P-K-t` lie outside it. -/
theorem workflow_range_isolates (P : String) (J K : Int) (t : String) (hJ : 0 ≤ J)
    (hK : 0 ≤ K) (hne : J ≠ K) (ht : ∀ c ∈ t.data, c < '~') :
    workflowQuery P J =
        "WorkflowId between '" ++ workflowID P J ++ "' and '" ++ (workflowID P J ++ "-~") ++ "'" ∧
      inJobRange P J (workflowID P J) = true ∧
      inJobRange P J (workflowID P J ++ "-" ++ t) = true ∧
      inJobRange P J (workflowID P K) = false ∧
      inJobRange P J (workflowID P K ++ "-" ++ t) = false := by
  obtain ⟨m, rfl⟩ : ∃ m : Nat, J = (m : Int) := ⟨J.toNat, by omega⟩
  obtain ⟨n, rfl⟩ : ∃ n : Nat, K = (n : Int) := ⟨K.toNat, by omega⟩
  have hmn : m ≠ n := fun e => hne (by rw [e])
  have hlow : ∀ j : Int, rangeLower P j = workflowID P j := fun _ => rfl
  have hup : ∀ j : Int, rangeUpper P j = workflowID P j ++ "-~" := fun _ => rfl
  have hdash : stringBytes "-~" = [45, 126] := by decide
  have hd1 : stringBytes "-" = [45] := by decide
  have hdm := (stringBytes_repr m).2
  have hdn := (stringBytes_repr n).2
  have hdiff : stringBytes (Nat.repr m) ≠ stringBytes (Nat.repr n) :=
    fun e => hmn (stringBytes_repr_injective m n e)
  refine ⟨rfl, ?_, ?_, ?_, ?_⟩
  · unfold inJobRange
    rw [hlow, hup, stringBytes_append, bytesLE_refl, bytesLE_append_right]
    rfl
  · unfold inJobRange
    rw [hlow, hup, stringBytes_append, stringBytes_append, stringBytes_append, hdash, hd1,
      List.append_assoc, bytesLE_append_right, bytesLE_append_left]
    simp only [List.singleton_append, bytesLE, Nat.lt_irrefl, decide_False, beq_self_eq_true,
      Bool.true_and, Bool.false_or]
    exact bytesLE_below_tilde t ht
  · unfold inJobRange
    rw [hlow, hup, stringBytes_append, workflowID_bytes, workflowID_bytes, hdash,
      List.append_assoc, bytesLE_append_left, bytesLE_append_left]
    have h := bytesLE_other_numeral _ _ hdm hdn hdiff [] (Or.inl rfl)
    rw [List.append_nil] at h
    exact h
  · unfold inJobRange
    rw [hlow, hup, stringBytes_append, stringBytes_append, stringBytes_append, workflowID_bytes,
      workflowID_bytes, hdash, hd1, List.append_assoc, List.append_assoc, List.append_assoc,
      bytesLE_append_left, bytesLE_append_left]
    exact bytesLE_other_numeral _ _ hdm hdn hdiff _ (Or.inr ⟨_, rfl⟩)

theorem workflow_range_isolates_witness :
    inJobRange "p" 1 "sync-p-1" = true ∧ inJobRange "p" 1 "sync-p-10" = false ∧
      (workflowQuery "p" 1 = "WorkflowId between 'sync-p-1' and 'sync-p-1-~'" ∧
        inJobRange "p" 1 (workflowID "p" 1) = true ∧
        inJobRange "p" 1 (workflowID "p" 1 ++ "-" ++ "2024-11-04") = true ∧
        inJobRange "p" 1 (workflowID "p" 10) = false ∧
        inJobRange "p" 1 (workflowID "p" 10 ++ "-" ++ "2024-11-04") = false) :=
  ⟨by decide, by decide,
    workflow_range_isolates "p" 1 10 "2024-11-04" (by decide) (by decide) (by decide)
      (by decide)⟩

/-! ### `ExtractJSON` -/

theorem dropWhile_append_all {α : Type} (p : α → Bool) (u v : List α) (h : ∀ c ∈ u, p c = true) :
    (u ++ v).dropWhile p = v.dropWhile p := by
  induction u with
  | nil => rfl
  | cons x xs ih =>
    rw [List.cons_append, List.dropWhile_cons, if_pos (h x (by simp))]
    exact ih (fun c hc => h c (by simp [hc]))

theorem dropWhile_append_stop {α : Type} (p : α → Bool) (u v : List α)
    (h : ∃ c ∈ u, p c = false) : (u ++ v).dropWhile p = u.dropWhile p ++ v := by
  induction u with
  | nil => simp at h
  | cons x xs ih =>
    by_cases hx : p x = true
    · rw [List.cons_append, List.dropWhile_cons, if_pos hx, List.dropWhile_cons, if_pos hx]
      obtain ⟨c, hc, hpc⟩ := h
      rcases List.mem_cons.mp hc with e | e
      · subst e; rw [hx] at hpc; exact absurd hpc (by simp)
      · exact ih ⟨c, e, hpc⟩
    · rw [List.cons_append, List.dropWhile_cons, if_neg hx, List.dropWhile_cons, if_neg hx]
      rfl

theorem dropWhile_eq_nil_of_all {α : Type} (p : α → Bool) (u : List α)
    (h : ∀ c ∈ u, p c = true) : u.dropWhile p = [] := by
  have := dropWhile_append_all p u [] h
  simpa using this

theorem dropWhile_ne_nil_of_stop {α : Type} (p : α → Bool) (u : List α)
    (h : ∃ c ∈ u, p c = false) : u.dropWhile p ≠ [] := by
  induction u with
  | nil => simp at h
  | cons x xs ih =>
    by_cases hx : p x = true
    · rw [List.dropWhile_cons, if_pos hx]
      obtain ⟨c, hc, hpc⟩ := h
      rcases List.mem_cons.mp hc with e | e
      · subst e; rw [hx] at hpc; exact absurd hpc (by simp)
      · exact ih ⟨c, e, hpc⟩
    · rw [List.dropWhile_cons, if_neg hx]
      simp

/-- The position `indexFrom` reports: `-1` when the rune does not occur, else the
count of the runes before its first occurrence. -/
theorem indexFrom_spec (c : Char) :
    ∀ (s : List Char) (i : Nat),
      (c ∉ s → indexFrom c s i = -1) ∧
        (c ∈ s → indexFrom c s i = ((i + (s.takeWhile (fun x => x ≠ c)).length : Nat) : Int)) := by
  intro s
  induction s with
  | nil => intro i; simp [indexFrom]
  | cons x xs ih =>
    intro i
    by_cases hx : x = c
    · subst hx
      simp [indexFrom]
    · have h1 := (ih (i + 1)).1
      have h2 := (ih (i + 1)).2
      refine ⟨fun hn => ?_, fun hm => ?_⟩
      · have hn2 : c ∉ xs := fun e => hn (by simp [e])
        simp [indexFrom, hx, h1 hn2]
      · have hm2 : c ∈ xs := by
          rcases List.mem_cons.mp hm with e | e
          · exact absurd e.symm hx
          · exact e
        rw [indexFrom, if_neg hx, h2 hm2, List.takeWhile_cons, if_pos (by simpa using hx)]
        simp only [List.length_cons]
        congr 1
        omega

theorem indexFrom_ne_neg_one (c : Char) (s : List Char) (i : Nat) :
    indexFrom c s i ≠ -1 ↔ c ∈ s := by
  constructor
  · intro h
    by_contra hn
    exact h ((indexFrom_spec c s i).1 hn)
  · intro h
    rw [(indexFrom_spec c s i).2 h]
    omega

/-- A line splits at its first `\x7b`. -/
theorem split_at_first (c : Char) (s : List Char) (h : c ∈ s) :
    ∃ pre rest, s = pre ++ c :: rest ∧ c ∉ pre ∧ s.takeWhile (fun x => x ≠ c) = pre ∧
      s.dropWhile (fun x => x ≠ c) = c :: rest := by
  induction s with
  | nil => simp at h
  | cons x xs ih =>
    by_cases hx : x = c
    · subst hx
      exact ⟨[], xs, rfl, by simp, by simp, by simp⟩
    · have hm2 : c ∈ xs := by
        rcases List.mem_cons.mp h with e | e
        · exact absurd e.symm hx
        · exact e
      obtain ⟨pre, rest, e1, e2, e3, e4⟩ := ih hm2
      refine ⟨x :: pre, rest, by rw [e1]; rfl, ?_, ?_, ?_⟩
      · intro hmem
        rcases List.mem_cons.mp hmem with e | e
        · exact hx e.symm
        · exact e2 e
      · rw [List.takeWhile_cons, if_pos (by simpa using hx), e3]
      · rw [List.dropWhile_cons, if_pos (by simpa using hx), e4]

theorem braceText_of_data (line : String) (l : List Char)
    (h : ((line.data.dropWhile (fun c => c ≠ '\x7b')).reverse.dropWhile
      (fun c => c ≠ '\x7d')).reverse = l) :
    braceText line = if l = [] then none else some ⟨l⟩ := by
  unfold braceText
  rw [h]
  cases l with
  | nil => rfl
  | cons c cs => simp

/-- The slice between the two indices is the text from the first `\x7b` to the
last `\x7d`. -/
theorem jsonPart_eq_braceText (line : String) : jsonPart line = braceText line := by
  by_cases hL : '\x7b' ∈ line.data
  · obtain ⟨pre, rest, hs, hpre, htake, hdrop⟩ := split_at_first '\x7b' line.data hL
    have hstart : Index line '\x7b' = (pre.length : Int) := by
      unfold Index
      rw [(indexFrom_spec '\x7b' line.data 0).2 hL, htake]
      simp
    have hrev : line.data.reverse = rest.reverse ++ ('\x7b' :: pre.reverse) := by
      rw [hs]; simp
    have hlen : line.data.length = pre.length + 1 + rest.length := by
      rw [hs]; simp; omega
    have hsplit := List.takeWhile_append_dropWhile (fun x => decide (x ≠ '\x7d')) line.data.reverse
    have hsplitlen : (line.data.reverse.takeWhile (fun x => decide (x ≠ '\x7d'))).length +
        (line.data.reverse.dropWhile (fun x => decide (x ≠ '\x7d'))).length =
          line.data.length := by
      have := congrArg List.length hsplit
      rw [List.length_append, List.length_reverse] at this
      exact this
    by_cases hR : '\x7d' ∈ rest
    · -- the last closing brace stands after the first opening brace
      have hstop : ∃ c ∈ rest.reverse, (fun x => decide (x ≠ '\x7d')) c = false :=
        ⟨'\x7d', by simpa using hR, by simp⟩
      have hr := dropWhile_ne_nil_of_stop _ _ hstop
      have hdw : line.data.reverse.dropWhile (fun x => decide (x ≠ '\x7d')) =
          rest.reverse.dropWhile (fun x => decide (x ≠ '\x7d')) ++ ('\x7b' :: pre.reverse) := by
        rw [hrev, dropWhile_append_stop _ _ _ hstop]
      have hRmem : '\x7d' ∈ line.data.reverse := by rw [hrev]; simp [hR]
      have hidx := (indexFrom_spec '\x7d' line.data.reverse 0).2 hRmem
      have hne := (indexFrom_ne_neg_one '\x7d' line.data.reverse 0).mpr hRmem
      have hrlen : 0 < (rest.reverse.dropWhile (fun x => decide (x ≠ '\x7d'))).length :=
        List.length_pos.mpr hr
      have hdwlen := congrArg List.length hdw
      simp only [List.length_append, List.length_cons, List.length_reverse] at hdwlen
      have hend : LastIndex line '\x7d' =
          (((rest.reverse.dropWhile (fun x => decide (x ≠ '\x7d'))).length + pre.length : Nat) :
            Int) := by
        unfold LastIndex
        rw [if_neg hne, hidx]
        simp only [Nat.zero_add]
        omega
      have hbrace : ((line.data.dropWhile (fun c => c ≠ '\x7b')).reverse.dropWhile
          (fun c => c ≠ '\x7d')).reverse =
            '\x7b' :: (rest.reverse.dropWhile (fun x => decide (x ≠ '\x7d'))).reverse := by
        rw [hdrop, List.reverse_cons, dropWhile_append_stop _ _ _ hstop]
        simp
      rw [braceText_of_data line _ hbrace, if_neg (by simp)]
      unfold jsonPart
      rw [if_pos ⟨by rw [hstart]; omega, by rw [hend]; omega, by rw [hend, hstart]; omega⟩]
      congr 1
      unfold slice
      rw [hstart, hend]
      congr 1
      have hdata : line.data =
          (line.data.reverse.dropWhile (fun x => decide (x ≠ '\x7d'))).reverse ++
            (line.data.reverse.takeWhile (fun x => decide (x ≠ '\x7d'))).reverse := by
        have := congrArg List.reverse hsplit
        rw [List.reverse_append, List.reverse_reverse] at this
        exact this.symm
      have htk : (((rest.reverse.dropWhile (fun x => decide (x ≠ '\x7d'))).length + pre.length :
          Nat) + 1 : Int).toNat =
            (line.data.reverse.dropWhile (fun x => decide (x ≠ '\x7d'))).reverse.length := by
        rw [List.length_reverse, hdwlen]
        omega
      rw [htk]
      have htake2 := List.take_left
        (line.data.reverse.dropWhile (fun x => decide (x ≠ '\x7d'))).reverse
        (line.data.reverse.takeWhile (fun x => decide (x ≠ '\x7d'))).reverse
      rw [← hdata] at htake2
      rw [htake2, hdw]
      simp
    · -- no closing brace after the first opening brace
      have hall : ∀ c ∈ rest.reverse ++ ['\x7b'], (fun x => decide (x ≠ '\x7d')) c = true := by
        intro c hc
        rcases List.mem_append.mp hc with e | e
        · have : c ≠ '\x7d' := fun e2 => hR (by rw [← e2]; simpa using e)
          simpa using this
        · have : c = '\x7b' := by simpa using e
          subst this; decide
      have hbrace : ((line.data.dropWhile (fun c => c ≠ '\x7b')).reverse.dropWhile
          (fun c => c ≠ '\x7d')).reverse = [] := by
        rw [hdrop, List.reverse_cons, dropWhile_eq_nil_of_all _ _ hall]
        rfl
      rw [braceText_of_data line _ hbrace, if_pos rfl]
      unfold jsonPart
      rw [if_neg]
      rintro ⟨-, hne, hgt⟩
      have hRmem : '\x7d' ∈ line.data.reverse := by
        by_contra hn
        apply hne
        unfold LastIndex
        rw [if_pos ((indexFrom_spec '\x7d' line.data.reverse 0).1 hn)]
      have hidx := (indexFrom_spec '\x7d' line.data.reverse 0).2 hRmem
      have hne2 := (indexFrom_ne_neg_one '\x7d' line.data.reverse 0).mpr hRmem
      have hdw : line.data.reverse.dropWhile (fun x => decide (x ≠ '\x7d')) =
          pre.reverse.dropWhile (fun x => decide (x ≠ '\x7d')) := by
        have e : line.data.reverse = (rest.reverse ++ ['\x7b']) ++ pre.reverse := by
          rw [hrev]; simp
        rw [e, dropWhile_append_all _ _ _ hall]
      have hle : (pre.reverse.dropWhile (fun x => decide (x ≠ '\x7d'))).length ≤ pre.length := by
        have := (List.dropWhile_suffix (fun x => decide (x ≠ '\x7d')) (l := pre.reverse)).length_le
        simpa using this
      rw [hdw] at hsplitlen
      unfold LastIndex at hgt
      rw [if_neg hne2, hidx, hstart] at hgt
      simp only [Nat.zero_add] at hgt
      omega
  · have hnil : line.data.dropWhile (fun c => c ≠ '\x7b') = [] :=
      dropWhile_eq_nil_of_all _ _ (fun c hc => by
        have : c ≠ '\x7b' := fun e => hL (by rw [← e]; exact hc)
        simpa using this)
    have hbrace : ((line.data.dropWhile (fun c => c ≠ '\x7b')).reverse.dropWhile
        (fun c => c ≠ '\x7d')).reverse = [] := by
      rw [hnil]; rfl
    rw [braceText_of_data line _ hbrace, if_pos rfl]
    unfold jsonPart
    rw [if_neg]
    rintro ⟨h, -⟩
    exact h ((indexFrom_spec '\x7b' line.data 0).1 hL)

theorem IsSpace_not_brace (c : Char) (h : IsSpace c = true) : c ≠ '\x7b' ∧ c ≠ '\x7d' := by
  refine ⟨fun e => ?_, fun e => ?_⟩
  · subst e; exact absurd h (by decide)
  · subst e; exact absurd h (by decide)

/-- The text between the braces of a list of runes. -/
theorem braceRunes_trim (w0 x w1 : List Char) (h0 : ∀ c ∈ w0, IsSpace c = true)
    (h1 : ∀ c ∈ w1, IsSpace c = true) :
    (((w0 ++ (x ++ w1)).dropWhile (fun c => c ≠ '\x7b')).reverse.dropWhile
      (fun c => c ≠ '\x7d')).reverse =
    ((x.dropWhile (fun c => c ≠ '\x7b')).reverse.dropWhile (fun c => c ≠ '\x7d')).reverse := by
  rw [dropWhile_append_all _ w0 _ (fun c hc => by
    have := (IsSpace_not_brace c (h0 c hc)).1
    simpa using this)]
  have hw1 : ∀ c ∈ w1, (fun c => decide (c ≠ '\x7b')) c = true := fun c hc => by
    have := (IsSpace_not_brace c (h1 c hc)).1
    simpa using this
  have hw1r : ∀ c ∈ w1.reverse, (fun c => decide (c ≠ '\x7d')) c = true := fun c hc => by
    have := (IsSpace_not_brace c (h1 c (by simpa using hc))).2
    simpa using this
  by_cases hL : '\x7b' ∈ x
  · rw [dropWhile_append_stop _ x w1 ⟨'\x7b', hL, by simp⟩, List.reverse_append,
      dropWhile_append_all _ _ _ hw1r]
  · have hx : ∀ c ∈ x, (fun c => decide (c ≠ '\x7b')) c = true := fun c hc => by
      have : c ≠ '\x7b' := fun e => hL (by rw [← e]; exact hc)
      simpa using this
    rw [dropWhile_append_all _ x w1 hx, dropWhile_eq_nil_of_all _ w1 hw1,
      dropWhile_eq_nil_of_all _ x hx]

/-- A line is its trimmed copy between white space. -/
theorem TrimSpace_frame (l : String) :
    ∃ w0 w1 : List Char, l.data = w0 ++ ((TrimSpace l).data ++ w1) ∧
      (∀ c ∈ w0, IsSpace c = true) ∧ (∀ c ∈ w1, IsSpace c = true) := by
  refine ⟨l.data.takeWhile IsSpace,
    ((l.data.dropWhile IsSpace).reverse.takeWhile IsSpace).reverse, ?_, ?_, ?_⟩
  · have h1 := List.takeWhile_append_dropWhile IsSpace l.data
    have h2 := List.takeWhile_append_dropWhile IsSpace (l.data.dropWhile IsSpace).reverse
    have h3 := congrArg List.reverse h2
    rw [List.reverse_append, List.reverse_reverse] at h3
    unfold TrimSpace
    simp only []
    rw [h3]
    exact h1.symm
  · intro c hc
    exact (List.mem_takeWhile_imp hc)
  · intro c hc
    exact (List.mem_takeWhile_imp (List.mem_reverse.mp hc))

theorem braceText_TrimSpace (l : String) : braceText (TrimSpace l) = braceText l := by
  obtain ⟨w0, w1, hd, h0, h1⟩ := TrimSpace_frame l
  unfold braceText
  rw [hd, braceRunes_trim w0 _ w1 h0 h1]

theorem scanLines_cons {J : Type} (Unmarshal : String → Option J) (l : String)
    (rest : List String) :
    scanLines Unmarshal (l :: rest) =
      match lineObject Unmarshal l with
      | some result => Except.ok result
      | none => scanLines Unmarshal rest := by
  have hobj : lineObject Unmarshal l = (jsonPart (TrimSpace l)).bind Unmarshal := by
    unfold lineObject
    rw [jsonPart_eq_braceText, braceText_TrimSpace]
  rw [hobj]
  by_cases hempty : TrimSpace l = ""
  · have hj : jsonPart (TrimSpace l) = none := by
      rw [hempty]; decide
    rw [hj]
    simp [scanLines, hempty]
  · unfold jsonPart
    by_cases hcond : Index (TrimSpace l) '\x7b' ≠ -1 ∧ LastIndex (TrimSpace l) '\x7d' ≠ -1 ∧
        LastIndex (TrimSpace l) '\x7d' > Index (TrimSpace l) '\x7b'
    · rw [if_pos hcond]
      rw [scanLines, if_neg hempty]
      simp only []
      rw [if_pos hcond, Option.some_bind]
      cases Unmarshal (slice (TrimSpace l) (Index (TrimSpace l) '\x7b')
        (LastIndex (TrimSpace l) '\x7d' + 1)) <;> rfl
    · rw [if_neg hcond]
      rw [scanLines, if_neg hempty]
      simp only []
      rw [if_neg hcond]
      rfl

theorem scanLines_findSome {J : Type} (Unmarshal : String → Option J) (ls : List String) :
    scanLines Unmarshal ls =
      match ls.findSome? (lineObject Unmarshal) with
      | some obj => Except.ok obj
      | none => Except.error "no valid JSON block found in output" := by
  induction ls with
  | nil => rfl
  | cons l rest ih =>
    rw [scanLines_cons, List.findSome?_cons]
    cases h : lineObject Unmarshal l with
    | some obj => rfl
    | none => exact ih

theorem ExtractJSON_eq {J : Type} (Unmarshal : String → Option J) (output : String) :
    ExtractJSON Unmarshal output = lastJSONBlock Unmarshal output := by
  unfold ExtractJSON lastJSONBlock
  simp only []
  split_ifs
  · rfl
  · exact scanLines_findSome Unmarshal _

/-- Scanning from last to first, the first line with an object. -/
theorem findSome_reverse {J : Type} (f : String → Option J) (ls : List String) (obj : J) :
    ls.reverse.findSome? f = some obj ↔
      ∃ before line after, ls = before ++ line :: after ∧ f line = some obj ∧
        ∀ l ∈ after, f l = none := by
  rw [List.findSome?_eq_some_iff]
  constructor
  · rintro ⟨l1, a, l2, h, ha, hn⟩
    refine ⟨l2.reverse, a, l1.reverse, ?_, ha, fun l hl => hn l (List.mem_reverse.mp hl)⟩
    have := congrArg List.reverse h
    rw [List.reverse_reverse] at this
    rw [this]
    simp
  · rintro ⟨before, line, after, h, ha, hn⟩
    refine ⟨after.reverse, line, before.reverse, ?_, ha, fun l hl => hn l (List.mem_reverse.mp hl)⟩
    rw [h]
    simp

/-- C24: `ExtractJSON` returns the last valid JSON block of the output. For every
output it returns what the claim describes (`lastJSONBlock`): the lines of the
trimmed output are scanned from last to first, and the object of the first line
met whose text from its first `\x7b` to its last `\x7d` parses as a JSON object is
returned. It fails with `empty output` exactly when the trimmed output is empty,
and with `no valid JSON block found in output` exactly when the trimmed output is
not empty and no line qualifies; it returns `obj` exactly when the trimmed output
is not empty and `obj` is the object of a line after which no line qualifies. -/
theorem ExtractJSON_last_valid_block {J : Type} (Unmarshal : String → Option J)
    (output : String) :
    ExtractJSON Unmarshal output = lastJSONBlock Unmarshal output ∧
      (ExtractJSON Unmarshal output = Except.error "empty output" ↔ TrimSpace output = "") ∧
      (ExtractJSON Unmarshal output = Except.error "no valid JSON block found in output" ↔
        TrimSpace output ≠ "" ∧
          ∀ line ∈ Split (TrimSpace output) '\n', lineObject Unmarshal line = none) ∧
      (∀ obj : J, ExtractJSON Unmarshal output = Except.ok obj ↔
        TrimSpace output ≠ "" ∧
          ∃ before line after, Split (TrimSpace output) '\n' = before ++ line :: after ∧
            lineObject Unmarshal line = some obj ∧
            ∀ l ∈ after, lineObject Unmarshal l = none) := by
  refine ⟨ExtractJSON_eq Unmarshal output, ?_, ?_, ?_⟩
  · rw [ExtractJSON_eq]
    unfold lastJSONBlock
    by_cases h : TrimSpace output = ""
    · simp [h]
    · rw [if_neg h]
      cases (Split (TrimSpace output) '\n').reverse.findSome? (lineObject Unmarshal) with
      | some obj => simp [h]
      | none =>
        simp only [h, iff_false]
        intro e
        exact absurd (Except.error.inj e) (by decide)
  · rw [ExtractJSON_eq]
    unfold lastJSONBlock
    by_cases h : TrimSpace output = ""
    · rw [if_pos h]
      simp only [h, ne_eq, not_true_eq_false, false_and, iff_false]
      intro e
      exact absurd (Except.error.inj e) (by decide)
    · rw [if_neg h]
      cases hf : (Split (TrimSpace output) '\n').reverse.findSome? (lineObject Unmarshal) with
      | some obj =>
        simp only [ne_eq, h, not_false_eq_true, true_and]
        refine ⟨fun e => Except.noConfusion e, fun hall => ?_⟩
        have hnone : (Split (TrimSpace output) '\n').reverse.findSome? (lineObject Unmarshal) =
            none :=
          List.findSome?_eq_none_iff.mpr (fun x hx => hall x (List.mem_reverse.mp hx))
        rw [hnone] at hf
        exact absurd hf (by simp)
      | none =>
        simp only [ne_eq, h, not_false_eq_true, true_and, true_iff]
        intro line hline
        exact List.findSome?_eq_none_iff.mp hf line (List.mem_reverse.mpr hline)
  · intro obj
    rw [ExtractJSON_eq]
    unfold lastJSONBlock
    by_cases h : TrimSpace output = ""
    · rw [if_pos h]
      simp [h]
    · rw [if_neg h, ← findSome_reverse]
      cases hf : (Split (TrimSpace output) '\n').reverse.findSome? (lineObject Unmarshal) with
      | some o =>
        simp only [ne_eq, h, not_false_eq_true, true_and, Option.some.injEq]
        exact ⟨fun e => Except.ok.inj e, fun e => by rw [e]⟩
      | none => simp [h]

/-- On a connector log the object of the last line that holds one is returned;
blank output is `empty output`, braces in the wrong order give no block. -/
theorem ExtractJSON_sample :
    ExtractJSON sampleUnmarshal "  start\n  INFO \x7bcatalog\x7d done \nlast \x7bx\x7d \x7by\x7d\n\n" =
        Except.ok "\x7bcatalog\x7d" ∧
      ExtractJSON sampleUnmarshal "  \n " = Except.error "empty output" ∧
      ExtractJSON sampleUnmarshal " \x7d \x7b \n x " =
        Except.error "no valid JSON block found in output" := by
  refine ⟨?_, ?_, ?_⟩ <;> rfl

/-- C21, the run that breaks it: `DeleteDestination` for destination 2 of the
sample database, to which the active jobs 41 and 42 are linked, while the look-up
of the linked jobs fails. The handler writes the error `Failed to get source by
id`, goes on, deletes the destination and writes the success response; no job
was written back, jobs 41 and 42 are still active and still point to the deleted
destination. -/
theorem DeleteDestination_after_failed_lookup :
    failingJobORM.GetByDestinationID 2 sampleDB = Except.error "connection refused" ∧
      (DeleteDestination memDestinationORM failingJobORM 2 sampleDB ()).responses.map
          (fun r => (r.status, r.message)) =
        [(500, "Failed to get source by id"), (200, "success")] ∧
      (DeleteDestination memDestinationORM failingJobORM 2 sampleDB ()).calls =
        [HandlerCall.deleteDestination 2] ∧
      (DeleteDestination memDestinationORM failingJobORM 2 sampleDB ()).db.destinations = [] ∧
      (DeleteDestination memDestinationORM failingJobORM 2 sampleDB ()).db.jobs =
        [sampleJob 41 "nightly", sampleJob 42 "hourly"] ∧
      (∀ job ∈ (DeleteDestination memDestinationORM failingJobORM 2 sampleDB ()).db.jobs,
        job.Active = true ∧ job.DestID.map (fun d => d.ID) = some 2) := by
  refine ⟨rfl, by decide, by decide, by decide, by decide, by decide⟩

/-- C23, the run that breaks it: in the sample database the jobs 41 `nightly` and
42 `hourly` of project `p` have different names; `UpdateJob` for job 41 with the
name `hourly` reports success and leaves two jobs named `hourly` in project
`p`. -/
theorem UpdateJob_duplicates_name :
    NamesUnique sampleDB.jobs ∧
      (UpdateJob id "OLAKE_DOCKER_TASK_QUEUE" memSourceORM memDestinationORM memJobORM
        sampleCancel none 200 (some 3) "p" 41 (some (sampleUpdateJobRequest "hourly")) sampleDB
        []).responses.map (fun r => (r.status, r.message)) = [(200, "success")] ∧
      (UpdateJob id "OLAKE_DOCKER_TASK_QUEUE" memSourceORM memDestinationORM memJobORM
        sampleCancel none 200 (some 3) "p" 41 (some (sampleUpdateJobRequest "hourly")) sampleDB
        []).db.jobs.map (fun r => (r.ID, r.ProjectID, r.Name)) =
          [(41, "p", "hourly"), (42, "p", "hourly")] ∧
      ¬ NamesUnique (UpdateJob id "OLAKE_DOCKER_TASK_QUEUE" memSourceORM memDestinationORM
        memJobORM sampleCancel none 200 (some 3) "p" 41 (some (sampleUpdateJobRequest "hourly"))
        sampleDB []).db.jobs := by
  refine ⟨by decide, by decide, by decide, by decide⟩

/-- C26, the run that breaks it: `CreateJob` with an empty frequency on the sample
database, with a Temporal client at hand. The job row 43 is written, `ManageSync`
fails with `frequency is required for creating schedule`, and the handler writes
two responses: the error of the schedule creation with status 500, then the
success payload with status 200. -/
theorem CreateJob_two_responses :
    (CreateJob id "OLAKE_DOCKER_TASK_QUEUE" memSourceORM memDestinationORM memJobORM
      (some (storeClient (fun _ => true))) (some 3) "p"
      (some (sampleCreateJobRequest "weekly" "")) sampleDB
      Store.empty).responses.map (fun r => (r.status, r.success, r.message)) =
        [(500, false, "Temporal workflow execution failed for create job schedule: " ++
            "frequency is required for creating schedule"),
         (200, true, "success")] ∧
      (CreateJob id "OLAKE_DOCKER_TASK_QUEUE" memSourceORM memDestinationORM memJobORM
        (some (storeClient (fun _ => true))) (some 3) "p"
        (some (sampleCreateJobRequest "weekly" "")) sampleDB
        Store.empty).db.jobs.map (fun r => (r.ID, r.Name)) =
          [(41, "nightly"), (42, "hourly"), (43, "weekly")] := by
  refine ⟨by decide, by decide⟩

/-! ### The natural-key upsert of `getOrCreateSource` and `getOrCreateDestination` -/

theorem filter_map_of_stable {α : Type} (q : α → Bool) (f : α → α) (l : List α)
    (h : ∀ r ∈ l, q (f r) = q r) : (l.map f).filter q = (l.filter q).map f := by
  induction l with
  | nil => rfl
  | cons x xs ih =>
    have hx := h x (by simp)
    have ih2 := ih (fun r hr => h r (by simp [hr]))
    by_cases hq : q x = true
    · rw [List.map_cons, List.filter_cons, if_pos (by rw [hx]; exact hq), List.filter_cons,
        if_pos hq, List.map_cons, ih2]
    · rw [List.map_cons, List.filter_cons, if_neg (by rw [hx]; exact hq), List.filter_cons,
        if_neg hq, ih2]

theorem eq_of_nodup_ids {α : Type} (idOf : α → Int) (l : List α) (h : (l.map idOf).Nodup)
    (r r0 : α) (hr : r ∈ l) (hr0 : r0 ∈ l) (hid : idOf r = idOf r0) : r = r0 :=
  List.inj_on_of_nodup_map h hr hr0 hid

theorem getOrCreateSource_found {D : Type} (sourceORM : SourceORM D) (u : Option Int)
    (config : JobSourceConfig) (p : String) (db : D) (found : Source) (others : List Source)
    (h : sourceORM.GetByNameAndType config.Name config.Type_ p db = Except.ok (found :: others)) :
    getOrCreateSource sourceORM u config p db =
      ((match (sourceORM.Update (upsertedSource found config u) db).1 with
        | Except.error err => Except.error ("failed to update source: " ++ err)
        | Except.ok _ => Except.ok (upsertedSource found config u)),
       (sourceORM.Update (upsertedSource found config u) db).2,
       [HandlerCall.updateSource (upsertedSource found config u)]) := by
  unfold getOrCreateSource
  rw [h]
  simp only []
  rcases hu : sourceORM.Update (upsertedSource found config u) db with ⟨r, db1⟩
  cases r <;> rfl

theorem getOrCreateSource_missing {D : Type} (sourceORM : SourceORM D) (u : Option Int)
    (config : JobSourceConfig) (p : String) (db : D)
    (h : ∀ found others,
      sourceORM.GetByNameAndType config.Name config.Type_ p db ≠ Except.ok (found :: others)) :
    getOrCreateSource sourceORM u config p db =
      ((match (sourceORM.Create (createdSource config p u) db).1 with
        | Except.error err => Except.error ("failed to create source: " ++ err)
        | Except.ok created => Except.ok created),
       (sourceORM.Create (createdSource config p u) db).2,
       [HandlerCall.createSource (createdSource config p u)]) := by
  unfold getOrCreateSource
  split
  · rename_i found others heq
    exact absurd heq (h found others)
  · rcases hu : sourceORM.Create (createdSource config p u) db with ⟨r, db1⟩
    cases r <;> rfl

theorem mem_getOrCreateSource_found (u : Option Int) (config : JobSourceConfig) (p : String)
    (db : MemDB) (found : Source) (others : List Source)
    (h : sourcesByKey db config.Name config.Type_ p = found :: others) :
    getOrCreateSource memSourceORM u config p db =
      (Except.ok (upsertedSource found config u),
       { db with
         sources :=
           db.sources.map (fun r => if r.ID = found.ID then upsertedSource found config u else r) },
       [HandlerCall.updateSource (upsertedSource found config u)]) := by
  have hmem : found ∈ db.sources := by
    have : found ∈ sourcesByKey db config.Name config.Type_ p := by rw [h]; simp
    exact List.mem_of_mem_filter this
  have hany : db.sources.any (fun r => decide (r.ID = (upsertedSource found config u).ID)) =
      true := List.any_eq_true.mpr ⟨found, hmem, by simp [upsertedSource]⟩
  have hget : memSourceORM.GetByNameAndType config.Name config.Type_ p db =
      Except.ok (found :: others) := by
    rw [← h]; rfl
  rw [getOrCreateSource_found memSourceORM u config p db found others hget]
  have hupd : memSourceORM.Update (upsertedSource found config u) db =
      (Except.ok (),
        { db with
          sources := db.sources.map
            (fun r => if r.ID = (upsertedSource found config u).ID then
              upsertedSource found config u else r) }) := by
    show (if db.sources.any (fun r => decide (r.ID = (upsertedSource found config u).ID)) = true
      then _ else _) = _
    rw [if_pos hany]
  rw [hupd]
  rfl

theorem mem_getOrCreateSource_missing (u : Option Int) (config : JobSourceConfig) (p : String)
    (db : MemDB) (h : sourcesByKey db config.Name config.Type_ p = []) :
    getOrCreateSource memSourceORM u config p db =
      (Except.ok { createdSource config p u with ID := db.nextID },
       { db with sources := db.sources ++ [{ createdSource config p u with ID := db.nextID }]
                 nextID := db.nextID + 1 },
       [HandlerCall.createSource (createdSource config p u)]) := by
  rw [getOrCreateSource_missing memSourceORM u config p db (fun found others e => by
    have e2 : sourcesByKey db config.Name config.Type_ p = found :: others :=
      Except.ok.inj e
    rw [h] at e2
    exact absurd e2 (by simp))]
  rfl

/-- One resolution on a table whose rows have distinct IDs below `nextID` and in
which at most one row has the key: it returns a row, that row is then the one row
with the key, it carries the config and the version of the descriptor, and it is
the row that had the key before when there was one. -/
theorem mem_getOrCreateSource_step (u : Option Int) (config : JobSourceConfig) (p : String)
    (db : MemDB) (hids : (db.sources.map (fun r => r.ID)).Nodup)
    (hfresh : ∀ r ∈ db.sources, r.ID < db.nextID)
    (hkey : (sourcesByKey db config.Name config.Type_ p).length ≤ 1) :
    ∃ row : Source,
      (getOrCreateSource memSourceORM u config p db).1 = Except.ok row ∧
      sourcesByKey (getOrCreateSource memSourceORM u config p db).2.1 config.Name config.Type_ p =
        [row] ∧
      row.Config = config.Config ∧ row.Version = config.Version ∧
      (((getOrCreateSource memSourceORM u config p db).2.1).sources.map (fun r => r.ID)).Nodup ∧
      (∀ r ∈ ((getOrCreateSource memSourceORM u config p db).2.1).sources,
        r.ID < ((getOrCreateSource memSourceORM u config p db).2.1).nextID) ∧
      (∀ r0, sourcesByKey db config.Name config.Type_ p = [r0] →
        row.ID = r0.ID ∧ row.Name = r0.Name ∧ row.Type_ = r0.Type_ ∧
          row.ProjectID = r0.ProjectID ∧
          ((getOrCreateSource memSourceORM u config p db).2.1).sources.length =
            db.sources.length) ∧
      (sourcesByKey db config.Name config.Type_ p = [] →
        ((getOrCreateSource memSourceORM u config p db).2.1).sources =
          db.sources ++ [row]) := by
  cases hl : sourcesByKey db config.Name config.Type_ p with
  | nil =>
    rw [mem_getOrCreateSource_missing u config p db hl]
    refine ⟨_, rfl, ?_, rfl, rfl, ?_, ?_, ?_, fun _ => rfl⟩
    · have h0 := hl
      simp only [sourcesByKey] at h0 ⊢
      rw [List.filter_append, h0]
      simp [createdSource]
    · simp only []
      rw [List.map_append, List.nodup_append]
      refine ⟨hids, by simp, ?_⟩
      intro a ha hb
      obtain ⟨r, hr, rfl⟩ := List.mem_map.mp ha
      have h1 := hfresh r hr
      have h2 : r.ID = db.nextID := by simpa using hb
      omega
    · intro r hr
      have hr2 : r ∈ db.sources ++ [{ createdSource config p u with ID := db.nextID }] := hr
      show r.ID < db.nextID + 1
      rcases List.mem_append.mp hr2 with e | e
      · have := hfresh r e; omega
      · have : r = { createdSource config p u with ID := db.nextID } := by simpa using e
        rw [this]
        show db.nextID < db.nextID + 1
        omega
    · intro r0 e
      exact absurd e (by simp)
  | cons found others =>
    have hothers : others = [] := by
      rw [hl] at hkey
      cases others with
      | nil => rfl
      | cons a b => simp at hkey
    subst hothers
    rw [mem_getOrCreateSource_found u config p db found [] hl]
    have hmem : found ∈ db.sources := by
      have : found ∈ sourcesByKey db config.Name config.Type_ p := by rw [hl]; simp
      exact List.mem_of_mem_filter this
    have hq : (decide (found.Name = config.Name ∧ found.Type_ = config.Type_ ∧
        found.ProjectID = p)) = true := by
      have : found ∈ sourcesByKey db config.Name config.Type_ p := by rw [hl]; simp
      exact (List.mem_filter.mp this).2
    have hstable : ∀ r ∈ db.sources,
        (fun r : Source => decide (r.Name = config.Name ∧ r.Type_ = config.Type_ ∧
          r.ProjectID = p))
          ((fun r : Source => if r.ID = found.ID then upsertedSource found config u else r) r) =
        (fun r : Source => decide (r.Name = config.Name ∧ r.Type_ = config.Type_ ∧
          r.ProjectID = p)) r := by
      intro r hr
      by_cases hid : r.ID = found.ID
      · have e := eq_of_nodup_ids (fun r : Source => r.ID) db.sources hids r found hr hmem hid
        subst e
        simp only [if_true]
        rfl
      · simp only [hid, if_false]
    refine ⟨_, rfl, ?_, rfl, rfl, ?_, ?_, ?_, fun e => absurd e (by simp)⟩
    · have h0 := hl
      simp only [sourcesByKey] at h0 ⊢
      rw [filter_map_of_stable _ _ _ hstable, h0]
      simp
    · simp only []
      rw [List.map_map]
      have hsame : ((fun r : Source => r.ID) ∘
          (fun r : Source => if r.ID = found.ID then upsertedSource found config u else r)) =
          (fun r : Source => r.ID) := by
        funext r
        by_cases hid : r.ID = found.ID
        · simp [hid, upsertedSource]
        · simp [hid]
      rw [hsame]
      exact hids
    · intro r hr
      have hr2 : r ∈ db.sources.map
          (fun r => if r.ID = found.ID then upsertedSource found config u else r) := hr
      obtain ⟨r1, hr1, rfl⟩ := List.mem_map.mp hr2
      show _ < db.nextID
      by_cases hid : r1.ID = found.ID
      · simp only [hid, if_true]
        exact hfresh found hmem
      · simp only [hid, if_false]
        exact hfresh r1 hr1
    · intro r0 e
      have e2 : found = r0 := by simpa using e
      subst e2
      refine ⟨rfl, rfl, rfl, rfl, ?_⟩
      simp


theorem getOrCreateDestination_found {D : Type} (destORM : DestinationORM D) (u : Option Int)
    (config : JobDestinationConfig) (p : String) (db : D) (found : Destination) (others : List Destination)
    (h : destORM.GetByNameAndType config.Name config.Type_ p db = Except.ok (found :: others)) :
    getOrCreateDestination destORM u config p db =
      ((match (destORM.Update (upsertedDestination found config u) db).1 with
        | Except.error err => Except.error ("failed to update destination: " ++ err)
        | Except.ok _ => Except.ok (upsertedDestination found config u)),
       (destORM.Update (upsertedDestination found config u) db).2,
       [HandlerCall.updateDestination (upsertedDestination found config u)]) := by
  unfold getOrCreateDestination
  rw [h]
  simp only []
  rcases hu : destORM.Update (upsertedDestination found config u) db with ⟨r, db1⟩
  cases r <;> rfl

theorem getOrCreateDestination_missing {D : Type} (destORM : DestinationORM D) (u : Option Int)
    (config : JobDestinationConfig) (p : String) (db : D)
    (h : ∀ found others,
      destORM.GetByNameAndType config.Name config.Type_ p db ≠ Except.ok (found :: others)) :
    getOrCreateDestination destORM u config p db =
      ((match (destORM.Create (createdDestination config p u) db).1 with
        | Except.error err => Except.error ("failed to create destination: " ++ err)
        | Except.ok created => Except.ok created),
       (destORM.Create (createdDestination config p u) db).2,
       [HandlerCall.createDestination (createdDestination config p u)]) := by
  unfold getOrCreateDestination
  split
  · rename_i found others heq
    exact absurd heq (h found others)
  · rcases hu : destORM.Create (createdDestination config p u) db with ⟨r, db1⟩
    cases r <;> rfl


theorem mem_getOrCreateDestination_found (u : Option Int) (config : JobDestinationConfig) (p : String)
    (db : MemDB) (found : Destination) (others : List Destination)
    (h : destinationsByKey db config.Name config.Type_ p = found :: others) :
    getOrCreateDestination memDestinationORM u config p db =
      (Except.ok (upsertedDestination found config u),
       { db with
         destinations :=
           db.destinations.map (fun r => if r.ID = found.ID then upsertedDestination found config u else r) },
       [HandlerCall.updateDestination (upsertedDestination found config u)]) := by
  have hmem : found ∈ db.destinations := by
    have : found ∈ destinationsByKey db config.Name config.Type_ p := by rw [h]; simp
    exact List.mem_of_mem_filter this
  have hany : db.destinations.any (fun r => decide (r.ID = (upsertedDestination found config u).ID)) =
      true := List.any_eq_true.mpr ⟨found, hmem, by simp [upsertedDestination]⟩
  have hget : memDestinationORM.GetByNameAndType config.Name config.Type_ p db =
      Except.ok (found :: others) := by
    rw [← h]; rfl
  rw [getOrCreateDestination_found memDestinationORM u config p db found others hget]
  have hupd : memDestinationORM.Update (upsertedDestination found config u) db =
      (Except.ok (),
        { db with
          destinations := db.destinations.map
            (fun r => if r.ID = (upsertedDestination found config u).ID then
              upsertedDestination found config u else r) }) := by
    show (if db.destinations.any (fun r => decide (r.ID = (upsertedDestination found config u).ID)) = true
      then _ else _) = _
    rw [if_pos hany]
  rw [hupd]
  rfl

theorem mem_getOrCreateDestination_missing (u : Option Int) (config : JobDestinationConfig) (p : String)
    (db : MemDB) (h : destinationsByKey db config.Name config.Type_ p = []) :
    getOrCreateDestination memDestinationORM u config p db =
      (Except.ok { createdDestination config p u with ID := db.nextID },
       { db with destinations := db.destinations ++ [{ createdDestination config p u with ID := db.nextID }]
                 nextID := db.nextID + 1 },
       [HandlerCall.createDestination (createdDestination config p u)]) := by
  rw [getOrCreateDestination_missing memDestinationORM u config p db (fun found others e => by
    have e2 : destinationsByKey db config.Name config.Type_ p = found :: others :=
      Except.ok.inj e
    rw [h] at e2
    exact absurd e2 (by simp))]
  rfl

/-- One resolution on a table whose rows have distinct IDs below `nextID` and in
which at most one row has the key: it returns a row, that row is then the one row
with the key, it carries the config and the version of the descriptor, and it is
the row that had the key before when there was one. -/
theorem mem_getOrCreateDestination_step (u : Option Int) (config : JobDestinationConfig) (p : String)
    (db : MemDB) (hids : (db.destinations.map (fun r => r.ID)).Nodup)
    (hfresh : ∀ r ∈ db.destinations, r.ID < db.nextID)
    (hkey : (destinationsByKey db config.Name config.Type_ p).length ≤ 1) :
    ∃ row : Destination,
      (getOrCreateDestination memDestinationORM u config p db).1 = Except.ok row ∧
      destinationsByKey (getOrCreateDestination memDestinationORM u config p db).2.1 config.Name config.Type_ p =
        [row] ∧
      row.Config = config.Config ∧ row.Version = config.Version ∧
      (((getOrCreateDestination memDestinationORM u config p db).2.1).destinations.map (fun r => r.ID)).Nodup ∧
      (∀ r ∈ ((getOrCreateDestination memDestinationORM u config p db).2.1).destinations,
        r.ID < ((getOrCreateDestination memDestinationORM u config p db).2.1).nextID) ∧
      (∀ r0, destinationsByKey db config.Name config.Type_ p = [r0] →
        row.ID = r0.ID ∧ row.Name = r0.Name ∧ row.DestType = r0.DestType ∧
          row.ProjectID = r0.ProjectID ∧
          ((getOrCreateDestination memDestinationORM u config p db).2.1).destinations.length =
            db.destinations.length) ∧
      (destinationsByKey db config.Name config.Type_ p = [] →
        ((getOrCreateDestination memDestinationORM u config p db).2.1).destinations =
          db.destinations ++ [row]) := by
  cases hl : destinationsByKey db config.Name config.Type_ p with
  | nil =>
    rw [mem_getOrCreateDestination_missing u config p db hl]
    refine ⟨_, rfl, ?_, rfl, rfl, ?_, ?_, ?_, fun _ => rfl⟩
    · have h0 := hl
      simp only [destinationsByKey] at h0 ⊢
      rw [List.filter_append, h0]
      simp [createdDestination]
    · simp only []
      rw [List.map_append, List.nodup_append]
      refine ⟨hids, by simp, ?_⟩
      intro a ha hb
      obtain ⟨r, hr, rfl⟩ := List.mem_map.mp ha
      have h1 := hfresh r hr
      have h2 : r.ID = db.nextID := by simpa using hb
      omega
    · intro r hr
      have hr2 : r ∈ db.destinations ++ [{ createdDestination config p u with ID := db.nextID }] := hr
      show r.ID < db.nextID + 1
      rcases List.mem_append.mp hr2 with e | e
      · have := hfresh r e; omega
      · have : r = { createdDestination config p u with ID := db.nextID } := by simpa using e
        rw [this]
        show db.nextID < db.nextID + 1
        omega
    · intro r0 e
      exact absurd e (by simp)
  | cons found others =>
    have hothers : others = [] := by
      rw [hl] at hkey
      cases others with
      | nil => rfl
      | cons a b => simp at hkey
    subst hothers
    rw [mem_getOrCreateDestination_found u config p db found [] hl]
    have hmem : found ∈ db.destinations := by
      have : found ∈ destinationsByKey db config.Name config.Type_ p := by rw [hl]; simp
      exact List.mem_of_mem_filter this
    have hq : (decide (found.Name = config.Name ∧ found.DestType = config.Type_ ∧
        found.ProjectID = p)) = true := by
      have : found ∈ destinationsByKey db config.Name config.Type_ p := by rw [hl]; simp
      exact (List.mem_filter.mp this).2
    have hstable : ∀ r ∈ db.destinations,
        (fun r : Destination => decide (r.Name = config.Name ∧ r.DestType = config.Type_ ∧
          r.ProjectID = p))
          ((fun r : Destination => if r.ID = found.ID then upsertedDestination found config u else r) r) =
        (fun r : Destination => decide (r.Name = config.Name ∧ r.DestType = config.Type_ ∧
          r.ProjectID = p)) r := by
      intro r hr
      by_cases hid : r.ID = found.ID
      · have e := eq_of_nodup_ids (fun r : Destination => r.ID) db.destinations hids r found hr hmem hid
        subst e
        simp only [if_true]
        rfl
      · simp only [hid, if_false]
    refine ⟨_, rfl, ?_, rfl, rfl, ?_, ?_, ?_, fun e => absurd e (by simp)⟩
    · have h0 := hl
      simp only [destinationsByKey] at h0 ⊢
      rw [filter_map_of_stable _ _ _ hstable, h0]
      simp
    · simp only []
      rw [List.map_map]
      have hsame : ((fun r : Destination => r.ID) ∘
          (fun r : Destination => if r.ID = found.ID then upsertedDestination found config u else r)) =
          (fun r : Destination => r.ID) := by
        funext r
        by_cases hid : r.ID = found.ID
        · simp [hid, upsertedDestination]
        · simp [hid]
      rw [hsame]
      exact hids
    · intro r hr
      have hr2 : r ∈ db.destinations.map
          (fun r => if r.ID = found.ID then upsertedDestination found config u else r) := hr
      obtain ⟨r1, hr1, rfl⟩ := List.mem_map.mp hr2
      show _ < db.nextID
      by_cases hid : r1.ID = found.ID
      · simp only [hid, if_true]
        exact hfresh found hmem
      · simp only [hid, if_false]
        exact hfresh r1 hr1
    · intro r0 e
      have e2 : found = r0 := by simpa using e
      subst e2
      refine ⟨rfl, rfl, rfl, rfl, ?_⟩
      simp

/-- Two successive resolutions of descriptors with one key on the source table. -/
theorem mem_getOrCreateSource_twice (u1 u2 : Option Int) (c1 c2 : JobSourceConfig) (p : String)
    (db : MemDB) (hname : c1.Name = c2.Name) (htype : c1.Type_ = c2.Type_)
    (hids : (db.sources.map (fun r => r.ID)).Nodup)
    (hfresh : ∀ r ∈ db.sources, r.ID < db.nextID)
    (hkey : (sourcesByKey db c1.Name c1.Type_ p).length ≤ 1) :
    ∃ row1 row2 : Source,
      (getOrCreateSource memSourceORM u1 c1 p db).1 = Except.ok row1 ∧
      (getOrCreateSource memSourceORM u2 c2 p
        (getOrCreateSource memSourceORM u1 c1 p db).2.1).1 = Except.ok row2 ∧
      row1.ID = row2.ID ∧
      sourcesByKey (getOrCreateSource memSourceORM u2 c2 p
        (getOrCreateSource memSourceORM u1 c1 p db).2.1).2.1 c1.Name c1.Type_ p = [row2] ∧
      row2.Config = c2.Config ∧ row2.Version = c2.Version := by
  obtain ⟨row1, h1, hk1, -, -, hids1, hfresh1, -, -⟩ :=
    mem_getOrCreateSource_step u1 c1 p db hids hfresh hkey
  rw [hname, htype] at hk1
  obtain ⟨row2, h2, hk2, hc, hv, -, -, hsame, -⟩ :=
    mem_getOrCreateSource_step u2 c2 p _ hids1 hfresh1 (by rw [hk1]; simp)
  refine ⟨row1, row2, h1, h2, (hsame row1 hk1).1.symm, ?_, hc, hv⟩
  rw [hname, htype]
  exact hk2

/-- Two successive resolutions of descriptors with one key on the destination
table. -/
theorem mem_getOrCreateDestination_twice (u1 u2 : Option Int) (c1 c2 : JobDestinationConfig)
    (p : String) (db : MemDB) (hname : c1.Name = c2.Name) (htype : c1.Type_ = c2.Type_)
    (hids : (db.destinations.map (fun r => r.ID)).Nodup)
    (hfresh : ∀ r ∈ db.destinations, r.ID < db.nextID)
    (hkey : (destinationsByKey db c1.Name c1.Type_ p).length ≤ 1) :
    ∃ row1 row2 : Destination,
      (getOrCreateDestination memDestinationORM u1 c1 p db).1 = Except.ok row1 ∧
      (getOrCreateDestination memDestinationORM u2 c2 p
        (getOrCreateDestination memDestinationORM u1 c1 p db).2.1).1 = Except.ok row2 ∧
      row1.ID = row2.ID ∧
      destinationsByKey (getOrCreateDestination memDestinationORM u2 c2 p
        (getOrCreateDestination memDestinationORM u1 c1 p db).2.1).2.1 c1.Name c1.Type_ p =
          [row2] ∧
      row2.Config = c2.Config ∧ row2.Version = c2.Version := by
  obtain ⟨row1, h1, hk1, -, -, hids1, hfresh1, -, -⟩ :=
    mem_getOrCreateDestination_step u1 c1 p db hids hfresh hkey
  rw [hname, htype] at hk1
  obtain ⟨row2, h2, hk2, hc, hv, -, -, hsame, -⟩ :=
    mem_getOrCreateDestination_step u2 c2 p _ hids1 hfresh1 (by rw [hk1]; simp)
  refine ⟨row1, row2, h1, h2, (hsame row1 hk1).1.symm, ?_, hc, hv⟩
  rw [hname, htype]
  exact hk2

/-- C22, as amended: `getOrCreateSource` and `getOrCreateDestination` are a
natural-key upsert. On every persistence layer: when the look-up by the
descriptor's (name, type, project) finds rows, the first of them is written back
with the config and the version of the descriptor, its ID, name, type and project
unchanged, no row is created, and that row is returned when the write goes
through; when the look-up finds none, one row with the fields of the descriptor
is handed to `Create` and the created row is returned. Provided that the table
has distinct row IDs and at most one row under the key, which the handlers do
not see to, two successive resolutions with the same (name, type, project) on
the tables in memory leave one row under the key, it carries the second config
and version, and both resolutions return the ID of that row. -/
theorem getOrCreate_natural_key_upsert {D : Type} (sourceORM : SourceORM D)
    (destORM : DestinationORM D) (u : Option Int) (p : String) (db : D) :
    (∀ config : JobSourceConfig,
      (∀ found others,
        sourceORM.GetByNameAndType config.Name config.Type_ p db = Except.ok (found :: others) →
          (getOrCreateSource sourceORM u config p db).2.2 =
              [HandlerCall.updateSource (upsertedSource found config u)] ∧
            (getOrCreateSource sourceORM u config p db).2.1 =
              (sourceORM.Update (upsertedSource found config u) db).2 ∧
            (upsertedSource found config u).Config = config.Config ∧
            (upsertedSource found config u).Version = config.Version ∧
            (upsertedSource found config u).ID = found.ID ∧
            (upsertedSource found config u).Name = found.Name ∧
            (upsertedSource found config u).Type_ = found.Type_ ∧
            (upsertedSource found config u).ProjectID = found.ProjectID ∧
            ((sourceORM.Update (upsertedSource found config u) db).1 = Except.ok () →
              (getOrCreateSource sourceORM u config p db).1 =
                Except.ok (upsertedSource found config u))) ∧
      ((∀ found others,
        sourceORM.GetByNameAndType config.Name config.Type_ p db ≠
          Except.ok (found :: others)) →
          (getOrCreateSource sourceORM u config p db).2.2 =
              [HandlerCall.createSource (createdSource config p u)] ∧
            (getOrCreateSource sourceORM u config p db).2.1 =
              (sourceORM.Create (createdSource config p u) db).2 ∧
            (createdSource config p u).Name = config.Name ∧
            (createdSource config p u).Type_ = config.Type_ ∧
            (createdSource config p u).Config = config.Config ∧
            (createdSource config p u).Version = config.Version ∧
            (createdSource config p u).ProjectID = p ∧
            (∀ created, (sourceORM.Create (createdSource config p u) db).1 = Except.ok created →
              (getOrCreateSource sourceORM u config p db).1 = Except.ok created))) ∧
    (∀ config : JobDestinationConfig,
      (∀ found others,
        destORM.GetByNameAndType config.Name config.Type_ p db = Except.ok (found :: others) →
          (getOrCreateDestination destORM u config p db).2.2 =
              [HandlerCall.updateDestination (upsertedDestination found config u)] ∧
            (getOrCreateDestination destORM u config p db).2.1 =
              (destORM.Update (upsertedDestination found config u) db).2 ∧
            (upsertedDestination found config u).Config = config.Config ∧
            (upsertedDestination found config u).Version = config.Version ∧
            (upsertedDestination found config u).ID = found.ID ∧
            (upsertedDestination found config u).Name = found.Name ∧
            (upsertedDestination found config u).DestType = found.DestType ∧
            (upsertedDestination found config u).ProjectID = found.ProjectID ∧
            ((destORM.Update (upsertedDestination found config u) db).1 = Except.ok () →
              (getOrCreateDestination destORM u config p db).1 =
                Except.ok (upsertedDestination found config u))) ∧
      ((∀ found others,
        destORM.GetByNameAndType config.Name config.Type_ p db ≠
          Except.ok (found :: others)) →
          (getOrCreateDestination destORM u config p db).2.2 =
              [HandlerCall.createDestination (createdDestination config p u)] ∧
            (getOrCreateDestination destORM u config p db).2.1 =
              (destORM.Create (createdDestination config p u) db).2 ∧
            (createdDestination config p u).Name = config.Name ∧
            (createdDestination config p u).DestType = config.Type_ ∧
            (createdDestination config p u).Config = config.Config ∧
            (createdDestination config p u).Version = config.Version ∧
            (createdDestination config p u).ProjectID = p ∧
            (∀ created,
              (destORM.Create (createdDestination config p u) db).1 = Except.ok created →
                (getOrCreateDestination destORM u config p db).1 = Except.ok created))) ∧
    (∀ (mdb : MemDB) (c1 c2 : JobSourceConfig) (u2 : Option Int),
      c1.Name = c2.Name → c1.Type_ = c2.Type_ →
      (mdb.sources.map (fun r => r.ID)).Nodup → (∀ r ∈ mdb.sources, r.ID < mdb.nextID) →
      (sourcesByKey mdb c1.Name c1.Type_ p).length ≤ 1 →
      ∃ row1 row2 : Source,
        (getOrCreateSource memSourceORM u c1 p mdb).1 = Except.ok row1 ∧
        (getOrCreateSource memSourceORM u2 c2 p
          (getOrCreateSource memSourceORM u c1 p mdb).2.1).1 = Except.ok row2 ∧
        row1.ID = row2.ID ∧
        sourcesByKey (getOrCreateSource memSourceORM u2 c2 p
          (getOrCreateSource memSourceORM u c1 p mdb).2.1).2.1 c1.Name c1.Type_ p = [row2] ∧
        row2.Config = c2.Config ∧ row2.Version = c2.Version) ∧
    (∀ (mdb : MemDB) (c1 c2 : JobDestinationConfig) (u2 : Option Int),
      c1.Name = c2.Name → c1.Type_ = c2.Type_ →
      (mdb.destinations.map (fun r => r.ID)).Nodup →
      (∀ r ∈ mdb.destinations, r.ID < mdb.nextID) →
      (destinationsByKey mdb c1.Name c1.Type_ p).length ≤ 1 →
      ∃ row1 row2 : Destination,
        (getOrCreateDestination memDestinationORM u c1 p mdb).1 = Except.ok row1 ∧
        (getOrCreateDestination memDestinationORM u2 c2 p
          (getOrCreateDestination memDestinationORM u c1 p mdb).2.1).1 = Except.ok row2 ∧
        row1.ID = row2.ID ∧
        destinationsByKey (getOrCreateDestination memDestinationORM u2 c2 p
          (getOrCreateDestination memDestinationORM u c1 p mdb).2.1).2.1 c1.Name c1.Type_ p =
            [row2] ∧
        row2.Config = c2.Config ∧ row2.Version = c2.Version) := by
  refine ⟨fun config => ⟨fun found others h => ?_, fun h => ?_⟩,
    fun config => ⟨fun found others h => ?_, fun h => ?_⟩,
    fun mdb c1 c2 u2 hn ht hids hfresh hkey =>
      mem_getOrCreateSource_twice u u2 c1 c2 p mdb hn ht hids hfresh hkey,
    fun mdb c1 c2 u2 hn ht hids hfresh hkey =>
      mem_getOrCreateDestination_twice u u2 c1 c2 p mdb hn ht hids hfresh hkey⟩
  · rw [getOrCreateSource_found sourceORM u config p db found others h]
    refine ⟨rfl, rfl, rfl, rfl, rfl, rfl, rfl, rfl, fun hok => ?_⟩
    simp only [hok]
  · rw [getOrCreateSource_missing sourceORM u config p db h]
    refine ⟨rfl, rfl, rfl, rfl, rfl, rfl, rfl, fun created hok => ?_⟩
    simp only [hok]
  · rw [getOrCreateDestination_found destORM u config p db found others h]
    refine ⟨rfl, rfl, rfl, rfl, rfl, rfl, rfl, rfl, fun hok => ?_⟩
    simp only [hok]
  · rw [getOrCreateDestination_missing destORM u config p db h]
    refine ⟨rfl, rfl, rfl, rfl, rfl, rfl, rfl, fun created hok => ?_⟩
    simp only [hok]

/-- Two jobs created on the empty database with the source `orders-db` of type
`postgres`, first with the config `host=a`, then with `host=b`: one source row,
with ID 1 and the config `host=b`, and both resolutions return ID 1. -/
theorem getOrCreate_natural_key_upsert_witness :
    ∃ row1 row2 : Source,
      (getOrCreateSource memSourceORM (some 3)
        { Name := "orders-db", Type_ := "postgres", Version := "v0.1.0", Config := "host=a" }
        "p" emptyDB).1 = Except.ok row1 ∧
      (getOrCreateSource memSourceORM (some 4)
        { Name := "orders-db", Type_ := "postgres", Version := "v0.2.0", Config := "host=b" } "p"
        (getOrCreateSource memSourceORM (some 3)
          { Name := "orders-db", Type_ := "postgres", Version := "v0.1.0", Config := "host=a" }
          "p" emptyDB).2.1).1 = Except.ok row2 ∧
      row1.ID = row2.ID ∧
      sourcesByKey (getOrCreateSource memSourceORM (some 4)
        { Name := "orders-db", Type_ := "postgres", Version := "v0.2.0", Config := "host=b" } "p"
        (getOrCreateSource memSourceORM (some 3)
          { Name := "orders-db", Type_ := "postgres", Version := "v0.1.0", Config := "host=a" }
          "p" emptyDB).2.1).2.1 "orders-db" "postgres" "p" = [row2] ∧
      row2.Config = "host=b" ∧ row2.Version = "v0.2.0" :=
  (getOrCreate_natural_key_upsert memSourceORM memDestinationORM (some 3) "p" emptyDB).2.2.1
    emptyDB
    { Name := "orders-db", Type_ := "postgres", Version := "v0.1.0", Config := "host=a" }
    { Name := "orders-db", Type_ := "postgres", Version := "v0.2.0", Config := "host=b" }
    (some 4) rfl rfl (by decide) (by decide) (by decide)

/-- C22, the run that breaks it: after `CreateSource` has answered the same
request twice, two rows with distinct IDs share the key. Two resolutions with that
key, first with the config `host=b`, then with `host=c`, both return row 1 and
leave two rows under the key: row 1 with `host=c` and row 2 with `host=a`. -/
theorem getOrCreateSource_duplicate_key_counterexample :
    (duplicateKeyDB.sources.map (fun r => r.ID)).Nodup ∧
    (∀ r ∈ duplicateKeyDB.sources, r.ID < duplicateKeyDB.nextID) ∧
    (sourcesByKey duplicateKeyDB "orders-db" "postgres" "p").map (fun r => (r.ID, r.Config)) =
      [(1, "host=a"), (2, "host=a")] ∧
    resolvedID (fun r => r.ID) (getOrCreateSource memSourceORM (some 3)
      { Name := "orders-db", Type_ := "postgres", Version := "v0.2.0", Config := "host=b" } "p"
      duplicateKeyDB).1 = some 1 ∧
    resolvedID (fun r => r.ID) (getOrCreateSource memSourceORM (some 3)
      { Name := "orders-db", Type_ := "postgres", Version := "v0.3.0", Config := "host=c" } "p"
      (getOrCreateSource memSourceORM (some 3)
        { Name := "orders-db", Type_ := "postgres", Version := "v0.2.0", Config := "host=b" } "p"
        duplicateKeyDB).2.1).1 = some 1 ∧
    (sourcesByKey (getOrCreateSource memSourceORM (some 3)
      { Name := "orders-db", Type_ := "postgres", Version := "v0.3.0", Config := "host=c" } "p"
      (getOrCreateSource memSourceORM (some 3)
        { Name := "orders-db", Type_ := "postgres", Version := "v0.2.0", Config := "host=b" } "p"
        duplicateKeyDB).2.1).2.1 "orders-db" "postgres" "p").map (fun r => (r.ID, r.Config)) =
      [(1, "host=c"), (2, "host=a")] := by
  decide

/-! ### Cancellation and the edits of source and destination rows -/

@[simp] theorem isCancel_cancel (job : Job) (p : String) :
    (HandlerCall.cancelJobWorkflow job p).isCancel = true := rfl

@[simp] theorem isCancel_createJob (row : Job) : (HandlerCall.createJob row).isCancel = false :=
  rfl

@[simp] theorem isCancel_updateJob (row : Job) : (HandlerCall.updateJob row).isCancel = false :=
  rfl

@[simp] theorem isCancel_manageSync (p : String) (j : Int) (f a : String) :
    (HandlerCall.manageSync p j f a).isCancel = false := rfl

@[simp] theorem isEdit_cancel (job : Job) (p : String) :
    (HandlerCall.cancelJobWorkflow job p).isEdit = false := rfl

@[simp] theorem isEdit_updateJob (row : Job) : (HandlerCall.updateJob row).isEdit = false := rfl

@[simp] theorem isEdit_manageSync (p : String) (j : Int) (f a : String) :
    (HandlerCall.manageSync p j f a).isEdit = false := rfl

theorem getOrCreateSource_calls {D : Type} (sourceORM : SourceORM D) (u : Option Int)
    (config : JobSourceConfig) (p : String) (db : D) :
    ∃ call, (getOrCreateSource sourceORM u config p db).2.2 = [call] ∧ call.isCancel = false := by
  by_cases h : ∃ found others,
      sourceORM.GetByNameAndType config.Name config.Type_ p db = Except.ok (found :: others)
  · obtain ⟨found, others, h⟩ := h
    rw [getOrCreateSource_found sourceORM u config p db found others h]
    exact ⟨_, rfl, rfl⟩
  · rw [getOrCreateSource_missing sourceORM u config p db
      (fun found others e => h ⟨found, others, e⟩)]
    exact ⟨_, rfl, rfl⟩

theorem getOrCreateDestination_calls {D : Type} (destORM : DestinationORM D) (u : Option Int)
    (config : JobDestinationConfig) (p : String) (db : D) :
    ∃ call, (getOrCreateDestination destORM u config p db).2.2 = [call] ∧
      call.isCancel = false := by
  by_cases h : ∃ found others,
      destORM.GetByNameAndType config.Name config.Type_ p db = Except.ok (found :: others)
  · obtain ⟨found, others, h⟩ := h
    rw [getOrCreateDestination_found destORM u config p db found others h]
    exact ⟨_, rfl, rfl⟩
  · rw [getOrCreateDestination_missing destORM u config p db
      (fun found others e => h ⟨found, others, e⟩)]
    exact ⟨_, rfl, rfl⟩

/-- The calls of `CreateJob`: the writes of the two helpers, then the creation of
the job and the call of `ManageSync`; no cancellation among them. -/
theorem CreateJob_no_cancel {D σ : Type} (tbl : Char → Char) (TaskQueue : String)
    (sourceORM : SourceORM D) (destORM : DestinationORM D) (jobORM : JobORM D)
    (tempClient : Option (ScheduleClient σ)) (u : Option Int) (p : String)
    (body : Option CreateJobRequest) (db : D) (engine : σ) :
    ∀ call ∈ (CreateJob tbl TaskQueue sourceORM destORM jobORM tempClient u p body db
      engine).calls, call.isCancel = false := by
  unfold CreateJob
  split
  · simp
  · rename_i req
    split
    · simp
    · simp
    · split
      · rename_i err db1 calls1 heq
        obtain ⟨c1, hc1, hn1⟩ := getOrCreateSource_calls sourceORM u req.Source p db
        rw [heq] at hc1
        simp only at hc1
        subst hc1
        simpa using hn1
      · rename_i source db1 calls1 heq
        obtain ⟨c1, hc1, hn1⟩ := getOrCreateSource_calls sourceORM u req.Source p db
        rw [heq] at hc1
        simp only at hc1
        subst hc1
        split
        · rename_i err db2 calls2 heq2
          obtain ⟨c2, hc2, hn2⟩ := getOrCreateDestination_calls destORM u req.Destination p db1
          rw [heq2] at hc2
          simp only at hc2
          subst hc2
          simp [hn1, hn2]
        · rename_i dest db2 calls2 heq2
          obtain ⟨c2, hc2, hn2⟩ := getOrCreateDestination_calls destORM u req.Destination p db1
          rw [heq2] at hc2
          simp only at hc2
          subst hc2
          split
          · simp [hn1, hn2]
          · split
            · simp [hn1, hn2]
            · simp [hn1, hn2]

/-- In the trace of `UpdateJob` no cancellation comes before a write over a source
or destination row: the helpers have written before the workflow of the edited
job is cancelled. -/
theorem UpdateJob_edits_first {D σ : Type} (tbl : Char → Char) (TaskQueue : String)
    (sourceORM : SourceORM D) (destORM : DestinationORM D) (jobORM : JobORM D)
    (cancel : Job → String → σ → Except String Unit × σ)
    (tempClient : Option (ScheduleClient σ)) (now : Nat) (u : Option Int) (p : String)
    (id : Int) (body : Option UpdateJobRequest) (db : D) (engine : σ) :
    cancelPrecedesEdit (UpdateJob tbl TaskQueue sourceORM destORM jobORM cancel tempClient now u
      p id body db engine).calls = false := by
  unfold UpdateJob
  split
  · rfl
  · rename_i req
    split
    · rfl
    · rename_i found hfound
      split
      · rename_i err db1 calls1 heq
        obtain ⟨c1, hc1, hn1⟩ := getOrCreateSource_calls sourceORM u req.Source p db
        rw [heq] at hc1
        simp only at hc1
        subst hc1
        simp [cancelPrecedesEdit, hn1]
      · rename_i source db1 calls1 heq
        obtain ⟨c1, hc1, hn1⟩ := getOrCreateSource_calls sourceORM u req.Source p db
        rw [heq] at hc1
        simp only at hc1
        subst hc1
        split
        · rename_i err db2 calls2 heq2
          obtain ⟨c2, hc2, hn2⟩ := getOrCreateDestination_calls destORM u req.Destination p db1
          rw [heq2] at hc2
          simp only at hc2
          subst hc2
          simp [cancelPrecedesEdit, hn1, hn2]
        · rename_i dest db2 calls2 heq2
          obtain ⟨c2, hc2, hn2⟩ := getOrCreateDestination_calls destORM u req.Destination p db1
          rw [heq2] at hc2
          simp only at hc2
          subst hc2
          simp only []
          split
          · simp [cancelPrecedesEdit, hn1, hn2]
          · split
            · simp [cancelPrecedesEdit, hn1, hn2]
            · split
              · simp [cancelPrecedesEdit, hn1, hn2]
              · simp [cancelPrecedesEdit, hn1, hn2]

theorem cancelWorkflows_calls {E : Type}
    (cancel : Job → String → E → Except String Unit × E) (projectID : String) :
    ∀ (jobs : List Job) (engine : E),
      ∀ call ∈ (cancelWorkflows cancel projectID jobs engine).2.2, call.isEdit = false := by
  intro jobs
  induction jobs with
  | nil => intro engine call h; simp [cancelWorkflows] at h
  | cons job rest ih =>
    intro engine call h
    unfold cancelWorkflows at h
    split at h
    · simp only [List.mem_singleton] at h
      subst h; rfl
    · rename_i u e1 heq
      simp only [List.mem_cons] at h
      rcases h with h | h
      · subst h; rfl
      · exact ih e1 call h

/-- A write of the source row by `UpdateSource` is the last call of the handler,
after the workflow of every linked job has been cancelled with success. -/
theorem UpdateSource_edit_after_cancels {D E : Type} (sourceORM : SourceORM D)
    (jobORM : JobORM D) (cancel : Job → String → E → Except String Unit × E) (now : Nat)
    (u : Option Int) (id : Int) (p : String) (body : Option UpdateSourceRequest) (db : D)
    (engine : E) (row : Source)
    (h : HandlerCall.updateSource row ∈
      (UpdateSource sourceORM jobORM cancel now u id p body db engine).calls) :
    ∃ found jobs, sourceORM.GetByID id db = Except.ok found ∧
      jobORM.GetBySourceID found.ID db = Except.ok jobs ∧
      (cancelWorkflows cancel p jobs engine).1 = none ∧
      (UpdateSource sourceORM jobORM cancel now u id p body db engine).calls =
        jobs.map (fun job => HandlerCall.cancelJobWorkflow job p) ++
          [HandlerCall.updateSource row] := by
  cases body with
  | none => simp [UpdateSource] at h
  | some req =>
    cases hget : sourceORM.GetByID id db with
    | error e => simp [UpdateSource, hget] at h
    | ok found =>
      cases hjobs : jobORM.GetBySourceID found.ID db with
      | error e =>
        simp [UpdateSource, hget] at h
        have hj3 : jobORM.GetBySourceID found.ID db = Except.error e := hjobs
        rw [hj3] at h
        simp at h
      | ok jobs =>
        rcases hloop : cancelWorkflows cancel p jobs engine with ⟨r, e1, cancels⟩
        have hedit : ∀ call ∈ cancels, call.isEdit = false := by
          have := cancelWorkflows_calls cancel p jobs engine
          rw [hloop] at this
          exact this
        cases r with
        | some err =>
          rw [UpdateSource_cancel_failed sourceORM jobORM cancel now u id p req db engine e1
            found jobs err cancels hget hjobs hloop] at h
          exact absurd (hedit _ h) (by simp [HandlerCall.isEdit])
        | none =>
          have hok := (UpdateSource_cancel_ok sourceORM jobORM cancel now u id p req db engine
            e1 found jobs cancels hget hjobs hloop).1
          rw [hok] at h ⊢
          have hc : cancels = jobs.map (fun job => HandlerCall.cancelJobWorkflow job p) := by
            have := cancelWorkflows_ok cancel p jobs engine (by rw [hloop])
            rw [hloop] at this
            exact this
          rcases List.mem_append.mp h with h1 | h1
          · exact absurd (hedit _ h1) (by simp [HandlerCall.isEdit])
          · simp only [List.mem_singleton, HandlerCall.updateSource.injEq] at h1
            refine ⟨found, jobs, rfl, hjobs, by rw [hloop], ?_⟩
            rw [hc, h1]

/-- A write of the destination row by `UpdateDestination` is the last call of the
handler, after the workflow of every linked job has been cancelled with
success. -/
theorem UpdateDestination_edit_after_cancels {D E : Type} (destORM : DestinationORM D)
    (jobORM : JobORM D) (cancel : Job → String → E → Except String Unit × E) (now : Nat)
    (u : Option Int) (id : Int) (p : String) (body : Option UpdateDestinationRequest) (db : D)
    (engine : E) (row : Destination)
    (h : HandlerCall.updateDestination row ∈
      (UpdateDestination destORM jobORM cancel now u id p body db engine).calls) :
    ∃ found jobs, destORM.GetByID id db = Except.ok found ∧
      jobORM.GetByDestinationID found.ID db = Except.ok jobs ∧
      (cancelWorkflows cancel p jobs engine).1 = none ∧
      (UpdateDestination destORM jobORM cancel now u id p body db engine).calls =
        jobs.map (fun job => HandlerCall.cancelJobWorkflow job p) ++
          [HandlerCall.updateDestination row] := by
  cases body with
  | none => simp [UpdateDestination] at h
  | some req =>
    cases hget : destORM.GetByID id db with
    | error e => simp [UpdateDestination, hget] at h
    | ok found =>
      cases hjobs : jobORM.GetByDestinationID found.ID db with
      | error e =>
        simp [UpdateDestination, hget] at h
        have hj3 : jobORM.GetByDestinationID found.ID db = Except.error e := hjobs
        rw [hj3] at h
        simp at h
      | ok jobs =>
        rcases hloop : cancelWorkflows cancel p jobs engine with ⟨r, e1, cancels⟩
        have hedit : ∀ call ∈ cancels, call.isEdit = false := by
          have := cancelWorkflows_calls cancel p jobs engine
          rw [hloop] at this
          exact this
        cases r with
        | some err =>
          rw [UpdateDestination_cancel_failed destORM jobORM cancel now u id p req db engine e1
            found jobs err cancels hget hjobs hloop] at h
          exact absurd (hedit _ h) (by simp [HandlerCall.isEdit])
        | none =>
          have hok := (UpdateDestination_cancel_ok destORM jobORM cancel now u id p req db engine
            e1 found jobs cancels hget hjobs hloop).1
          rw [hok] at h ⊢
          have hc : cancels = jobs.map (fun job => HandlerCall.cancelJobWorkflow job p) := by
            have := cancelWorkflows_ok cancel p jobs engine (by rw [hloop])
            rw [hloop] at this
            exact this
          rcases List.mem_append.mp h with h1 | h1
          · exact absurd (hedit _ h1) (by simp [HandlerCall.isEdit])
          · simp only [List.mem_singleton, HandlerCall.updateDestination.injEq] at h1
            refine ⟨found, jobs, rfl, hjobs, by rw [hloop], ?_⟩
            rw [hc, h1]

/-- Where the cancellations stand in the traces of the handlers that write over a
source or destination row. In `UpdateSource` and `UpdateDestination` the write of
the row is the last call, after one cancellation with success per linked job. The
in-place update of `getOrCreateSource` and `getOrCreateDestination` has no
cancellation before it: the helpers and `CreateJob` cancel no workflow, and in
`UpdateJob` no cancellation comes before a write over a source or destination
row. -/
theorem row_edits_and_cancellations {D σ : Type} (tbl : Char → Char) (TaskQueue : String)
    (sourceORM : SourceORM D) (destORM : DestinationORM D) (jobORM : JobORM D)
    (cancel : Job → String → σ → Except String Unit × σ)
    (tempClient : Option (ScheduleClient σ)) (now : Nat) (u : Option Int) (p : String)
    (id : Int) (db : D) (engine : σ) :
    (∀ (body : Option UpdateSourceRequest) (row : Source),
      HandlerCall.updateSource row ∈
        (UpdateSource sourceORM jobORM cancel now u id p body db engine).calls →
      ∃ found jobs, sourceORM.GetByID id db = Except.ok found ∧
        jobORM.GetBySourceID found.ID db = Except.ok jobs ∧
        (cancelWorkflows cancel p jobs engine).1 = none ∧
        (UpdateSource sourceORM jobORM cancel now u id p body db engine).calls =
          jobs.map (fun job => HandlerCall.cancelJobWorkflow job p) ++
            [HandlerCall.updateSource row]) ∧
    (∀ (body : Option UpdateDestinationRequest) (row : Destination),
      HandlerCall.updateDestination row ∈
        (UpdateDestination destORM jobORM cancel now u id p body db engine).calls →
      ∃ found jobs, destORM.GetByID id db = Except.ok found ∧
        jobORM.GetByDestinationID found.ID db = Except.ok jobs ∧
        (cancelWorkflows cancel p jobs engine).1 = none ∧
        (UpdateDestination destORM jobORM cancel now u id p body db engine).calls =
          jobs.map (fun job => HandlerCall.cancelJobWorkflow job p) ++
            [HandlerCall.updateDestination row]) ∧
    (∀ config : JobSourceConfig,
      ∀ call ∈ (getOrCreateSource sourceORM u config p db).2.2, call.isCancel = false) ∧
    (∀ config : JobDestinationConfig,
      ∀ call ∈ (getOrCreateDestination destORM u config p db).2.2, call.isCancel = false) ∧
    (∀ body : Option CreateJobRequest,
      ∀ call ∈ (CreateJob tbl TaskQueue sourceORM destORM jobORM tempClient u p body db
        engine).calls, call.isCancel = false) ∧
    (∀ body : Option UpdateJobRequest,
      cancelPrecedesEdit (UpdateJob tbl TaskQueue sourceORM destORM jobORM cancel tempClient now
        u p id body db engine).calls = false) := by
  refine ⟨fun body row h => UpdateSource_edit_after_cancels sourceORM jobORM cancel now u id p
      body db engine row h,
    fun body row h => UpdateDestination_edit_after_cancels destORM jobORM cancel now u id p
      body db engine row h,
    fun config call hc => ?_, fun config call hc => ?_,
    fun body => CreateJob_no_cancel tbl TaskQueue sourceORM destORM jobORM tempClient u p body
      db engine,
    fun body => UpdateJob_edits_first tbl TaskQueue sourceORM destORM jobORM cancel tempClient
      now u p id body db engine⟩
  · obtain ⟨c, hcalls, hn⟩ := getOrCreateSource_calls sourceORM u config p db
    rw [hcalls] at hc
    simp only [List.mem_singleton] at hc
    rw [hc]; exact hn
  · obtain ⟨c, hcalls, hn⟩ := getOrCreateDestination_calls destORM u config p db
    rw [hcalls] at hc
    simp only [List.mem_singleton] at hc
    rw [hc]; exact hn

/-- C27, the run that breaks it: an edit of a source row linked to jobs is
committed with no workflow cancelled before it. The source `orders-db` of the
sample database is linked to the jobs 41 and 42; `CreateJob` with a descriptor of
that source and the config `host=b` writes the new config over the row, reports
success, and no workflow is cancelled in the whole run. -/
theorem CreateJob_edits_without_cancel :
    (sampleDB.jobs.filter
      (fun r => r.SourceID.map (fun s => s.ID) = some 1)).map (fun r => r.ID) = [41, 42] ∧
    sampleDB.sources.map (fun r => (r.ID, r.Config)) = [(1, "host=a")] ∧
    (CreateJob id "OLAKE_DOCKER_TASK_QUEUE" memSourceORM memDestinationORM memJobORM
      (some (storeClient (fun _ => true))) (some 3) "p"
      (some (sampleCreateJobRequest "weekly" "5-minutes")) sampleDB
      Store.empty).db.sources.map (fun r => (r.ID, r.Config)) = [(1, "host=b")] ∧
    (CreateJob id "OLAKE_DOCKER_TASK_QUEUE" memSourceORM memDestinationORM memJobORM
      (some (storeClient (fun _ => true))) (some 3) "p"
      (some (sampleCreateJobRequest "weekly" "5-minutes")) sampleDB
      Store.empty).calls.map (fun c => (c.isEdit, c.isCancel)) =
        [(true, false), (true, false), (false, false), (false, false)] ∧
    (CreateJob id "OLAKE_DOCKER_TASK_QUEUE" memSourceORM memDestinationORM memJobORM
      (some (storeClient (fun _ => true))) (some 3) "p"
      (some (sampleCreateJobRequest "weekly" "5-minutes")) sampleDB
      Store.empty).responses.map (fun r => (r.status, r.message)) = [(200, "success")] := by
  refine ⟨by decide, by decide, by decide, by decide, by decide⟩

/-! ### Job rows and schedules -/

/-- A create on a store without the schedule: it either leaves the schedule and
succeeds, or fails and leaves the store as it was. -/
theorem store_create_outcome (tbl : Char → Char) (TaskQueue : String)
    (accepts : ScheduleSpec → Bool) (st : Store) (projectID : String) (jobID : Int)
    (frequency : String) (hnone : st (scheduleID projectID jobID) = none) :
    (∃ payload s,
      (ManageSync tbl TaskQueue (storeClient accepts) st projectID jobID frequency
        ActionCreate).result = Except.ok payload ∧
      (ManageSync tbl TaskQueue (storeClient accepts) st projectID jobID frequency
        ActionCreate).engine = st.set (scheduleID projectID jobID) (some s)) ∨
    (∃ err,
      (ManageSync tbl TaskQueue (storeClient accepts) st projectID jobID frequency
        ActionCreate).result = Except.error err ∧
      (ManageSync tbl TaskQueue (storeClient accepts) st projectID jobID frequency
        ActionCreate).engine = st) := by
  by_cases hf : frequency = ""
  · subst hf
    right
    rw [ManageSync_create_empty, store_Describe_state]
    exact ⟨_, rfl, rfl⟩
  · by_cases hacc : accepts { CronExpressions := [ToCron tbl frequency] } = true
    · left
      rw [store_create_run tbl TaskQueue accepts st projectID jobID frequency hf hnone hacc]
      exact ⟨_, _, rfl, rfl⟩
    · right
      have hacc2 : accepts { CronExpressions := [ToCron tbl frequency] } = false := by
        simpa using hacc
      have hd := store_Describe_none accepts st _ hnone
      rw [ManageSync_create_missing tbl TaskQueue _ st projectID jobID frequency
        "schedule not found" hf (by rw [hd])]
      rw [hd]
      simp [createSchedule, storeClient, hnone, hacc2]

/-- A delete on a store that holds the schedule removes it. -/
theorem store_delete_run (tbl : Char → Char) (TaskQueue : String)
    (accepts : ScheduleSpec → Bool) (st : Store) (projectID : String) (jobID : Int)
    (frequency : String) (s : Schedule) (hs : st (scheduleID projectID jobID) = some s) :
    ManageSync tbl TaskQueue (storeClient accepts) st projectID jobID frequency ActionDelete =
      { result := Except.ok [("message", "Schedule deleted successfully")]
        engine := st.set (scheduleID projectID jobID) none
        calls := [GatewayCall.describe (scheduleID projectID jobID),
          GatewayCall.delete (scheduleID projectID jobID)] } := by
  have hd := store_Describe_some accepts st _ s hs
  rw [ManageSync_delete_present tbl TaskQueue _ st projectID jobID frequency ⟨s⟩
    (by rw [hd]) (by rw [hd, store_Delete_some accepts st _ s hs])]
  rw [hd, store_Delete_some accepts st _ s hs]

theorem scheduleExists_set_some (st : Store) (p : String) (n j : Int) (s : Schedule) :
    scheduleExists (st.set (scheduleID p n) (some s)) p j ↔ j = n ∨ scheduleExists st p j := by
  unfold scheduleExists Store.set
  by_cases h : j = n
  · subst h; simp
  · have hne : scheduleID p j ≠ scheduleID p n := fun e => h (scheduleID_job_injective p j n e)
    simp [h, hne]

theorem scheduleExists_set_none (st : Store) (p : String) (n j : Int) :
    scheduleExists (st.set (scheduleID p n) none) p j ↔ j ≠ n ∧ scheduleExists st p j := by
  unfold scheduleExists Store.set
  by_cases h : j = n
  · subst h; simp
  · have hne : scheduleID p j ≠ scheduleID p n := fun e => h (scheduleID_job_injective p j n e)
    simp [h, hne]

/-- On the tables in memory `getOrCreateSource` returns a row and leaves the job
table alone. -/
theorem mem_getOrCreateSource_total (u : Option Int) (config : JobSourceConfig) (p : String)
    (db : MemDB) :
    ∃ source db1 calls,
      getOrCreateSource memSourceORM u config p db = (Except.ok source, db1, calls) ∧
      db1.jobs = db.jobs ∧ db.nextID ≤ db1.nextID := by
  cases h : sourcesByKey db config.Name config.Type_ p with
  | nil =>
    rw [mem_getOrCreateSource_missing u config p db h]
    exact ⟨_, _, _, rfl, rfl, by simp⟩
  | cons found others =>
    rw [mem_getOrCreateSource_found u config p db found others h]
    exact ⟨_, _, _, rfl, rfl, by simp⟩

/-- On the tables in memory `getOrCreateDestination` returns a row and leaves the
job table alone. -/
theorem mem_getOrCreateDestination_total (u : Option Int) (config : JobDestinationConfig)
    (p : String) (db : MemDB) :
    ∃ dest db1 calls,
      getOrCreateDestination memDestinationORM u config p db = (Except.ok dest, db1, calls) ∧
      db1.jobs = db.jobs ∧ db.nextID ≤ db1.nextID := by
  cases h : destinationsByKey db config.Name config.Type_ p with
  | nil =>
    rw [mem_getOrCreateDestination_missing u config p db h]
    exact ⟨_, _, _, rfl, rfl, by simp⟩
  | cons found others =>
    rw [mem_getOrCreateDestination_found u config p db found others h]
    exact ⟨_, _, _, rfl, rfl, by simp⟩

/-- `CreateJob` on the tables in memory, the name not yet used in the project: the
job row is written with the next ID and `ManageSync` is asked to create its
schedule. -/
theorem mem_CreateJob_run (tbl : Char → Char) (TaskQueue : String)
    (accepts : ScheduleSpec → Bool) (u : Option Int) (p : String) (req : CreateJobRequest)
    (db : MemDB) (st : Store)
    (hunique : db.jobs.any (fun r => r.ProjectID = p ∧ r.Name = req.Name) = false) :
    ∃ (source : Source) (dest : Destination) (db2 : MemDB) (calls : List HandlerCall),
      db2.jobs = db.jobs ∧ db.nextID ≤ db2.nextID ∧
      CreateJob tbl TaskQueue memSourceORM memDestinationORM memJobORM
          (some (storeClient accepts)) u p (some req) db st =
        { responses :=
            match (ManageSync tbl TaskQueue (storeClient accepts) st p db2.nextID req.Frequency
              ActionCreate).result with
            | Except.error err =>
              [ErrorResponse 500
                ("Temporal workflow execution failed for create job schedule: " ++ err),
               SuccessResponse req]
            | Except.ok _ => [SuccessResponse req]
          db := { db2 with
                  jobs := db2.jobs ++ [{ newJob req source dest p u with ID := db2.nextID }]
                  nextID := db2.nextID + 1 }
          engine := (ManageSync tbl TaskQueue (storeClient accepts) st p db2.nextID req.Frequency
            ActionCreate).engine
          calls := calls ++
            [HandlerCall.createJob (newJob req source dest p u),
             HandlerCall.manageSync p db2.nextID req.Frequency ActionCreate] } := by
  obtain ⟨source, db1, calls1, h1, hj1, hn1⟩ := mem_getOrCreateSource_total u req.Source p db
  obtain ⟨dest, db2, calls2, h2, hj2, hn2⟩ :=
    mem_getOrCreateDestination_total u req.Destination p db1
  refine ⟨source, dest, db2, calls1 ++ calls2, by rw [hj2, hj1], by omega, ?_⟩
  have hu : memJobORM.IsJobNameUnique p req.Name db = Except.ok true := by
    show Except.ok (!(db.jobs.any (fun r => decide (r.ProjectID = p ∧ r.Name = req.Name)))) = _
    rw [hunique]
    rfl
  have hc : memJobORM.Create (newJob req source dest p u) db2 =
      (Except.ok { newJob req source dest p u with ID := db2.nextID },
        { db2 with
          jobs := db2.jobs ++ [{ newJob req source dest p u with ID := db2.nextID }]
          nextID := db2.nextID + 1 }) := rfl
  unfold CreateJob
  simp only [hu, h1, h2, hc]
  rfl

/-- `CreateJob` on the tables in memory with a name already used in the project. -/
theorem mem_CreateJob_taken (tbl : Char → Char) (TaskQueue : String)
    (accepts : ScheduleSpec → Bool) (u : Option Int) (p : String) (req : CreateJobRequest)
    (db : MemDB) (st : Store)
    (htaken : db.jobs.any (fun r => r.ProjectID = p ∧ r.Name = req.Name) = true) :
    CreateJob tbl TaskQueue memSourceORM memDestinationORM memJobORM
        (some (storeClient accepts)) u p (some req) db st =
      { responses := [ErrorResponse 400 "Job name already exists"], db := db, engine := st
        calls := [] } := by
  have hu : memJobORM.IsJobNameUnique p req.Name db = Except.ok false := by
    show Except.ok (!(db.jobs.any (fun r => decide (r.ProjectID = p ∧ r.Name = req.Name)))) = _
    rw [htaken]
    rfl
  unfold CreateJob
  simp only [hu]

theorem mem_GetByID_job (id : Int) (db : MemDB) (job : Job)
    (h : memJobORM.GetByID id db = Except.ok job) : job ∈ db.jobs ∧ job.ID = id := by
  have h2 : (match db.jobs.find? (fun r => decide (r.ID = id)) with
      | some r => Except.ok r
      | none => (Except.error "no row found" : Except String Job)) = Except.ok job := h
  cases hf : db.jobs.find? (fun r => decide (r.ID = id)) with
  | none => rw [hf] at h2; cases h2
  | some r =>
    rw [hf] at h2
    have e : r = job := Except.ok.inj h2
    subst e
    exact ⟨List.mem_of_find?_eq_some hf, by simpa using List.find?_some hf⟩

/-- `DeleteJob` on the tables in memory and the store, for a job whose schedule is
held and whose workflow is cancelled with success. -/
theorem mem_DeleteJob_run (tbl : Char → Char) (TaskQueue : String)
    (accepts : ScheduleSpec → Bool)
    (cancel : Job → String → Store → Except String Unit × Store) (idStr : String) (id : Int)
    (db : MemDB) (st : Store) (job : Job) (s : Schedule)
    (hid : Atoi idStr = some id) (hget : memJobORM.GetByID id db = Except.ok job)
    (hcancel : cancel job job.ProjectID st = (Except.ok (), st))
    (hs : st (scheduleID job.ProjectID job.ID) = some s) :
    DeleteJob tbl TaskQueue memJobORM cancel (some (storeClient accepts)) idStr db st =
      { responses := [SuccessResponse { Name := job.Name }]
        db := { db with jobs := db.jobs.filter (fun r => r.ID ≠ id) }
        engine := st.set (scheduleID job.ProjectID job.ID) none
        calls := [HandlerCall.cancelJobWorkflow job job.ProjectID,
          HandlerCall.manageSync job.ProjectID job.ID job.Frequency ActionDelete,
          HandlerCall.deleteJob id] } := by
  obtain ⟨hmem, hjid⟩ := mem_GetByID_job id db job hget
  have hany : db.jobs.any (fun r => decide (r.ID = id)) = true :=
    List.any_eq_true.mpr ⟨job, hmem, by simpa using hjid⟩
  have hdel : memJobORM.Delete id db =
      (Except.ok (), { db with jobs := db.jobs.filter (fun r => r.ID ≠ id) }) := by
    show (if db.jobs.any (fun r => decide (r.ID = id)) = true then _ else _) = _
    rw [if_pos hany]
  unfold DeleteJob
  simp only [hid, hget, hcancel,
    store_delete_run tbl TaskQueue accepts st job.ProjectID job.ID job.Frequency s hs, hdel]
  rfl

/-- `DeleteJob` when the cancellation of the workflow fails. -/
theorem DeleteJob_cancel_failed {D σ : Type} (tbl : Char → Char) (TaskQueue : String)
    (jobORM : JobORM D) (cancel : Job → String → σ → Except String Unit × σ)
    (tempClient : Option (ScheduleClient σ)) (idStr : String) (id : Int) (db : D) (st e1 : σ)
    (job : Job) (err : String)
    (hid : Atoi idStr = some id) (hget : jobORM.GetByID id db = Except.ok job)
    (hcancel : cancel job job.ProjectID st = (Except.error err, e1)) :
    DeleteJob tbl TaskQueue jobORM cancel tempClient idStr db st =
      { responses := [ErrorResponse 500 ("Failed to cancel workflow for job " ++ err)]
        db := db, engine := e1, calls := [HandlerCall.cancelJobWorkflow job job.ProjectID] } := by
  unfold DeleteJob
  simp only [hid, hget, hcancel]

theorem DeleteJob_invalid_id {D σ : Type} (tbl : Char → Char) (TaskQueue : String)
    (jobORM : JobORM D) (cancel : Job → String → σ → Except String Unit × σ)
    (tempClient : Option (ScheduleClient σ)) (idStr : String) (db : D) (st : σ)
    (hid : Atoi idStr = none) :
    DeleteJob tbl TaskQueue jobORM cancel tempClient idStr db st =
      { responses := [ErrorResponse 400 "Invalid job ID"], db := db, engine := st
        calls := [] } := by
  unfold DeleteJob
  simp only [hid]

theorem DeleteJob_not_found {D σ : Type} (tbl : Char → Char) (TaskQueue : String)
    (jobORM : JobORM D) (cancel : Job → String → σ → Except String Unit × σ)
    (tempClient : Option (ScheduleClient σ)) (idStr : String) (id : Int) (db : D) (st : σ)
    (err : String) (hid : Atoi idStr = some id)
    (hget : jobORM.GetByID id db = Except.error err) :
    DeleteJob tbl TaskQueue jobORM cancel tempClient idStr db st =
      { responses := [ErrorResponse 404 "Job not found"], db := db, engine := st
        calls := [] } := by
  unfold DeleteJob
  simp only [hid, hget]

theorem jobExists_append (db : MemDB) (row : Job) (p : String) (j : Int) (n : Int) :
    jobExists { db with jobs := db.jobs ++ [row], nextID := n } p j ↔
      jobExists db p j ∨ (row.ProjectID = p ∧ row.ID = j) := by
  unfold jobExists
  simp only [List.mem_append, List.mem_singleton]
  constructor
  · rintro ⟨r, hr | hr, h1, h2⟩
    · exact Or.inl ⟨r, hr, h1, h2⟩
    · subst hr; exact Or.inr ⟨h1, h2⟩
  · rintro (⟨r, hr, h1, h2⟩ | ⟨h1, h2⟩)
    · exact ⟨r, Or.inl hr, h1, h2⟩
    · exact ⟨row, Or.inr rfl, h1, h2⟩

theorem jobExists_filter (db : MemDB) (id : Int) (p : String) (j : Int) :
    jobExists { db with jobs := db.jobs.filter (fun r => r.ID ≠ id) } p j ↔
      j ≠ id ∧ jobExists db p j := by
  unfold jobExists
  simp only [List.mem_filter, decide_eq_true_eq]
  constructor
  · rintro ⟨r, ⟨hr, hne⟩, h1, h2⟩
    exact ⟨by rw [← h2]; exact hne, r, hr, h1, h2⟩
  · rintro ⟨hne, r, hr, h1, h2⟩
    exact ⟨r, ⟨hr, by rw [h2]; exact hne⟩, h1, h2⟩

/-! ### Job rows and schedules on every plain persistence layer -/

theorem jobExists_congr (db1 db : MemDB) (h : db1.jobs = db.jobs) (p : String) (j : Int) :
    jobExists db1 p j ↔ jobExists db p j := by
  unfold jobExists
  rw [h]

theorem getOrCreateSource_frame (sourceORM : SourceORM MemDB) (h : SourceTableApart sourceORM)
    (u : Option Int) (config : JobSourceConfig) (p : String) (db : MemDB) :
    (getOrCreateSource sourceORM u config p db).2.1.jobs = db.jobs ∧
      db.nextID ≤ (getOrCreateSource sourceORM u config p db).2.1.nextID := by
  by_cases hf : ∃ found others,
      sourceORM.GetByNameAndType config.Name config.Type_ p db = Except.ok (found :: others)
  · obtain ⟨found, others, hf⟩ := hf
    rw [getOrCreateSource_found sourceORM u config p db found others hf]
    exact (h _ db).1
  · rw [getOrCreateSource_missing sourceORM u config p db
      (fun found others e => hf ⟨found, others, e⟩)]
    exact (h _ db).2

theorem getOrCreateDestination_frame (destORM : DestinationORM MemDB)
    (h : DestinationTableApart destORM) (u : Option Int) (config : JobDestinationConfig)
    (p : String) (db : MemDB) :
    (getOrCreateDestination destORM u config p db).2.1.jobs = db.jobs ∧
      db.nextID ≤ (getOrCreateDestination destORM u config p db).2.1.nextID := by
  by_cases hf : ∃ found others,
      destORM.GetByNameAndType config.Name config.Type_ p db = Except.ok (found :: others)
  · obtain ⟨found, others, hf⟩ := hf
    rw [getOrCreateDestination_found destORM u config p db found others hf]
    exact (h _ db).1
  · rw [getOrCreateDestination_missing destORM u config p db
      (fun found others e => hf ⟨found, others, e⟩)]
    exact (h _ db).2

theorem mem_PlainJobTable : PlainJobTable memJobORM := by
  refine ⟨fun id db job h => mem_GetByID_job id db job h, fun row db => Or.inl rfl,
    fun id db => ?_⟩
  by_cases hany : db.jobs.any (fun r => decide (r.ID = id)) = true
  · left
    show (if db.jobs.any (fun r => decide (r.ID = id)) = true then _ else _) = _
    rw [if_pos hany]
  · right
    refine ⟨"no row found", ?_⟩
    show (if db.jobs.any (fun r => decide (r.ID = id)) = true then _ else _) = _
    rw [if_neg hany]

theorem failingDelete_PlainJobTable : PlainJobTable failingDeleteJobORM :=
  ⟨fun id db job h => mem_GetByID_job id db job h, fun _ _ => Or.inl rfl,
    fun _ _ => Or.inr ⟨"connection refused", rfl⟩⟩

theorem mem_SourceTableApart : SourceTableApart memSourceORM := by
  intro row db
  refine ⟨?_, ⟨rfl, by show db.nextID ≤ db.nextID + 1; omega⟩⟩
  by_cases hany : db.sources.any (fun r => decide (r.ID = row.ID)) = true
  · have e : memSourceORM.Update row db =
        (Except.ok (),
          { db with sources := db.sources.map (fun r => if r.ID = row.ID then row else r) }) := by
      show (if db.sources.any (fun r => decide (r.ID = row.ID)) = true then _ else _) = _
      rw [if_pos hany]
    rw [e]
    exact ⟨rfl, Int.le_refl _⟩
  · have e : memSourceORM.Update row db = (Except.error "no row found", db) := by
      show (if db.sources.any (fun r => decide (r.ID = row.ID)) = true then _ else _) = _
      rw [if_neg hany]
    rw [e]
    exact ⟨rfl, Int.le_refl _⟩

theorem mem_DestinationTableApart : DestinationTableApart memDestinationORM := by
  intro row db
  refine ⟨?_, ⟨rfl, by show db.nextID ≤ db.nextID + 1; omega⟩⟩
  by_cases hany : db.destinations.any (fun r => decide (r.ID = row.ID)) = true
  · have e : memDestinationORM.Update row db =
        (Except.ok (),
          { db with
            destinations := db.destinations.map (fun r => if r.ID = row.ID then row else r) }) := by
      show (if db.destinations.any (fun r => decide (r.ID = row.ID)) = true then _ else _) = _
      rw [if_pos hany]
    rw [e]
    exact ⟨rfl, Int.le_refl _⟩
  · have e : memDestinationORM.Update row db = (Except.error "no row found", db) := by
      show (if db.destinations.any (fun r => decide (r.ID = row.ID)) = true then _ else _) = _
      rw [if_neg hany]
    rw [e]
    exact ⟨rfl, Int.le_refl _⟩

theorem store_StoreEngine (accepts : ScheduleSpec → Bool) :
    StoreEngine accepts (storeClient accepts) :=
  ⟨fun _ _ => Or.inl rfl, fun _ _ => Or.inl rfl, fun _ _ => Or.inl rfl⟩

theorem failingDelete_StoreEngine (accepts : ScheduleSpec → Bool) :
    StoreEngine accepts (failingDeleteClient accepts) :=
  ⟨fun _ _ => Or.inl rfl, fun _ _ => Or.inl rfl, fun _ _ => Or.inr ⟨_, rfl⟩⟩

/-- A describe of a schedule the store does not hold fails and changes nothing. -/
theorem engine_Describe_none (accepts : ScheduleSpec → Bool) (c : ScheduleClient Store)
    (hc : StoreEngine accepts c) (st : Store) (id : String) (h : st id = none) :
    ∃ err, c.Describe id st = (Except.error err, st) := by
  rcases hc.1 id st with e | ⟨err, e⟩
  · exact ⟨_, by rw [e, store_Describe_none accepts st id h]⟩
  · exact ⟨err, e⟩

/-- A create of the schedule of a job the store does not hold: either the schedule
is there afterwards and a payload is returned, or an error is returned and the
store is as it was. -/
theorem engine_create_outcome (tbl : Char → Char) (TaskQueue : String)
    (accepts : ScheduleSpec → Bool) (c : ScheduleClient Store) (hc : StoreEngine accepts c)
    (st : Store) (projectID : String) (jobID : Int) (frequency : String)
    (hnone : st (scheduleID projectID jobID) = none) :
    (∃ payload s,
      (ManageSync tbl TaskQueue c st projectID jobID frequency ActionCreate).result =
        Except.ok payload ∧
      (ManageSync tbl TaskQueue c st projectID jobID frequency ActionCreate).engine =
        st.set (scheduleID projectID jobID) (some s)) ∨
    (∃ err,
      (ManageSync tbl TaskQueue c st projectID jobID frequency ActionCreate).result =
        Except.error err ∧
      (ManageSync tbl TaskQueue c st projectID jobID frequency ActionCreate).engine = st) := by
  obtain ⟨derr, hd⟩ := engine_Describe_none accepts c hc st _ hnone
  by_cases hf : frequency = ""
  · subst hf
    right
    rw [ManageSync_create_empty, hd]
    exact ⟨_, rfl, rfl⟩
  · rw [ManageSync_create_missing tbl TaskQueue c st projectID jobID frequency derr hf
      (by rw [hd])]
    rw [hd]
    unfold createSchedule
    simp only []
    rcases hc.2.1
      { ID := scheduleID projectID jobID
        Spec := { CronExpressions := [ToCron tbl frequency] }
        Action :=
          { ID := workflowID projectID jobID, Workflow := RunSyncWorkflow, Args := [jobID]
            TaskQueue := TaskQueue }
        Overlap := ScheduleOverlapPolicy.SKIP } st with e | ⟨err, e⟩
    · rw [e]
      by_cases hacc : accepts { CronExpressions := [ToCron tbl frequency] } = true
      · left
        simp only [storeClient, hnone, hacc, if_true]
        exact ⟨_, _, rfl, rfl⟩
      · right
        have hacc2 : accepts { CronExpressions := [ToCron tbl frequency] } = false := by
          simpa using hacc
        simp only [storeClient, hnone, hacc2]
        exact ⟨_, rfl, rfl⟩
    · right
      rw [e]
      exact ⟨_, rfl, rfl⟩

/-- A delete of the schedule of a job the store holds: either the schedule is gone
afterwards and the payload is returned, or an error is returned and the store is
as it was. -/
theorem engine_delete_outcome (tbl : Char → Char) (TaskQueue : String)
    (accepts : ScheduleSpec → Bool) (c : ScheduleClient Store) (hc : StoreEngine accepts c)
    (st : Store) (projectID : String) (jobID : Int) (frequency : String) (s : Schedule)
    (hs : st (scheduleID projectID jobID) = some s) :
    ((ManageSync tbl TaskQueue c st projectID jobID frequency ActionDelete).result =
        Except.ok [("message", "Schedule deleted successfully")] ∧
      (ManageSync tbl TaskQueue c st projectID jobID frequency ActionDelete).engine =
        st.set (scheduleID projectID jobID) none) ∨
    (∃ err,
      (ManageSync tbl TaskQueue c st projectID jobID frequency ActionDelete).result =
        Except.error err ∧
      (ManageSync tbl TaskQueue c st projectID jobID frequency ActionDelete).engine = st) := by
  rcases hc.1 (scheduleID projectID jobID) st with hd | ⟨derr, hd⟩
  · rw [store_Describe_some accepts st _ s hs] at hd
    rcases hc.2.2 (scheduleID projectID jobID) st with hx | ⟨xerr, hx⟩
    · rw [store_Delete_some accepts st _ s hs] at hx
      left
      rw [ManageSync_delete_present tbl TaskQueue c st projectID jobID frequency ⟨s⟩
        (by rw [hd]) (by rw [hd, hx])]
      rw [hd, hx]
      exact ⟨rfl, rfl⟩
    · right
      refine ⟨"failed to delete schedule: " ++ xerr, ?_, ?_⟩
      · unfold ManageSync dispatch
        simp [hd, hx, ActionDelete, ActionCreate, ActionUpdate]
      · unfold ManageSync dispatch
        simp [hd, hx, ActionDelete, ActionCreate, ActionUpdate]
  · right
    rw [ManageSync_missing tbl TaskQueue c st projectID jobID frequency ActionDelete derr
      (by decide) (by rw [hd])]
    rw [hd]
    exact ⟨_, rfl, rfl⟩

/-- `CreateJob` on a plain persistence layer and the store of schedules. -/
theorem CreateJob_correspondence (tbl : Char → Char) (TaskQueue : String)
    (accepts : ScheduleSpec → Bool) (c : ScheduleClient Store) (sourceORM : SourceORM MemDB)
    (destORM : DestinationORM MemDB) (jobORM : JobORM MemDB) (u : Option Int) (p : String)
    (db : MemDB) (st : Store) (body : Option CreateJobRequest)
    (hsrc : SourceTableApart sourceORM) (hdst : DestinationTableApart destORM)
    (hjob : PlainJobTable jobORM) (heng : StoreEngine accepts c) (hfresh : ∀ r ∈ db.jobs, r.ID < db.nextID)
    (hinv : ∀ j, jobExists db p j ↔ scheduleExists st p j) :
    ((∀ j,
        jobExists (CreateJob tbl TaskQueue sourceORM destORM jobORM
          (some c) u p body db st).db p j ↔
        scheduleExists (CreateJob tbl TaskQueue sourceORM destORM jobORM
          (some c) u p body db st).engine p j) ∧
      (CreateJob tbl TaskQueue sourceORM destORM jobORM (some c) u p body
        db st).responses.length = 1) ∨
    (∃ req err j, body = some req ∧
      (CreateJob tbl TaskQueue sourceORM destORM jobORM (some c) u p body
        db st).responses =
        [ErrorResponse 500
          ("Temporal workflow execution failed for create job schedule: " ++ err),
         SuccessResponse req] ∧
      jobExists (CreateJob tbl TaskQueue sourceORM destORM jobORM (some c)
        u p body db st).db p j ∧
      ¬ scheduleExists (CreateJob tbl TaskQueue sourceORM destORM jobORM
        (some c) u p body db st).engine p j) := by
  cases body with
  | none => exact Or.inl ⟨hinv, rfl⟩
  | some req =>
    cases hu : jobORM.IsJobNameUnique p req.Name db with
    | error e =>
      left
      unfold CreateJob
      simp only [hu]
      exact ⟨hinv, rfl⟩
    | ok b =>
      cases b with
      | false =>
        left
        unfold CreateJob
        simp only [hu]
        exact ⟨hinv, rfl⟩
      | true =>
        have hf1 := getOrCreateSource_frame sourceORM hsrc u req.Source p db
        rcases h1 : getOrCreateSource sourceORM u req.Source p db with ⟨r1, db1, calls1⟩
        rw [h1] at hf1
        simp only at hf1
        cases r1 with
        | error e =>
          left
          unfold CreateJob
          simp only [hu, h1]
          exact ⟨fun j => (jobExists_congr db1 db hf1.1 p j).trans (hinv j), rfl⟩
        | ok source =>
          have hf2 := getOrCreateDestination_frame destORM hdst u req.Destination p db1
          rcases h2 : getOrCreateDestination destORM u req.Destination p db1 with
            ⟨r2, db2, calls2⟩
          rw [h2] at hf2
          simp only at hf2
          have hj2 : db2.jobs = db.jobs := by rw [hf2.1, hf1.1]
          have hn2 : db.nextID ≤ db2.nextID := by omega
          cases r2 with
          | error e =>
            left
            unfold CreateJob
            simp only [hu, h1, h2]
            exact ⟨fun j => (jobExists_congr db2 db hj2 p j).trans (hinv j), rfl⟩
          | ok dest =>
            rcases hjob.2.1 (newJob req source dest p u) db2 with hc | ⟨err, hc⟩
            · have hc2 : jobORM.Create (newJob req source dest p u) db2 =
                  (Except.ok { newJob req source dest p u with ID := db2.nextID },
                    { db2 with
                      jobs := db2.jobs ++ [{ newJob req source dest p u with ID := db2.nextID }]
                      nextID := db2.nextID + 1 }) := by
                rw [hc]; rfl
              have hnew : ¬ jobExists db p db2.nextID := by
                rintro ⟨r, hr, -, hid⟩
                have := hfresh r hr
                omega
              have hnone : st (scheduleID p db2.nextID) = none := by
                have hx : ¬ scheduleExists st p db2.nextID := fun h => hnew ((hinv _).mpr h)
                unfold scheduleExists at hx
                cases hs : st (scheduleID p db2.nextID) with
                | none => rfl
                | some s => rw [hs] at hx; simp at hx
              have hrun : CreateJob tbl TaskQueue sourceORM destORM jobORM
                  (some c) u p (some req) db st =
                  { responses :=
                      match (ManageSync tbl TaskQueue c st p db2.nextID
                        req.Frequency ActionCreate).result with
                      | Except.error err =>
                        [ErrorResponse 500
                          ("Temporal workflow execution failed for create job schedule: " ++
                            err),
                         SuccessResponse req]
                      | Except.ok _ => [SuccessResponse req]
                    db := { db2 with
                            jobs := db2.jobs ++
                              [{ newJob req source dest p u with ID := db2.nextID }]
                            nextID := db2.nextID + 1 }
                    engine := (ManageSync tbl TaskQueue c st p db2.nextID
                      req.Frequency ActionCreate).engine
                    calls := calls1 ++ calls2 ++
                      [HandlerCall.createJob (newJob req source dest p u),
                       HandlerCall.manageSync p db2.nextID req.Frequency ActionCreate] } := by
                unfold CreateJob
                simp only [hu, h1, h2, hc2]
                rfl
              rw [hrun]
              rcases engine_create_outcome tbl TaskQueue accepts c heng st p db2.nextID
                req.Frequency hnone with ⟨payload, s, hr, he⟩ | ⟨err, hr, he⟩
              · left
                simp only [hr, he]
                refine ⟨fun j => ?_, rfl⟩
                rw [jobExists_append, scheduleExists_set_some, jobExists_congr db2 db hj2, hinv]
                constructor
                · rintro (h | ⟨-, h⟩)
                  · exact Or.inr h
                  · exact Or.inl h.symm
                · rintro (h | h)
                  · exact Or.inr ⟨rfl, h.symm⟩
                  · exact Or.inl h
              · right
                refine ⟨req, err, db2.nextID, rfl, ?_, ?_, ?_⟩
                · simp only [hr]
                · simp only []
                  rw [jobExists_append]
                  exact Or.inr ⟨rfl, rfl⟩
                · simp only [he]
                  unfold scheduleExists
                  rw [hnone]
                  simp
            · left
              unfold CreateJob
              simp only [hu, h1, h2, hc]
              exact ⟨fun j => (jobExists_congr db2 db hj2 p j).trans (hinv j), rfl⟩

/-- `DeleteJob` on a plain persistence layer and the store of schedules. -/
theorem DeleteJob_correspondence (tbl : Char → Char) (TaskQueue : String)
    (accepts : ScheduleSpec → Bool) (c : ScheduleClient Store) (jobORM : JobORM MemDB)
    (cancel : Job → String → Store → Except String Unit × Store) (p : String) (db : MemDB)
    (st : Store) (idStr : String) (hjob : PlainJobTable jobORM) (heng : StoreEngine accepts c)
    (hcancel : ∀ job q e, (cancel job q e).2 = e)
    (hinv : ∀ j, jobExists db p j ↔ scheduleExists st p j)
    (hproj : ∀ id job, Atoi idStr = some id → jobORM.GetByID id db = Except.ok job →
      job.ProjectID = p) :
    ((∀ j,
        jobExists (DeleteJob tbl TaskQueue jobORM cancel (some c) idStr db
          st).db p j ↔
        scheduleExists (DeleteJob tbl TaskQueue jobORM cancel (some c)
          idStr db st).engine p j) ∧
      (DeleteJob tbl TaskQueue jobORM cancel (some c) idStr db
        st).responses.length = 1) ∨
    (∃ j,
      (DeleteJob tbl TaskQueue jobORM cancel (some c) idStr db
        st).responses = [ErrorResponse 500 "Failed to delete job"] ∧
      jobExists (DeleteJob tbl TaskQueue jobORM cancel (some c) idStr db
        st).db p j ∧
      ¬ scheduleExists (DeleteJob tbl TaskQueue jobORM cancel (some c)
        idStr db st).engine p j) := by
  cases hid : Atoi idStr with
  | none =>
    rw [DeleteJob_invalid_id tbl TaskQueue jobORM cancel _ idStr db st hid]
    exact Or.inl ⟨hinv, rfl⟩
  | some id =>
    cases hget : jobORM.GetByID id db with
    | error err =>
      rw [DeleteJob_not_found tbl TaskQueue jobORM cancel _ idStr id db st err hid hget]
      exact Or.inl ⟨hinv, rfl⟩
    | ok job =>
      have hp := hproj id job hid hget
      obtain ⟨hmem, hjid⟩ := hjob.1 id db job hget
      rcases hc : cancel job job.ProjectID st with ⟨r, e1⟩
      have he1 : e1 = st := by
        have := hcancel job job.ProjectID st
        rw [hc] at this
        exact this
      subst he1
      cases r with
      | error err =>
        rw [DeleteJob_cancel_failed tbl TaskQueue jobORM cancel _ idStr id db e1 e1 job err
          hid hget hc]
        exact Or.inl ⟨hinv, rfl⟩
      | ok v =>
        have hex : scheduleExists e1 p job.ID := (hinv _).mp ⟨job, hmem, hp, rfl⟩
        obtain ⟨s, hs⟩ : ∃ s, e1 (scheduleID job.ProjectID job.ID) = some s := by
          rw [hp]
          unfold scheduleExists at hex
          exact Option.isSome_iff_exists.mp hex
        rcases engine_delete_outcome tbl TaskQueue accepts c heng e1 job.ProjectID job.ID
          job.Frequency s hs with ⟨hr, he⟩ | ⟨serr, hr, he⟩
        · rcases hjob.2.2 id db with hd | ⟨err, hd⟩
          · left
            have hrun : DeleteJob tbl TaskQueue jobORM cancel (some c) idStr db e1 =
                { responses := [SuccessResponse { Name := job.Name }]
                  db := { db with jobs := db.jobs.filter (fun r => r.ID ≠ id) }
                  engine := e1.set (scheduleID job.ProjectID job.ID) none
                  calls := [HandlerCall.cancelJobWorkflow job job.ProjectID,
                    HandlerCall.manageSync job.ProjectID job.ID job.Frequency ActionDelete,
                    HandlerCall.deleteJob id] } := by
              unfold DeleteJob
              simp only [hid, hget, hc, hr, he, hd]
              rfl
            rw [hrun]
            refine ⟨fun j => ?_, rfl⟩
            simp only []
            rw [hp, hjid, jobExists_filter, scheduleExists_set_none, hinv]
          · right
            have hrun : DeleteJob tbl TaskQueue jobORM cancel (some c) idStr db e1 =
                { responses := [ErrorResponse 500 "Failed to delete job"]
                  db := db
                  engine := e1.set (scheduleID job.ProjectID job.ID) none
                  calls := [HandlerCall.cancelJobWorkflow job job.ProjectID,
                    HandlerCall.manageSync job.ProjectID job.ID job.Frequency ActionDelete,
                    HandlerCall.deleteJob id] } := by
              unfold DeleteJob
              simp only [hid, hget, hc, hr, he, hd]
              rfl
            rw [hrun]
            refine ⟨job.ID, rfl, ⟨job, hmem, hp, rfl⟩, ?_⟩
            simp only []
            rw [hp, scheduleExists_set_none]
            exact fun h => h.1 rfl
        · left
          have hrun : DeleteJob tbl TaskQueue jobORM cancel (some c) idStr db e1 =
              { responses :=
                  [ErrorResponse 500
                    ("Temporal workflow execution failed for delete job schedule: " ++ serr)]
                db := db
                engine := e1
                calls := [HandlerCall.cancelJobWorkflow job job.ProjectID,
                  HandlerCall.manageSync job.ProjectID job.ID job.Frequency ActionDelete] } := by
            unfold DeleteJob
            simp only [hid, hget, hc, hr, he]
          rw [hrun]
          exact ⟨hinv, rfl⟩

theorem oneJobRun_correspondence (j : Int) :
    jobExists oneJobRun.db "p" j ↔ scheduleExists oneJobRun.engine "p" j := by
  have he : oneJobRun.engine = Store.empty.set (scheduleID "p" 3) (some
      { Action := { ID := workflowID "p" 3, Workflow := RunSyncWorkflow
                    Args := [3], TaskQueue := "OLAKE_DOCKER_TASK_QUEUE" }
        Spec := { CronExpressions := [ToCron id "5-minutes"] }
        Overlap := ScheduleOverlapPolicy.SKIP, Paused := false, Note := "" }) := by
    unfold oneJobRun
    rfl
  rw [he, scheduleExists_set_some]
  have hj : ∀ r ∈ oneJobRun.db.jobs, r.ProjectID = "p" ∧ r.ID = 3 := by decide
  have h3 : jobExists oneJobRun.db "p" 3 := by decide
  constructor
  · rintro ⟨r, hr, -, hid⟩
    exact Or.inl (by rw [← hid]; exact (hj r hr).2)
  · rintro (h | h)
    · rw [h]; exact h3
    · simp [scheduleExists, Store.empty] at h

/-- With a job table whose `Delete` fails, `DeleteJob` for the job row 3, which
has its schedule, deletes the schedule, answers `Failed to delete job` and leaves
the row without a schedule. -/
theorem DeleteJob_row_without_schedule :
    jobExists oneJobRun.db "p" 3 ∧ scheduleExists oneJobRun.engine "p" 3 ∧
    (DeleteJob id "OLAKE_DOCKER_TASK_QUEUE" failingDeleteJobORM
      (fun _ _ e => (Except.ok (), e)) (some (storeClient (fun _ => true))) "3" oneJobRun.db
      oneJobRun.engine).responses.map (fun r => (r.status, r.message)) =
      [(500, "Failed to delete job")] ∧
    jobExists (DeleteJob id "OLAKE_DOCKER_TASK_QUEUE" failingDeleteJobORM
      (fun _ _ e => (Except.ok (), e)) (some (storeClient (fun _ => true))) "3" oneJobRun.db
      oneJobRun.engine).db "p" 3 ∧
    ¬ scheduleExists (DeleteJob id "OLAKE_DOCKER_TASK_QUEUE" failingDeleteJobORM
      (fun _ _ e => (Except.ok (), e)) (some (storeClient (fun _ => true))) "3" oneJobRun.db
      oneJobRun.engine).engine "p" 3 := by
  refine ⟨by decide, by decide, by decide, by decide, by decide⟩

/-- C25, as amended: take any persistence layer over the tables in memory whose
source and destination writes leave the job table and the next ID alone and whose
job table is plain CRUD that may fail, any engine over the store of schedules
whose calls may fail, a Temporal client at hand, cancellations that leave the
schedules as they are and job IDs below the next ID, and start from a state in
which, for every ID of the project, the job row exists iff its schedule exists.
After `CreateJob` has finished, either the job row exists iff its schedule exists
and one response has been written, or the job row was written and the creation
of its schedule failed: then the error of `ManageSync` and the success payload
have both been written and the new job row is left without a schedule. After
`DeleteJob` for a job of the project has finished, either the job row exists iff
its schedule exists and one response has been written, or the schedule was
deleted and the deletion of the row failed: then `Failed to delete job` has been
written and the job row is left without a schedule. -/
theorem job_schedule_correspondence (tbl : Char → Char) (TaskQueue : String)
    (accepts : ScheduleSpec → Bool) (c : ScheduleClient Store) (sourceORM : SourceORM MemDB)
    (destORM : DestinationORM MemDB) (jobORM : JobORM MemDB)
    (cancel : Job → String → Store → Except String Unit × Store) (u : Option Int)
    (p : String) (db : MemDB) (st : Store)
    (hsrc : SourceTableApart sourceORM) (hdst : DestinationTableApart destORM)
    (hjob : PlainJobTable jobORM) (heng : StoreEngine accepts c)
    (hfresh : ∀ r ∈ db.jobs, r.ID < db.nextID)
    (hcancel : ∀ job q e, (cancel job q e).2 = e)
    (hinv : ∀ j, jobExists db p j ↔ scheduleExists st p j) :
    (∀ body : Option CreateJobRequest,
      ((∀ j,
          jobExists (CreateJob tbl TaskQueue sourceORM destORM jobORM (some c) u p body db
            st).db p j ↔
          scheduleExists (CreateJob tbl TaskQueue sourceORM destORM jobORM (some c) u p body db
            st).engine p j) ∧
        (CreateJob tbl TaskQueue sourceORM destORM jobORM (some c) u p body db
          st).responses.length = 1) ∨
      (∃ req err j, body = some req ∧
        (CreateJob tbl TaskQueue sourceORM destORM jobORM (some c) u p body db st).responses =
          [ErrorResponse 500
            ("Temporal workflow execution failed for create job schedule: " ++ err),
           SuccessResponse req] ∧
        jobExists (CreateJob tbl TaskQueue sourceORM destORM jobORM (some c) u p body db
          st).db p j ∧
        ¬ scheduleExists (CreateJob tbl TaskQueue sourceORM destORM jobORM (some c) u p body db
          st).engine p j)) ∧
    (∀ idStr : String,
      (∀ id job, Atoi idStr = some id → jobORM.GetByID id db = Except.ok job →
        job.ProjectID = p) →
      ((∀ j,
          jobExists (DeleteJob tbl TaskQueue jobORM cancel (some c) idStr db st).db p j ↔
          scheduleExists (DeleteJob tbl TaskQueue jobORM cancel (some c) idStr db st).engine
            p j) ∧
        (DeleteJob tbl TaskQueue jobORM cancel (some c) idStr db st).responses.length = 1) ∨
      (∃ j,
        (DeleteJob tbl TaskQueue jobORM cancel (some c) idStr db st).responses =
          [ErrorResponse 500 "Failed to delete job"] ∧
        jobExists (DeleteJob tbl TaskQueue jobORM cancel (some c) idStr db st).db p j ∧
        ¬ scheduleExists (DeleteJob tbl TaskQueue jobORM cancel (some c) idStr db st).engine
          p j)) :=
  ⟨fun body =>
      CreateJob_correspondence tbl TaskQueue accepts c sourceORM destORM jobORM u p db st body
        hsrc hdst hjob heng hfresh hinv,
    fun idStr hproj =>
      DeleteJob_correspondence tbl TaskQueue accepts c jobORM cancel p db st idStr hjob heng
        hcancel hinv hproj⟩

/-- On the empty database and the empty store, a job created every five minutes:
the job row and its schedule both exist afterwards. Then, with a job table whose
`Delete` fails, the deletion of that job: its schedule is deleted and its row is
left. -/
theorem job_schedule_correspondence_witness :
    (((∀ j,
        jobExists (CreateJob id "OLAKE_DOCKER_TASK_QUEUE" memSourceORM memDestinationORM
          memJobORM (some (storeClient (fun _ => true))) (some 3) "p"
          (some (sampleCreateJobRequest "nightly" "5-minutes")) emptyDB Store.empty).db "p" j ↔
        scheduleExists (CreateJob id "OLAKE_DOCKER_TASK_QUEUE" memSourceORM memDestinationORM
          memJobORM (some (storeClient (fun _ => true))) (some 3) "p"
          (some (sampleCreateJobRequest "nightly" "5-minutes")) emptyDB Store.empty).engine
          "p" j) ∧
      (CreateJob id "OLAKE_DOCKER_TASK_QUEUE" memSourceORM memDestinationORM memJobORM
        (some (storeClient (fun _ => true))) (some 3) "p"
        (some (sampleCreateJobRequest "nightly" "5-minutes")) emptyDB
        Store.empty).responses.length = 1) ∨
    (∃ req err j, some (sampleCreateJobRequest "nightly" "5-minutes") = some req ∧
      (CreateJob id "OLAKE_DOCKER_TASK_QUEUE" memSourceORM memDestinationORM memJobORM
        (some (storeClient (fun _ => true))) (some 3) "p"
        (some (sampleCreateJobRequest "nightly" "5-minutes")) emptyDB Store.empty).responses =
        [ErrorResponse 500
          ("Temporal workflow execution failed for create job schedule: " ++ err),
         SuccessResponse req] ∧
      jobExists (CreateJob id "OLAKE_DOCKER_TASK_QUEUE" memSourceORM memDestinationORM
        memJobORM (some (storeClient (fun _ => true))) (some 3) "p"
        (some (sampleCreateJobRequest "nightly" "5-minutes")) emptyDB Store.empty).db "p" j ∧
      ¬ scheduleExists (CreateJob id "OLAKE_DOCKER_TASK_QUEUE" memSourceORM memDestinationORM
        memJobORM (some (storeClient (fun _ => true))) (some 3) "p"
        (some (sampleCreateJobRequest "nightly" "5-minutes")) emptyDB Store.empty).engine
        "p" j)) ∧
    (((∀ j,
        jobExists (DeleteJob id "OLAKE_DOCKER_TASK_QUEUE" failingDeleteJobORM
          (fun _ _ e => (Except.ok (), e)) (some (storeClient (fun _ => true))) "3"
          oneJobRun.db oneJobRun.engine).db "p" j ↔
        scheduleExists (DeleteJob id "OLAKE_DOCKER_TASK_QUEUE" failingDeleteJobORM
          (fun _ _ e => (Except.ok (), e)) (some (storeClient (fun _ => true))) "3"
          oneJobRun.db oneJobRun.engine).engine "p" j) ∧
      (DeleteJob id "OLAKE_DOCKER_TASK_QUEUE" failingDeleteJobORM
        (fun _ _ e => (Except.ok (), e)) (some (storeClient (fun _ => true))) "3"
        oneJobRun.db oneJobRun.engine).responses.length = 1) ∨
    (∃ j,
      (DeleteJob id "OLAKE_DOCKER_TASK_QUEUE" failingDeleteJobORM
        (fun _ _ e => (Except.ok (), e)) (some (storeClient (fun _ => true))) "3"
        oneJobRun.db oneJobRun.engine).responses =
        [ErrorResponse 500 "Failed to delete job"] ∧
      jobExists (DeleteJob id "OLAKE_DOCKER_TASK_QUEUE" failingDeleteJobORM
        (fun _ _ e => (Except.ok (), e)) (some (storeClient (fun _ => true))) "3"
        oneJobRun.db oneJobRun.engine).db "p" j ∧
      ¬ scheduleExists (DeleteJob id "OLAKE_DOCKER_TASK_QUEUE" failingDeleteJobORM
        (fun _ _ e => (Except.ok (), e)) (some (storeClient (fun _ => true))) "3"
        oneJobRun.db oneJobRun.engine).engine "p" j)) :=
  ⟨(job_schedule_correspondence id "OLAKE_DOCKER_TASK_QUEUE" (fun _ => true)
      (storeClient (fun _ => true)) memSourceORM memDestinationORM memJobORM
      (fun _ _ e => (Except.ok (), e)) (some 3) "p" emptyDB Store.empty
      mem_SourceTableApart mem_DestinationTableApart mem_PlainJobTable
      (store_StoreEngine (fun _ => true))
      (fun r hr => by simp [emptyDB] at hr) (fun _ _ _ => rfl)
      (fun j => by simp [jobExists, scheduleExists, emptyDB, Store.empty])).1
      (some (sampleCreateJobRequest "nightly" "5-minutes")),
   (job_schedule_correspondence id "OLAKE_DOCKER_TASK_QUEUE" (fun _ => true)
      (storeClient (fun _ => true)) memSourceORM memDestinationORM failingDeleteJobORM
      (fun _ _ e => (Except.ok (), e)) (some 3) "p" oneJobRun.db oneJobRun.engine
      mem_SourceTableApart mem_DestinationTableApart failingDelete_PlainJobTable
      (store_StoreEngine (fun _ => true))
      (by decide) (fun _ _ _ => rfl) oneJobRun_correspondence).2 "3"
      (fun id job _ hget =>
        (show ∀ r ∈ oneJobRun.db.jobs, r.ProjectID = "p" by decide) job
          (failingDelete_PlainJobTable.1 id oneJobRun.db job hget).1)⟩

/-- C25, the run that breaks it: on the empty database and the empty store, where
no job and no schedule exists, `CreateJob` with an empty frequency writes the job
row 3 of project `p` and `ManageSync` refuses to create its schedule: the row is
left without a schedule. -/
theorem CreateJob_row_without_schedule :
    (∀ q j, jobExists emptyDB q j ↔ scheduleExists Store.empty q j) ∧
    jobExists (CreateJob id "OLAKE_DOCKER_TASK_QUEUE" memSourceORM memDestinationORM memJobORM
      (some (storeClient (fun _ => true))) (some 3) "p"
      (some (sampleCreateJobRequest "nightly" "")) emptyDB Store.empty).db "p" 3 ∧
    ¬ scheduleExists (CreateJob id "OLAKE_DOCKER_TASK_QUEUE" memSourceORM memDestinationORM
      memJobORM (some (storeClient (fun _ => true))) (some 3) "p"
      (some (sampleCreateJobRequest "nightly" "")) emptyDB Store.empty).engine "p" 3 ∧
    (CreateJob id "OLAKE_DOCKER_TASK_QUEUE" memSourceORM memDestinationORM memJobORM
      (some (storeClient (fun _ => true))) (some 3) "p"
      (some (sampleCreateJobRequest "nightly" "")) emptyDB Store.empty).responses.map
        (fun r => r.message) =
      ["Temporal workflow execution failed for create job schedule: " ++
        "frequency is required for creating schedule", "success"] := by
  refine ⟨fun q j => by simp [jobExists, scheduleExists, emptyDB, Store.empty], by decide,
    by decide, by decide⟩

/-! ### What the sibling handlers do -/

theorem deactivateJobs_ok {D : Type} (jobORM : JobORM D) :
    ∀ (jobs : List Job) (db : D), (deactivateJobs jobORM jobs db).1 = true →
      (deactivateJobs jobORM jobs db).2.2 =
        jobs.map (fun job => HandlerCall.updateJob { job with Active := false }) := by
  intro jobs
  induction jobs with
  | nil => intro db _; rfl
  | cons job rest ih =>
    intro db h
    unfold deactivateJobs at h ⊢
    split at h
    · simp at h
    · rename_i v db1 heq
      simp only [heq, List.map_cons, List.cons.injEq, true_and]
      exact ih db1 h

theorem deactivateJobs_calls {D : Type} (jobORM : JobORM D) :
    ∀ (jobs : List Job) (db : D) (id : Int),
      HandlerCall.deleteSource id ∉ (deactivateJobs jobORM jobs db).2.2 := by
  intro jobs
  induction jobs with
  | nil => intro db id h; simp [deactivateJobs] at h
  | cons job rest ih =>
    intro db id h
    unfold deactivateJobs at h
    split at h
    · simp at h
    · rename_i v db1 heq
      simp only [List.mem_cons] at h
      rcases h with h | h
      · cases h
      · exact ih db1 id h

/-- `DeleteSource` deletes the row only as its last call, after every linked job
has been written back inactive; when the linked jobs cannot be fetched it writes
nothing. -/
theorem DeleteSource_deactivates_first {D E : Type} (sourceORM : SourceORM D)
    (jobORM : JobORM D) (id : Int) (db : D) (engine : E) :
    (HandlerCall.deleteSource id ∈ (DeleteSource sourceORM jobORM id db engine).calls →
      ∃ jobs, jobORM.GetBySourceID id db = Except.ok jobs ∧
        (deactivateJobs jobORM jobs db).1 = true ∧
        (DeleteSource sourceORM jobORM id db engine).calls =
          jobs.map (fun job => HandlerCall.updateJob { job with Active := false }) ++
            [HandlerCall.deleteSource id]) ∧
    (∀ err, jobORM.GetBySourceID id db = Except.error err →
      (DeleteSource sourceORM jobORM id db engine).calls = [] ∧
      (DeleteSource sourceORM jobORM id db engine).db = db) ∧
    (DeleteSource sourceORM jobORM id db engine).engine = engine ∧
    (DeleteSource sourceORM jobORM id db engine).responses.length = 1 := by
  cases hsrc : sourceORM.GetByID id db with
  | error e =>
    have hrun : DeleteSource sourceORM jobORM id db engine =
        { responses := [ErrorResponse 404 "Source not found"], db := db, engine := engine
          calls := [] } := by
      unfold DeleteSource
      simp only [hsrc]
    rw [hrun]
    exact ⟨fun h => absurd h (by simp), fun _ _ => ⟨rfl, rfl⟩, rfl, rfl⟩
  | ok source =>
    cases hjobs : jobORM.GetBySourceID id db with
    | error e =>
      have hrun : DeleteSource sourceORM jobORM id db engine =
          { responses := [ErrorResponse 500 "Failed to get jobs for source"], db := db
            engine := engine, calls := [] } := by
        unfold DeleteSource
        simp only [hsrc, hjobs]
      rw [hrun]
      exact ⟨fun h => absurd h (by simp), fun _ _ => ⟨rfl, rfl⟩, rfl, rfl⟩
    | ok jobs =>
      rcases hloop : deactivateJobs jobORM jobs db with ⟨ok, db1, updates⟩
      have hnot : HandlerCall.deleteSource id ∉ updates := by
        have := deactivateJobs_calls jobORM jobs db id
        rw [hloop] at this
        exact this
      cases ok with
      | false =>
        have hrun : DeleteSource sourceORM jobORM id db engine =
            { responses := [ErrorResponse 500 "Failed to deactivate jobs using this source"]
              db := db1, engine := engine, calls := updates } := by
          unfold DeleteSource
          simp only [hsrc, hjobs, hloop]
        rw [hrun]
        exact ⟨fun h => absurd h hnot, fun err he => Except.noConfusion he, rfl, rfl⟩
      | true =>
        have hupd : updates =
            jobs.map (fun job => HandlerCall.updateJob { job with Active := false }) := by
          have := deactivateJobs_ok jobORM jobs db (by rw [hloop])
          rw [hloop] at this
          exact this
        have hcalls : (DeleteSource sourceORM jobORM id db engine).calls =
            updates ++ [HandlerCall.deleteSource id] ∧
            (DeleteSource sourceORM jobORM id db engine).engine = engine ∧
            (DeleteSource sourceORM jobORM id db engine).responses.length = 1 := by
          unfold DeleteSource
          simp only [hsrc, hjobs, hloop]
          split <;> exact ⟨rfl, rfl, rfl⟩
        refine ⟨fun _ => ⟨jobs, rfl, by rw [hloop], by rw [hcalls.1, hupd]⟩,
          fun err he => Except.noConfusion he, hcalls.2.1, hcalls.2.2⟩

/-- `CreateJob` with a name already used in the project, whatever the persistence
layer: it is rejected with `Job name already exists` before any row is written. -/
theorem CreateJob_name_taken {D σ : Type} (tbl : Char → Char) (TaskQueue : String)
    (sourceORM : SourceORM D) (destORM : DestinationORM D) (jobORM : JobORM D)
    (tempClient : Option (ScheduleClient σ)) (u : Option Int) (p : String)
    (req : CreateJobRequest) (db : D) (engine : σ)
    (h : jobORM.IsJobNameUnique p req.Name db = Except.ok false) :
    CreateJob tbl TaskQueue sourceORM destORM jobORM tempClient u p (some req) db engine =
      { responses := [ErrorResponse 400 "Job name already exists"], db := db, engine := engine
        calls := [] } := by
  unfold CreateJob
  simp only [h]

/-- The row `ActivateJob` writes back has the name and the project of the row
found. -/
theorem ActivateJob_keeps_name {D σ : Type} (tbl : Char → Char) (TaskQueue : String)
    (jobORM : JobORM D) (tempClient : Option (ScheduleClient σ)) (now : Nat) (u : Option Int)
    (id : Int) (body : Option JobStatus) (db : D) (engine : σ) (row : Job)
    (h : HandlerCall.updateJob row ∈
      (ActivateJob tbl TaskQueue jobORM tempClient now u id body db engine).calls) :
    ∃ job, jobORM.GetByID id db = Except.ok job ∧ row.ID = job.ID ∧ row.Name = job.Name ∧
      row.ProjectID = job.ProjectID := by
  unfold ActivateJob at h
  split at h
  · simp at h
  · rename_i req
    split at h
    · simp at h
    · rename_i job hjob
      refine ⟨job, hjob, ?_⟩
      simp only [] at h
      split at h
      · rename_i err hs
        cases tempClient with
        | none => simp at h
        | some c => simp at h
      · rename_i hs
        split at h <;>
        · cases tempClient with
          | none =>
            simp only [List.nil_append, List.mem_singleton, HandlerCall.updateJob.injEq] at h
            subst h
            exact ⟨rfl, rfl, rfl⟩
          | some c =>
            simp only [List.singleton_append, List.mem_cons, reduceCtorEq, List.mem_singleton,
              HandlerCall.updateJob.injEq, false_or, List.not_mem_nil, or_false] at h
            subst h
            exact ⟨rfl, rfl, rfl⟩

end OlakeSync
